import Mathlib

/-!
Property database (kvdb): shallow embedding and verified properties.

The development embeds the parts of `kvdb/unqlite.c`, `kvdb/file.c`,
`kvdb/common.c`, `kvdb/server.c` and `kvdb/client.c` that the verified
properties are about.

Conventions of the embedding.

* A byte is a `Nat`; a conversion of a `size_t` to `char` is written `% 256`.
* A `const char*` / `const void*` argument is the list of bytes found in memory
  from the pointer onwards; a pointer that may be `NULL` is an `Option`.
  Reading index `i` of such a region is `getD i 0`.
* `size_t` is 32 bits wide (`SIZE_MAX`); only `--key_len` can wrap.
* Errors are the negated errno values of the C library.
-/

namespace Kvdb

/-- A region of memory, or a byte string. -/
abbrev Bytes := List Nat

/-! ## Constants (`sys/system_properties.h`, `kvdb.h`, `internal.h`, errno) -/

def PROP_VALUE_MAX : Nat := 255
def PROP_NAME_MAX : Nat := 127
def PROP_MSG_MAX : Nat := 3 + PROP_NAME_MAX + PROP_VALUE_MAX

def EPERM : Int := 1
def E2BIG : Int := 7
def ENOMEM : Int := 12
def EINVAL : Int := 22
def ENODATA : Int := 61

/-- The literal `"persist."` (PERSIST_LABEL). -/
def PERSIST_LABEL : Bytes := [112, 101, 114, 115, 105, 115, 116, 46]
def PERSIST_LABEL_LEN : Nat := 8
/-- The literal `"ro."` used by `kvdb_is_readonly`. -/
def RO_LABEL : Bytes := [114, 111, 46]

def KVDB_PERSIST : Int := 0
def KVDB_MEM : Int := 1

/-- Build-time configuration switches the embedded code depends on. -/
structure Config where
  /-- CONFIG_KVDB_TEMPORARY_STORAGE: the volatile namespace exists. -/
  TEMPORARY_STORAGE : Bool
  /-- CONFIG_KVDB_TEMPORARY_PATH is defined (file backend only). -/
  TEMPORARY_PATH : Bool
  /-- CONFIG_KVDB_DUMPLIST: the server handles the `L` request. -/
  DUMPLIST : Bool
deriving DecidableEq, Repr

def KVDB_COUNT (cfg : Config) : Nat := if cfg.TEMPORARY_STORAGE then 2 else 1

/-! ## C library helpers -/

/-- The largest `size_t` (32 bits). -/
def SIZE_MAX : Nat := 4294967295

/-- The value of `--n` for a `size_t n`: zero wraps to SIZE_MAX. -/
def size_dec (n : Nat) : Nat := if n = 0 then SIZE_MAX else n - 1

/-- The value of `++n` for a `size_t n`: SIZE_MAX wraps to zero. -/
def size_inc (n : Nat) : Nat := if n = SIZE_MAX then 0 else n + 1

/-- C `strlen`: the number of bytes before the first NUL. -/
def strlen (s : Bytes) : Nat := (s.takeWhile (fun c => c != 0)).length

/-- C `strncmp`; a region that ends is read as NUL from there on. -/
def strncmp : Bytes → Bytes → Nat → Int
  | _, _, 0 => 0
  | a, b, n + 1 =>
    let ca := a.headD 0
    let cb := b.headD 0
    if ca ≠ cb then (ca : Int) - (cb : Int)
    else if ca = 0 then 0
    else strncmp a.tail b.tail n

/-- Embedding of `kvdb_get_index` of `common.c`. -/
def kvdb_get_index (cfg : Config) (key : Bytes) : Int :=
  if strncmp key PERSIST_LABEL PERSIST_LABEL_LEN = 0 then KVDB_PERSIST
  else if cfg.TEMPORARY_STORAGE then KVDB_MEM
  else -EINVAL

/-! ## The embedded key-value engine

The engine is an external library.  One handle is modelled as the list of
its records `(key, data)`, at most one record per key, in cursor order. -/

/-- One engine handle (`unqlite*`). -/
abbrev unqlite := List (Bytes × Bytes)

def UNQLITE_OK : Int := 0
def UNQLITE_NOTFOUND : Int := -6

/-- Record lookup by key. -/
def unqlite_lookup (db : unqlite) (k : Bytes) : Option Bytes :=
  (db.find? (fun r => r.1 == k)).map Prod.snd

/-- Embedding of `unqlite_kv_store(db, key, nKeyLen, data, nDataLen)`: insert or replace
the record of the key. -/
def unqlite_kv_store (db : unqlite) (key : Bytes) (nKeyLen : Nat) (data : Bytes)
    (nDataLen : Nat) : Int × unqlite :=
  let k := key.take nKeyLen
  (UNQLITE_OK, (k, data.take nDataLen) :: db.filter (fun r => r.1 != k))

/-- Embedding of `unqlite_kv_fetch(db, key, nKeyLen, buf, &len)`.  The result is the status,
the new value of `len` and the bytes copied to `buf`.  With `buf == NULL`
(`hasBuf = false`) only the data length is reported; otherwise at most `len`
bytes are copied and `len` becomes the number of bytes copied. -/
def unqlite_kv_fetch (db : unqlite) (key : Bytes) (nKeyLen : Nat) (hasBuf : Bool)
    (len : Nat) : Int × Nat × Bytes :=
  match unqlite_lookup db (key.take nKeyLen) with
  | none => (UNQLITE_NOTFOUND, len, [])
  | some d =>
    if hasBuf then (UNQLITE_OK, min len d.length, d.take len)
    else (UNQLITE_OK, d.length, [])

/-- Embedding of `unqlite_kv_delete(db, key, nKeyLen)`. -/
def unqlite_kv_delete (db : unqlite) (key : Bytes) (nKeyLen : Nat) : Int × unqlite :=
  let k := key.take nKeyLen
  match unqlite_lookup db k with
  | none => (UNQLITE_NOTFOUND, db)
  | some _ => (UNQLITE_OK, db.filter (fun r => r.1 != k))

/-! ## `kvdb/unqlite.c` -/

/-- The struct `kvdb` of `unqlite.c`: `db[KVDB_PERSIST]` and `db[KVDB_MEM]`
(the latter is used only with TEMPORARY_STORAGE). -/
structure kvdb where
  persist : unqlite
  mem : unqlite
deriving DecidableEq, Repr

/-- The handle `kvdb->db[i]`. -/
def kvdb.db (kv : kvdb) (i : Int) : unqlite := if i = KVDB_PERSIST then kv.persist else kv.mem

/-- Assignment of the records behind `kvdb->db[i]`. -/
def kvdb.setDb (kv : kvdb) (i : Int) (d : unqlite) : kvdb :=
  if i = KVDB_PERSIST then { kv with persist := d } else { kv with mem := d }

def kvdb_is_readonly (key : Bytes) : Bool := strncmp key RO_LABEL 3 == 0

def unqlite_kv_is_exist (db : unqlite) (key : Bytes) (key_len : Nat) : Bool :=
  decide ((unqlite_kv_fetch db key key_len false 0).1 ≥ 0)

namespace UnqliteBackend

/-- Embedding of `kvdb_set` of `unqlite.c`. -/
def kvdb_set (cfg : Config) (kv : kvdb) (key : Option Bytes) (key_len : Nat)
    (value : Bytes) (val_len : Nat) (force : Bool) : Int × kvdb :=
  let key_len := size_dec key_len
  if key_len ≥ PROP_NAME_MAX then (-E2BIG, kv)
  else match key with
  | none => (-EINVAL, kv)
  | some key =>
    if key.getD key_len 0 ≠ 0 then (-EINVAL, kv)
    else if val_len ≥ PROP_VALUE_MAX then (-E2BIG, kv)
    else
      let i := kvdb_get_index cfg key
      if i < 0 then (i, kv)
      else if !force && kvdb_is_readonly key && unqlite_kv_is_exist (kv.db i) key (key_len + 1)
      then (-EPERM, kv)
      else
        let r := unqlite_kv_store (kv.db i) key (size_inc key_len) value val_len
        (r.1, kv.setDb i r.2)

/-- Embedding of `kvdb_get` of `unqlite.c`; `hasBuf` tells whether `value` is non-NULL.  The
result is the return value and the bytes written to `value`. -/
def kvdb_get (cfg : Config) (kv : kvdb) (key : Bytes) (key_len : Nat)
    (hasBuf : Bool) (val_len : Nat) : Int × Bytes :=
  let key_len := size_dec key_len
  if key_len ≥ PROP_NAME_MAX then (-E2BIG, [])
  else if key.getD key_len 0 ≠ 0 then (-EINVAL, [])
  else
    let i := kvdb_get_index cfg key
    if i < 0 then (i, [])
    else
      let r := unqlite_kv_fetch (kv.db i) key (size_inc key_len) hasBuf val_len
      if r.1 < 0 then (r.1, r.2.2)
      else if r.2.1 ≤ 0 then (-EINVAL, r.2.2)
      else ((r.2.1 : Int), r.2.2)

/-- Embedding of `kvdb_delete` of `unqlite.c`. -/
def kvdb_delete (cfg : Config) (kv : kvdb) (key : Bytes) (key_len : Nat) : Int × kvdb :=
  let key_len := size_dec key_len
  if key_len ≥ PROP_NAME_MAX then (-E2BIG, kv)
  else if key.getD key_len 0 ≠ 0 then (-EINVAL, kv)
  else if kvdb_is_readonly key then (-EPERM, kv)
  else
    let i := kvdb_get_index cfg key
    if i < 0 then (i, kv)
    else
      let r := unqlite_kv_delete (kv.db i) key (size_inc key_len)
      (r.1, kv.setDb i r.2)

/-- Embedding of `kvdb_list` of `unqlite.c`: the calls `consume(key, value, len, cookie)` it
makes, in order: a cursor walk of `db[0]`, then of `db[1]` when it exists. -/
def kvdb_list (cfg : Config) (kv : kvdb) : List (Bytes × Bytes × Nat) :=
  kv.persist.map (fun r => (r.1, r.2, r.2.length)) ++
    (if cfg.TEMPORARY_STORAGE then kv.mem.map (fun r => (r.1, r.2, r.2.length)) else [])

/-- Embedding of `kvdb_commit` of `unqlite.c`; `commit i` is the result of
`unqlite_commit(kvdb->db[i])`. -/
def kvdb_commit (cfg : Config) (commit : Nat → Int) : Int :=
  (List.range (KVDB_COUNT cfg)).foldl
    (fun ret i => if commit i < 0 then (if ret = 0 then commit i else ret) else ret) 0

end UnqliteBackend

/-! ## `kvdb/file.c`

A namespace directory is the list of its regular files `(name, content)`.
What `open` and `write` return in `kvdb_file_set` is given by the
environment. -/

/-- One directory of the file-per-key backend. -/
abbrev Dir := List (Bytes × Bytes)

def ENOENT : Int := 2

/-- The directories behind CONFIG_KVDB_PERSIST_PATH and
CONFIG_KVDB_TEMPORARY_PATH. -/
structure fs where
  persist_dir : Dir
  temporary_dir : Dir
deriving DecidableEq, Repr

/-- The C string that starts a region: the bytes before the first NUL. -/
def cstr (s : Bytes) : Bytes := s.takeWhile (fun c => c != 0)

def EINTR : Int := 4

/-- What the file backend cannot decide by itself.  `open_errno temporary name`
is 0 when `open(filepath, O_WRONLY | O_CREAT | O_TRUNC | O_CLOEXEC, 0666)`
succeeds for the file `name` of a namespace directory (`temporary` tells
whether it is the one of CONFIG_KVDB_TEMPORARY_PATH) and the value of `errno`
when it fails; `errno` is the value of `errno` after a failing `write`;
`writes` holds the results of the `write` calls of one `kvdb_file_set` (once
the list is exhausted `write` stores all it is given). -/
structure FileEnv where
  open_errno : Bool → Bytes → Int
  errno : Int
  writes : List Int

/-- A file system on which every `open` of `kvdb_file_set` succeeds and every
`write` stores all it is given. -/
def file_env_ok : FileEnv := ⟨fun _ _ => 0, 0, []⟩

/-- The loop `while (nbyteswrite < val_len)` of `kvdb_file_set`: `writes` holds the
results of the `write` calls to come (once the list is exhausted `write`
stores all it is given), `nbyteswrite` is the counter and `file` the content
of the file so far.  A call `write(fd, value, val_len)` that returns `r`
appends the first `r` bytes of `value` to the file.  The result is the
return value and the content of the file. -/
def kvdb_file_set_loop (errno : Int) (value : Bytes) (val_len : Nat) :
    List Int → Nat → Bytes → Int × Bytes
  | [], nbyteswrite, file =>
    if nbyteswrite < val_len then (0, file ++ value.take val_len) else (0, file)
  | result :: writes, nbyteswrite, file =>
    if nbyteswrite < val_len then
      if result < 0 then
        if result = -EINTR then kvdb_file_set_loop errno value val_len writes nbyteswrite file
        else (-errno, file)
      else
        kvdb_file_set_loop errno value val_len writes (nbyteswrite + result.toNat)
          (file ++ value.take (min result.toNat val_len))
    else (0, file)

/-- Embedding of `kvdb_file_set`; `open_errno` is 0 when the `open` of the file
named by the C string `key` succeeds and the value of `errno` when it fails,
`errno` and `writes` are as in `FileEnv`.  When `open` fails nothing is
changed; when it succeeds the file is created or truncated, then written by
the loop. -/
def kvdb_file_set (open_errno : Int) (errno : Int) (writes : List Int) (d : Dir) (key : Bytes)
    (value : Bytes) (val_len : Nat) : Int × Dir :=
  if val_len ≥ PROP_VALUE_MAX then (-E2BIG, d)
  else if open_errno ≠ 0 then (-open_errno, d)
  else
    ((kvdb_file_set_loop errno value val_len writes 0 []).1,
      (cstr key, (kvdb_file_set_loop errno value val_len writes 0 []).2) ::
        d.filter (fun f => f.1 != cstr key))

/-- The function `kvdb_file_set` when `open` succeeds, with the results of its
`write` calls. -/
def kvdb_file_set_writes (errno : Int) (writes : List Int) (d : Dir) (key : Bytes)
    (value : Bytes) (val_len : Nat) : Int × Dir :=
  kvdb_file_set 0 errno writes d key value val_len

/-- Embedding of `kvdb_file_get`: read up to `val_len` bytes of the file; the result is the
number of bytes read and the bytes stored in the buffer. -/
def kvdb_file_get (d : Dir) (key : Bytes) (val_len : Nat) : Int × Bytes :=
  match d.find? (fun f => f.1 == cstr key) with
  | none => (-ENOENT, [])
  | some f => (((f.2.take val_len).length : Nat), f.2.take val_len)

/-- Embedding of `kvdb_file_delete`: `unlink` of the file named by the C string `key`. -/
def kvdb_file_delete (d : Dir) (key : Bytes) : Int × Dir :=
  match d.find? (fun f => f.1 == cstr key) with
  | none => (-1, d)
  | some _ => (0, d.filter (fun f => f.1 != cstr key))

namespace FileBackend

/-- Embedding of `kvdb_set` of `file.c`. -/
def kvdb_set (fenv : FileEnv) (cfg : Config) (st : fs) (key : Option Bytes) (_key_len : Nat)
    (value : Option Bytes) (val_len : Nat) (_force : Bool) : Int × fs :=
  match key, value with
  | some key, some value =>
    let ret := kvdb_get_index cfg key
    if ret < 0 then (ret, st)
    else if cfg.TEMPORARY_PATH && ret == KVDB_MEM then
      let r := kvdb_file_set (fenv.open_errno true (cstr key)) fenv.errno fenv.writes
        st.temporary_dir key value val_len
      (r.1, { st with temporary_dir := r.2 })
    else
      let r := kvdb_file_set (fenv.open_errno false (cstr key)) fenv.errno fenv.writes
        st.persist_dir key value val_len
      (r.1, { st with persist_dir := r.2 })
  | _, _ => (-EINVAL, st)

/-- Embedding of `kvdb_get` of `file.c`; `hasBuf` tells whether `value` is non-NULL. -/
def kvdb_get (cfg : Config) (st : fs) (key : Option Bytes) (_key_len : Nat)
    (hasBuf : Bool) (val_len : Nat) : Int × Bytes :=
  match key, hasBuf with
  | some key, true =>
    let ret := kvdb_get_index cfg key
    if ret < 0 then (ret, [])
    else if cfg.TEMPORARY_PATH && ret == KVDB_MEM then kvdb_file_get st.temporary_dir key val_len
    else kvdb_file_get st.persist_dir key val_len
  | _, _ => (-EINVAL, [])

/-- Embedding of `kvdb_delete` of `file.c`. -/
def kvdb_delete (cfg : Config) (st : fs) (key : Option Bytes) (_key_len : Nat) : Int × fs :=
  match key with
  | none => (-EINVAL, st)
  | some key =>
    let ret := kvdb_get_index cfg key
    if ret < 0 then (ret, st)
    else if cfg.TEMPORARY_PATH && ret == KVDB_MEM then
      let r := kvdb_file_delete st.temporary_dir key
      (r.1, { st with temporary_dir := r.2 })
    else
      let r := kvdb_file_delete st.persist_dir key
      (r.1, { st with persist_dir := r.2 })

/-- Embedding of `kvdb_list` of `file.c`: the `consume` calls, persist directory first. -/
def kvdb_list (cfg : Config) (st : fs) : List (Bytes × Bytes × Nat) :=
  st.persist_dir.map (fun f => (f.1 ++ [0], f.2.take PROP_VALUE_MAX, (f.2.take PROP_VALUE_MAX).length)) ++
    (if cfg.TEMPORARY_PATH then
      st.temporary_dir.map
        (fun f => (f.1 ++ [0], f.2.take PROP_VALUE_MAX, (f.2.take PROP_VALUE_MAX).length))
     else [])

/-- Embedding of `kvdb_commit` of `file.c`. -/
def kvdb_commit : Int := 0

end FileBackend

/-! ## `kvdb/server.c` -/

/-- One result of `recv` on the stream socket: some bytes are available (an
empty list stands for a closed peer, `recv` returns 0), or the call fails and
returns -1. -/
inductive RecvResult
  | data (bs : Bytes)
  | error
deriving DecidableEq, Repr

/-- What the successive `recv` calls on a socket will find; when the list is
exhausted the peer has closed. -/
abbrev Sock := List RecvResult

/-- Embedding of `recv(fd, buf, n, 0)`: the return value, the bytes stored and what is
left for later calls. -/
def recv (s : Sock) (n : Nat) : Int × Bytes × Sock :=
  match s with
  | [] => (0, [], [])
  | RecvResult.error :: rest => (-1, [], rest)
  | RecvResult.data bs :: rest =>
    if bs.length ≤ n then ((bs.length : Int), bs, rest)
    else ((n : Int), bs.take n, RecvResult.data (bs.drop n) :: rest)

/-- Store `data` into the buffer `buf` from index `off` on. -/
def buf_write (buf : Bytes) (off : Nat) (data : Bytes) : Bytes :=
  buf.take off ++ data ++ buf.drop (off + data.length)

/-- Embedding of `kvdb_recv(sockfd, buf, offset, len)`: the return value, the buffer and
the rest of the stream.  When the loop goes round again the last `recv`
returned fewer bytes than asked for, hence consumed a whole result, and the
stream that is left is `rest`. -/
def kvdb_recv : Sock → Bytes → Nat → Nat → Int × Bytes × Sock
  | [], buf, offset, len =>
    if offset < len then (-ENODATA, buf, []) else ((len : Int), buf, [])
  | ev :: rest, buf, offset, len =>
    if offset < len then
      let r := recv (ev :: rest) (len - offset)
      if r.1 < 0 then (r.1, buf, r.2.2)
      else if r.1 = 0 then (-ENODATA, buf, r.2.2)
      else if offset + r.1.toNat < len then
        kvdb_recv rest (buf_write buf offset r.2.1) (offset + r.1.toNat) len
      else ((len : Int), buf_write buf offset r.2.1, r.2.2)
    else ((len : Int), buf, ev :: rest)

/-- The four bytes of an `int32_t` in memory (little endian, two's
complement), as `send(fd, &err, 4, 0)` writes them. -/
def int32_bytes (e : Int) : Bytes :=
  let u := (e % 4294967296).toNat
  [u % 256, (u / 256) % 256, (u / 65536) % 256, (u / 16777216) % 256]

/-- What the handler does to the outside, in program order: calls into the
storage backend and system calls on sockets. -/
inductive Event
  | kvdb_set (key : Bytes) (key_len : Nat) (value : Bytes) (val_len : Nat) (force : Bool)
  | kvdb_get (key : Bytes) (key_len : Nat) (val_len : Nat)
  | kvdb_delete (key : Bytes) (key_len : Nat)
  | send (fd : Nat) (data : Bytes)
  | sendmsg (fd : Nat) (data : Bytes)
  | close (fd : Nat)
deriving DecidableEq, Repr

/-- The storage backend the server is linked with. -/
structure Backend (σ : Type) where
  kvdb_set : σ → Bytes → Nat → Bytes → Nat → Bool → Int × σ
  kvdb_get : σ → Bytes → Nat → Nat → Int × Bytes
  kvdb_delete : σ → Bytes → Nat → Int × σ
  kvdb_list : σ → List (Bytes × Bytes × Nat)
  kvdb_commit : σ → Int
  /-- The call `kvdb_get(kvdb, key, key_len, NULL, val_len)`. -/
  kvdb_get_null : σ → Bytes → Nat → Nat → Int

/-- The server linked with `unqlite.c`. -/
def unqliteBackend (cfg : Config) (commit : Nat → Int) : Backend kvdb where
  kvdb_set := fun kv key key_len value val_len force =>
    UnqliteBackend.kvdb_set cfg kv (some key) key_len value val_len force
  kvdb_get := fun kv key key_len val_len => UnqliteBackend.kvdb_get cfg kv key key_len true val_len
  kvdb_delete := fun kv key key_len => UnqliteBackend.kvdb_delete cfg kv key key_len
  kvdb_list := fun kv => UnqliteBackend.kvdb_list cfg kv
  kvdb_commit := fun _ => UnqliteBackend.kvdb_commit cfg commit
  kvdb_get_null := fun kv key key_len val_len =>
    (UnqliteBackend.kvdb_get cfg kv key key_len false val_len).1

/-- The server linked with `file.c`, on the file system `fenv`. -/
def fileBackendEnv (fenv : FileEnv) (cfg : Config) : Backend fs where
  kvdb_set := fun st key key_len value val_len force =>
    FileBackend.kvdb_set fenv cfg st (some key) key_len (some value) val_len force
  kvdb_get := fun st key key_len val_len => FileBackend.kvdb_get cfg st (some key) key_len true val_len
  kvdb_delete := fun st key key_len => FileBackend.kvdb_delete cfg st (some key) key_len
  kvdb_list := fun st => FileBackend.kvdb_list cfg st
  kvdb_commit := fun _ => FileBackend.kvdb_commit
  kvdb_get_null := fun st key key_len val_len =>
    (FileBackend.kvdb_get cfg st (some key) key_len false val_len).1

/-- The server linked with `file.c`, on a file system on which every `open` of
`kvdb_file_set` succeeds and every `write` stores all it is given. -/
def fileBackend (cfg : Config) : Backend fs := fileBackendEnv file_env_ok cfg

/-- One element of the monitor list: the socket and the pattern (a C string,
kept without its NUL). -/
structure kvdb_monitor where
  fd : Nat
  key : Bytes
deriving DecidableEq, Repr

/-- The struct `kvdb_server`: the backend handle and the monitor list, head
first. -/
structure kvdb_server (σ : Type) where
  kvdb : σ
  head : List kvdb_monitor

/-- What the handler cannot decide by itself: allocation results, the content
of fresh memory, system call results, the library function `fnmatch` (called
with FNM_NOESCAPE) and the effect of `kvdb_load` on the store for the
configured source files. -/
structure ServerEnv (σ : Type) where
  malloc_ok : Bool
  heap : Bytes
  zalloc_ok : Bool
  epoll_ctl_add : Int
  sendmsg_fails : Nat → Bool
  fnmatch : Bytes → Bytes → Int
  kvdb_load : σ → σ

/-- Embedding of `kvdb_monitor_open`: the return value and the monitor list. -/
def kvdb_monitor_open {σ : Type} (env : ServerEnv σ) (server : kvdb_server σ) (fd : Nat)
    (key : Bytes) (_key_len : Nat) : Int × kvdb_server σ :=
  if !env.zalloc_ok then (-ENOMEM, server)
  else if env.epoll_ctl_add < 0 then (env.epoll_ctl_add, server)
  else (0, { server with head := ⟨fd, cstr key⟩ :: server.head })

/-- The frame `kvdb_monitor_notify` hands to `sendmsg`. -/
def notify_frame (key : Bytes) (value : Option Bytes) (val_len : Nat) : Bytes :=
  let key_len := strlen key + 1
  [key_len % 256, val_len % 256] ++ key.take key_len ++
    (match value with
     | some v => v.take val_len
     | none => [])

/-- The walk of the monitor list in `kvdb_monitor_notify`: the list that is
left and the system calls made. -/
def kvdb_monitor_walk {σ : Type} (env : ServerEnv σ) (key : Bytes) (frame : Bytes) :
    List kvdb_monitor → List kvdb_monitor × List Event
  | [] => ([], [])
  | mon :: tmp =>
    let r := kvdb_monitor_walk env key frame tmp
    if env.fnmatch mon.key (cstr key) ≠ 0 then (mon :: r.1, r.2)
    else if env.sendmsg_fails mon.fd then
      (r.1, Event.sendmsg mon.fd frame :: Event.close mon.fd :: r.2)
    else (mon :: r.1, Event.sendmsg mon.fd frame :: r.2)

/-- Embedding of `kvdb_monitor_notify`. -/
def kvdb_monitor_notify {σ : Type} (env : ServerEnv σ) (server : kvdb_server σ) (key : Bytes)
    (value : Option Bytes) (val_len : Nat) : kvdb_server σ × List Event :=
  let r := kvdb_monitor_walk env key (notify_frame key value val_len) server.head
  ({ server with head := r.1 }, r.2)

/-- The frame `kvdb_list_consume` hands to `sendmsg`. -/
def kvdb_list_consume (fd : Nat) (c : Bytes × Bytes × Nat) : Event :=
  let key_len := strlen c.1 + 1
  Event.sendmsg fd ([key_len % 256, c.2.2 % 256] ++ c.1.take key_len ++ c.2.1.take c.2.2)

/-- What `kvdb_client` returns and leaves behind. -/
structure ClientResult (σ : Type) where
  dirty : Bool
  server : kvdb_server σ
  trace : List Event

/-- The label `out:` of `kvdb_client`: free the message, close the socket and
return `dirty`. -/
def kvdb_client_out {σ : Type} (dirty : Bool) (server : kvdb_server σ) (trace : List Event)
    (fd : Nat) : ClientResult σ :=
  ⟨dirty, server, trace ++ [Event.close fd]⟩

/-- The `case 'D'` of `kvdb_client`; `msg` and `len` are the buffer and the result
of the first `recv`, `sock` is what is left of the stream. -/
def kvdb_client_D {σ : Type} (B : Backend σ) (env : ServerEnv σ) (server : kvdb_server σ)
    (fd : Nat) (msg : Bytes) (len : Nat) (sock : Sock) : ClientResult σ :=
  let key_len := msg.getD 1 0 % 256
  let end_pos := key_len + 2
  if end_pos ≥ PROP_MSG_MAX then kvdb_client_out false server [] fd
  else
    let r := kvdb_recv sock msg len end_pos
    let key := r.2.1.drop 2
    if r.1 > 0 then
      let err := B.kvdb_delete server.kvdb key key_len
      let server1 : kvdb_server σ := { server with kvdb := err.2 }
      if err.1 ≥ 0 then
        let n := kvdb_monitor_notify env server1 key none 0
        kvdb_client_out true n.1
          ([Event.kvdb_delete key key_len] ++ n.2 ++ [Event.send fd (int32_bytes err.1)]) fd
      else
        kvdb_client_out false server1
          [Event.kvdb_delete key key_len, Event.send fd (int32_bytes err.1)] fd
    else kvdb_client_out false server [] fd

/-- The `case 'G'` of `kvdb_client`. -/
def kvdb_client_G {σ : Type} (B : Backend σ) (server : kvdb_server σ)
    (fd : Nat) (msg : Bytes) (len : Nat) (sock : Sock) : ClientResult σ :=
  let key_len := msg.getD 1 0 % 256
  let val_len := msg.getD 2 0 % 256
  let end_pos := key_len + 3
  if end_pos ≥ PROP_MSG_MAX then kvdb_client_out false server [] fd
  else
    let r := kvdb_recv sock msg len end_pos
    let key := r.2.1.drop 3
    if r.1 > 0 then
      let g := B.kvdb_get server.kvdb key key_len val_len
      if g.1 > 0 then
        kvdb_client_out false server
          [Event.kvdb_get key key_len val_len, Event.send fd (g.2.take g.1.toNat)] fd
      else kvdb_client_out false server [Event.kvdb_get key key_len val_len] fd
    else kvdb_client_out false server [] fd

/-- The `case 'S'` of `kvdb_client`. -/
def kvdb_client_S {σ : Type} (B : Backend σ) (env : ServerEnv σ) (server : kvdb_server σ)
    (fd : Nat) (msg : Bytes) (len : Nat) (sock : Sock) : ClientResult σ :=
  let key_len := msg.getD 1 0 % 256
  let val_len := msg.getD 2 0 % 256
  let end_pos := key_len + val_len + 3
  if end_pos ≥ PROP_MSG_MAX then kvdb_client_out false server [] fd
  else
    let r := kvdb_recv sock msg len end_pos
    let key := r.2.1.drop 3
    let value := r.2.1.drop (3 + key_len)
    if r.1 > 0 then
      let err := B.kvdb_set server.kvdb key key_len value val_len false
      let server1 : kvdb_server σ := { server with kvdb := err.2 }
      if err.1 ≥ 0 then
        let n := kvdb_monitor_notify env server1 key (some value) val_len
        kvdb_client_out true n.1
          ([Event.kvdb_set key key_len value val_len false] ++ n.2 ++
            [Event.send fd (int32_bytes err.1)]) fd
      else
        kvdb_client_out false server1
          [Event.kvdb_set key key_len value val_len false, Event.send fd (int32_bytes err.1)] fd
    else kvdb_client_out false server [] fd

/-- The `case 'M'` of `kvdb_client`.  The index `key_len + 1` of `msg` is
`key[key_len - 1]` for `key = msg + 2`. -/
def kvdb_client_M {σ : Type} (env : ServerEnv σ) (server : kvdb_server σ)
    (fd : Nat) (msg : Bytes) (len : Nat) (sock : Sock) : ClientResult σ :=
  let key_len := msg.getD 1 0 % 256
  let end_pos := key_len + 2
  if end_pos ≥ PROP_MSG_MAX then kvdb_client_out false server [] fd
  else
    let r := kvdb_recv sock msg len end_pos
    let key := r.2.1.drop 2
    if r.1 < 0 || r.2.1.getD (key_len + 1) 0 != 0 then kvdb_client_out false server [] fd
    else if r.1 > 0 then
      let err := kvdb_monitor_open env server fd key key_len
      ⟨false, err.2, [Event.send fd (int32_bytes err.1)]⟩
    else ⟨false, server, []⟩

/-- The `switch (msg[0])` of `kvdb_client` followed by the label `out:`. -/
def kvdb_client_switch {σ : Type} (cfg : Config) (B : Backend σ) (env : ServerEnv σ)
    (server : kvdb_server σ) (fd : Nat) (msg : Bytes) (len : Nat) (sock : Sock) :
    ClientResult σ :=
  if msg.getD 0 0 = 68 then kvdb_client_D B env server fd msg len sock
  else if msg.getD 0 0 = 71 then kvdb_client_G B server fd msg len sock
  else if msg.getD 0 0 = 83 then kvdb_client_S B env server fd msg len sock
  else if msg.getD 0 0 = 76 ∧ cfg.DUMPLIST = true then
    kvdb_client_out false server
      ((B.kvdb_list server.kvdb).map (kvdb_list_consume fd) ++ [Event.send fd [0, 0]]) fd
  else if msg.getD 0 0 = 67 then
    kvdb_client_out false server [Event.send fd (int32_bytes (B.kvdb_commit server.kvdb))] fd
  else if msg.getD 0 0 = 82 then
    kvdb_client_out false { server with kvdb := env.kvdb_load server.kvdb } [] fd
  else if msg.getD 0 0 = 77 then kvdb_client_M env server fd msg len sock
  else kvdb_client_out false server [] fd

/-- Embedding of `kvdb_client(server, fd)`; `sock` is what the socket `fd` will deliver. -/
def kvdb_client {σ : Type} (cfg : Config) (B : Backend σ) (env : ServerEnv σ)
    (server : kvdb_server σ) (fd : Nat) (sock : Sock) : ClientResult σ :=
  if env.malloc_ok = false then kvdb_client_out false server [] fd
  else if (recv sock PROP_MSG_MAX).1 ≤ 0 then kvdb_client_out false server [] fd
  else
    kvdb_client_switch cfg B env server fd
      (buf_write (buf_write env.heap 0 [0, 0, 0]) 0 (recv sock PROP_MSG_MAX).2.1)
      (recv sock PROP_MSG_MAX).1.toNat (recv sock PROP_MSG_MAX).2.2

/-- A heap of PROP_MSG_MAX bytes of value 170, used in examples. -/
def heap_aa : Bytes := List.replicate PROP_MSG_MAX 170

/-- An environment in which every allocation and system call succeeds and
`fnmatch` compares the two strings byte for byte. -/
def env_ok (σ : Type) : ServerEnv σ where
  malloc_ok := true
  heap := heap_aa
  zalloc_ok := true
  epoll_ctl_add := 0
  sendmsg_fails := fun _ => false
  fnmatch := fun p k => if p = k then 0 else 1
  kvdb_load := fun s => s

/-! ## `kvdb/client.c` -/

def ECONNRESET : Int := 104

/-- What a client call cannot decide by itself: the result of
`property_connect`, the results `(return value, errno)` of the successive
failing or succeeding `sendmsg` calls (once the list is exhausted `sendmsg`
sends the whole frame), `errno` after a failing `recv` or `send`, the result
of `send`, what `recv` finds on the socket, the result of `malloc` and the
content of fresh memory. -/
structure ClientEnv where
  connect : Int
  sendmsg : List (Int × Int)
  errno : Int
  send : Int
  reply : Sock
  malloc_ok : Bool
  heap : Bytes

/-- The `int32_t` stored in four bytes of memory. -/
def int32_of_bytes (b : Bytes) : Int :=
  let u := b.getD 0 0 + 256 * b.getD 1 0 + 65536 * b.getD 2 0 + 16777216 * b.getD 3 0
  if u < 2147483648 then (u : Int) else (u : Int) - 4294967296

/-- The end of `property_set_binary`, after `sendmsg` returned `ret ≥ 0`. -/
def property_set_binary_reply (env : ClientEnv) (fd : Nat) (oneway : Bool) (ret : Int) :
    Int × List Event :=
  if !oneway then
    let r := recv env.reply 4
    if r.1 < 4 then ((if r.1 < 0 then -env.errno else -EINVAL), [Event.close fd])
    else (int32_of_bytes r.2.1, [Event.close fd])
  else (ret, [Event.close fd])

/-- The part of `property_set_binary` from the label `again:` on, for a
connected socket; the list holds the results of the `sendmsg` calls to come. -/
def property_set_binary_send (env : ClientEnv) (fd : Nat) (frame : Bytes) (oneway : Bool) :
    List (Int × Int) → Int × List Event
  | [] =>
    let t := property_set_binary_reply env fd oneway frame.length
    (t.1, Event.sendmsg fd frame :: t.2)
  | (ret, e) :: more =>
    if ret < 0 then
      if oneway && e == ECONNRESET then
        let t := property_set_binary_send env fd frame oneway more
        (t.1, Event.sendmsg fd frame :: Event.close fd :: t.2)
      else (-e, [Event.sendmsg fd frame, Event.close fd])
    else
      let t := property_set_binary_reply env fd oneway ret
      (t.1, Event.sendmsg fd frame :: t.2)

/-- Embedding of `property_set_binary` of `client.c`: the return value and the system
calls made on the socket. -/
def property_set_binary (env : ClientEnv) (key : Option Bytes) (value : Bytes) (val_len : Nat)
    (oneway : Bool) : Int × List Event :=
  match key with
  | none => (-EINVAL, [])
  | some key =>
    let key_len := strlen key + 1
    if key_len > PROP_NAME_MAX then (-E2BIG, [])
    else if val_len = 0 ∨ val_len ≥ PROP_VALUE_MAX then (-E2BIG, [])
    else if env.connect < 0 then (env.connect, [])
    else
      property_set_binary_send env env.connect.toNat
        ([83, key_len % 256, val_len % 256] ++ key.take key_len ++ value.take val_len)
        oneway env.sendmsg

/-- Embedding of `recv_safe(sockfd, buf, offset, len)` of `client.c`; `errno` is the value
of `errno` after a failing `recv`.  As in `kvdb_recv`, when the loop goes round
again the stream that is left is `rest`. -/
def recv_safe (errno : Int) : Sock → Bytes → Nat → Nat → Int × Bytes × Sock
  | [], buf, offset, len =>
    if offset < len then (-ENODATA, buf, []) else ((len : Int), buf, [])
  | ev :: rest, buf, offset, len =>
    if offset < len then
      let r := recv (ev :: rest) (len - offset)
      if r.1 < 0 then (-errno, buf, r.2.2)
      else if r.1 = 0 then (-ENODATA, buf, r.2.2)
      else if offset + r.1.toNat < len then
        recv_safe errno rest (buf_write buf offset r.2.1) (offset + r.1.toNat) len
      else ((len : Int), buf_write buf offset r.2.1, r.2.2)
    else ((len : Int), buf, ev :: rest)

/-- An upper bound of the number of `recv` calls a stream can serve with at
least one byte each. -/
def sock_size : Sock → Nat
  | [] => 0
  | RecvResult.data bs :: rest => bs.length + 1 + sock_size rest
  | RecvResult.error :: rest => 1 + sock_size rest

/-- The `while (1)` loop of `property_list_binary`: the return value and the
calls `propfn(key, value, val_len, cookie)` made, in order, `key` and `value`
being the regions `msg + 2` and `msg + 2 + key_len`.  The first argument
bounds the number of rounds; every round consumes at least one byte of the
stream or leaves the loop, so `sock_size` of the stream plus one is never
exhausted. -/
def property_list_loop (env : ClientEnv) : Nat → Sock → Bytes → Int × List (Bytes × Bytes × Nat)
  | 0, _, _ => (-ENODATA, [])
  | fuel + 1, sock, msg =>
    let r := recv_safe env.errno sock msg 0 2
    if r.1 < 0 then (-env.errno, [])
    else if r.2.1.getD 0 0 = 0 ∧ r.2.1.getD 1 0 = 0 then (0, [])
    else if r.2.1.getD 0 0 % 256 > PROP_NAME_MAX then property_list_loop env fuel r.2.2 r.2.1
    else if r.2.1.getD 1 0 % 256 ≥ PROP_VALUE_MAX then property_list_loop env fuel r.2.2 r.2.1
    else
      let key_len := r.2.1.getD 0 0 % 256
      let val_len := r.2.1.getD 1 0 % 256
      let r2 := recv_safe env.errno r.2.2 r.2.1 2 (key_len + val_len + 2)
      if r2.1 < 0 then (r2.1, [])
      else if r2.2.1.getD (key_len + 1) 0 ≠ 0 then property_list_loop env fuel r2.2.2 r2.2.1
      else
        let t := property_list_loop env fuel r2.2.2 r2.2.1
        (t.1, (r2.2.1.drop 2, r2.2.1.drop (2 + key_len), val_len) :: t.2)

/-- Embedding of `property_list_binary` of `client.c`: the return value and the calls of
the callback. -/
def property_list_binary (env : ClientEnv) : Int × List (Bytes × Bytes × Nat) :=
  if env.connect < 0 then (env.connect, [])
  else if env.send < 0 then (-env.errno, [])
  else if env.malloc_ok = false then (-ENOMEM, [])
  else property_list_loop env (sock_size env.reply + 1) env.reply env.heap

/-! ## More of `kvdb/client.c`, and `kvdb/direct.c` -/

/-- The result `(return value, errno)` of the one `sendmsg` call of a request
that is not retried; a frame that is sent is sent whole. -/
def sendmsg_result (env : ClientEnv) (frame : Bytes) : Int × Int :=
  match env.sendmsg with
  | [] => ((frame.length : Int), 0)
  | r :: _ => r

/-- Embedding of `property_get_binary` of `client.c`; `hasBuf` tells whether
`value` is non-NULL.  The result is the return value, the bytes stored in
`value` and the system calls made on the socket. -/
def property_get_binary (env : ClientEnv) (key : Option Bytes) (hasBuf : Bool) (val_len : Nat) :
    Int × Bytes × List Event :=
  match key with
  | none => (-EINVAL, [], [])
  | some key =>
    let key_len := strlen key + 1
    if key_len > PROP_NAME_MAX then (-EINVAL, [], [])
    else if env.connect < 0 then (env.connect, [], [])
    else
      let fd := env.connect.toNat
      let frame := [71, key_len % 256, val_len % 256] ++ key.take key_len
      let s := sendmsg_result env frame
      if s.1 < 0 then (-s.2, [], [Event.sendmsg fd frame, Event.close fd])
      else
        let r := recv env.reply (if hasBuf then val_len else 1)
        ((if r.1 < 0 then -env.errno else r.1), (if hasBuf then r.2.1 else []),
          [Event.sendmsg fd frame, Event.close fd])

/-- The end of `property_delete`: the status read from the four bytes of the
reply, or the error of a short reply. -/
def recv_status (env : ClientEnv) : Int :=
  let r := recv env.reply 4
  if r.1 < 4 then (if r.1 < 0 then -env.errno else -EINVAL)
  else int32_of_bytes r.2.1

/-- Embedding of `property_delete` of `client.c`; `getenv` tells whether the
key is an environment variable and `unsetenv` is the result of `unsetenv`. -/
def property_delete (env : ClientEnv) (getenv : Bytes → Bool) (unsetenv : Int)
    (key : Option Bytes) : Int × List Event :=
  match key with
  | none => (-EINVAL, [])
  | some key =>
    let key_len := strlen key + 1
    if key_len > PROP_NAME_MAX then (-E2BIG, [])
    else if getenv (cstr key) then ((if unsetenv < 0 then -env.errno else unsetenv), [])
    else if env.connect < 0 then (env.connect, [])
    else
      let fd := env.connect.toNat
      let frame := [68, key_len % 256] ++ key.take key_len
      let s := sendmsg_result env frame
      if s.1 < 0 then (-s.2, [Event.sendmsg fd frame, Event.close fd])
      else (recv_status env, [Event.sendmsg fd frame, Event.close fd])

/-- Embedding of `property_monitor_open` of `client.c`: the return value (the
socket when the server answered 0) and the system calls made on the socket. -/
def property_monitor_open (env : ClientEnv) (key : Option Bytes) : Int × List Event :=
  match key with
  | none => (-EINVAL, [])
  | some key =>
    let key_len := strlen key + 1
    if key_len > PROP_NAME_MAX then (-E2BIG, [])
    else if env.connect < 0 then (env.connect, [])
    else
      let fd := env.connect.toNat
      let frame := [77, key_len % 256] ++ key.take key_len
      let s := sendmsg_result env frame
      if s.1 < 0 then (-s.2, [Event.sendmsg fd frame, Event.close fd])
      else if (recv env.reply 4).1 < 4 then
        ((if (recv env.reply 4).1 < 0 then -env.errno else -EINVAL),
          [Event.sendmsg fd frame, Event.close fd])
      else if int32_of_bytes (recv env.reply 4).2.1 < 0 then
        (int32_of_bytes (recv env.reply 4).2.1, [Event.sendmsg fd frame, Event.close fd])
      else (env.connect, [Event.sendmsg fd frame])

namespace Direct

/-- Embedding of `property_get_binary` of `direct.c`; `kvdb_init` is the
result of `kvdb_init` and `kvdb_get` is the backend function applied to the
handle it opened. -/
def property_get_binary (kvdb_init : Int) (kvdb_get : Bytes → Nat → Bool → Nat → Int × Bytes)
    (key : Option Bytes) (hasBuf : Bool) (val_len : Nat) : Int × Bytes :=
  match key with
  | none => (-E2BIG, [])
  | some key =>
    let key_len := strlen key + 1
    if key_len > PROP_NAME_MAX then (-E2BIG, [])
    else if kvdb_init < 0 then (kvdb_init, [])
    else kvdb_get key key_len hasBuf val_len

end Direct

/-! ## The loop of `kvdb_loop` (`kvdb/server.c`)

The loop is a step function: the state is the deadline `next` and the number
of calls of `kvdb_commit` made so far; a round reads the clock, checks the
deadline, waits in `epoll_wait`, and handles the accepted connections.
Values of `time_t` are integers; the conversion to `int` wraps to 32 bits. -/

/-- The conversion `(int)x` of an integer to a 32-bit `int`. -/
def int_cast (x : Int) : Int := (x + 2147483648) % 4294967296 - 2147483648

/-- The variables of `kvdb_loop`: the deadline `next` (0 when not armed) and
the number of calls of `kvdb_commit` made by the loop. -/
structure LoopState where
  next : Int
  commits : Nat
deriving DecidableEq, Repr

/-- The head of a round of `while (1)`, up to `epoll_wait`: the state and the
timeout handed to `epoll_wait`; `now` is `ts.tv_sec` as read by
`clock_gettime`. -/
def kvdb_loop_timer (st : LoopState) (now : Int) : LoopState × Int :=
  if st.next ≠ 0 then
    if int_cast (st.next - now) ≤ 0 then (⟨0, st.commits + 1⟩, -1)
    else (st, int_cast (int_cast (st.next - now) * 1000))
  else (st, -1)

/-- The end of the body of the `for` loop for one accepted connection:
`dirty` is what `kvdb_client` returned, `now` is `ts.tv_sec` as read by
`clock_gettime`, `interval` is CONFIG_KVDB_COMMIT_INTERVAL. -/
def kvdb_loop_conn (interval : Int) (st : LoopState) (dirty : Bool) (now : Int) : LoopState :=
  if dirty = true ∧ st.next = 0 then
    if now + interval = 0 then { st with next := now + interval + 1 }
    else { st with next := now + interval }
  else st

/-- What happens in one round: the clock at its head, and for each accepted
connection the result of `kvdb_client` and the clock after it. -/
structure Round where
  now : Int
  conns : List (Bool × Int)
deriving DecidableEq, Repr

/-- One round of `while (1)`. -/
def kvdb_loop_round (interval : Int) (st : LoopState) (r : Round) : LoopState :=
  r.conns.foldl (fun s c => kvdb_loop_conn interval s c.1 c.2) (kvdb_loop_timer st r.now).1

/-- The rounds of `kvdb_loop`, from the state `st`. -/
def kvdb_loop (interval : Int) (st : LoopState) (rounds : List Round) : LoopState :=
  rounds.foldl (kvdb_loop_round interval) st

/-- A round in which no connection is accepted, with the clock `t` at its
head. -/
def idle_round (t : Int) : Round := ⟨t, []⟩

/-! ## The loader `kvdb_load` (`kvdb/server.c`)

A source file is the list of its bytes.  A `char*` argument of a call made
by the loader is modelled by the C string it points to, NUL included. -/

/-- C `strspn(s, accept)`: the length of the longest prefix of the C string
`s` made of bytes of `accept`. -/
def strspn (s accept : Bytes) : Nat :=
  (s.takeWhile (fun c => c != 0 && accept.contains c)).length

/-- Embedding of `kvdb_is_comment`; the accepted bytes are space, tab, CR and LF. -/
def kvdb_is_comment (line : Bytes) : Bool :=
  let i := strspn line [32, 9, 13, 10]
  line.getD i 0 == 0 || line.getD i 0 == 35

/-- C `strtok_r(s, delim, &saveptr)` on the region `s` (for a NULL first
argument, the region `saveptr` points to).  The result is the token, without
its NUL (`none` for NULL), and the region `saveptr` points to afterwards. -/
def strtok_r (s delim : Bytes) : Option Bytes × Bytes :=
  let b := s.drop (strspn s delim)
  if b.headD 0 = 0 then (none, b)
  else
    let tok := b.takeWhile (fun c => c != 0 && !delim.contains c)
    let e := b.drop tok.length
    if e.headD 0 = 0 then (some tok, e) else (some tok, e.tail)

/-- The body of the loop `while (fgets(buf, PROP_MSG_MAX, f))` of `kvdb_load`
on one buffer: the store afterwards and the backend calls made. -/
def kvdb_load_line {σ : Type} (B : Backend σ) (force : Bool) (st : σ) (buf : Bytes) :
    σ × List Event :=
  if kvdb_is_comment buf then (st, [])
  else
    match (strtok_r buf [61]).1, (strtok_r (strtok_r buf [61]).2 [10]).1 with
    | some k, some v =>
      let key := k ++ [0]
      let value := v ++ [0]
      let key_len := strlen key + 1
      if force = false then
        if B.kvdb_get_null st key key_len 0 ≥ 0 then (st, [Event.kvdb_get key key_len 0])
        else
          ((B.kvdb_set st key key_len value (strlen value + 1) true).2,
            [Event.kvdb_get key key_len 0,
              Event.kvdb_set key key_len value (strlen value + 1) true])
      else
        ((B.kvdb_set st key key_len value (strlen value + 1) true).2,
          [Event.kvdb_set key key_len value (strlen value + 1) true])
    | _, _ => (st, [])

/-- The bytes the successive calls `fgets(buf, n, f)` store in `buf`, NUL
excluded, until the end of the file: `cur` is what the current call has read
so far.  A call stops after a newline, after `n - 1` bytes or at the end
of the file. -/
def fgets_from (n : Nat) : Bytes → Bytes → List Bytes
  | cur, [] => if cur = [] then [] else [cur]
  | cur, c :: f =>
    if c = 10 ∨ (cur ++ [c]).length + 1 ≥ n then (cur ++ [c]) :: fgets_from n [] f
    else fgets_from n (cur ++ [c]) f

/-- The loop `while (fgets(buf, PROP_MSG_MAX, f))` on a list of buffers. -/
def kvdb_load_lines {σ : Type} (B : Backend σ) (force : Bool) : σ → List Bytes → σ × List Event
  | st, [] => (st, [])
  | st, buf :: rest =>
    let r := kvdb_load_line B force st buf
    let r2 := kvdb_load_lines B force r.1 rest
    (r2.1, r.2 ++ r2.2)

/-- The part of `kvdb_load` that reads one source file that was opened: the
store afterwards and the backend calls made. -/
def kvdb_load_file {σ : Type} (B : Backend σ) (force : Bool) (st : σ) (f : Bytes) :
    σ × List Event :=
  kvdb_load_lines B force st ((fgets_from PROP_MSG_MAX [] f).map (fun l => l ++ [0]))

/-! ## The source list of `kvdb_load` (`kvdb/server.c`) -/

/-- What `kvdb_load` does to the outside, in program order: the polls of
`access`, the sleeps, the `fopen` calls, the backend calls made for the lines
of a file, and the final `kvdb_commit`. -/
inductive LoadEvent
  | access (path : Bytes)
  | usleep (usec : Nat)
  | fopen (path : Bytes)
  | call (e : Event)
  | kvdb_commit
deriving DecidableEq, Repr

/-- What `kvdb_load` cannot decide by itself: the two allocations, the constant
PATH_MAX, the file system as `access` sees it (`access path i` tells whether
the call number `i`, from 0, of `access(path, 0)` for that path succeeds) and
as `fopen` sees it (the content of the file, `none` when it cannot be
opened). -/
structure LoadEnv where
  malloc_buf_ok : Bool
  malloc_tmpb_ok : Bool
  PATH_MAX : Nat
  access : Bytes → Nat → Bool
  fopen : Bytes → Option Bytes

/-- The loop `while (access(path, 0) < 0 && retry-- > 0) usleep(1000);` entered
with `retry = r ≥ 0`, the next call of `access` being number `i`: the value
of `retry` afterwards and the calls made. -/
def kvdb_load_wait (acc : Nat → Bool) (path : Bytes) : Nat → Nat → Int × List LoadEvent
  | 0, i => if acc i then (0, [LoadEvent.access path]) else (-1, [LoadEvent.access path])
  | r + 1, i =>
    if acc i then (((r + 1 : Nat) : Int), [LoadEvent.access path])
    else
      let w := kvdb_load_wait acc path r (i + 1)
      (w.1, LoadEvent.access path :: LoadEvent.usleep 1000 :: w.2)

/-- The same loop for any value of `retry`: with a negative `retry` one call of
`access` is made, and `retry` is decremented when it fails. -/
def kvdb_load_access (acc : Nat → Bool) (path : Bytes) (retry : Int) : Int × List LoadEvent :=
  if retry < 0 then
    if acc 0 then (retry, [LoadEvent.access path]) else (retry - 1, [LoadEvent.access path])
  else kvdb_load_wait acc path retry.toNat 0

/-- The values `path` takes in the loop `while (*src)`: the C string `src` is
cut at each `;`, a segment that a `;` ends is copied with `strlcpy` into a
buffer of PATH_MAX bytes, and nothing follows a final `;`.  `cur` is the
segment read so far. -/
def kvdb_load_paths (path_max : Nat) : Bytes → Bytes → List Bytes
  | cur, [] => if cur = [] then [] else [cur]
  | cur, c :: src =>
    if c = 59 then cur.take (path_max - 1) :: kvdb_load_paths path_max [] src
    else kvdb_load_paths path_max (cur ++ [c]) src

/-- The loop `while (*src)` of `kvdb_load` on the list of paths, entered with the
given value of `retry`: the store afterwards and what was done. -/
def kvdb_load_sources {σ : Type} (B : Backend σ) (env : LoadEnv) (force : Bool) :
    σ → Int → List Bytes → σ × List LoadEvent
  | st, _, [] => (st, [])
  | st, retry, path :: rest =>
    let w := kvdb_load_access (env.access path) path retry
    match env.fopen path with
    | none =>
      let r := kvdb_load_sources B env force st w.1 rest
      (r.1, w.2 ++ [LoadEvent.fopen path] ++ r.2)
    | some f =>
      let l := kvdb_load_file B force st f
      let r := kvdb_load_sources B env force l.1 w.1 rest
      (r.1, w.2 ++ [LoadEvent.fopen path] ++ l.2.map LoadEvent.call ++ r.2)

/-- Embedding of `kvdb_load(kvdb, src, force)`: the return value, the store
afterwards and what was done. -/
def kvdb_load {σ : Type} (B : Backend σ) (env : LoadEnv) (force : Bool) (st : σ) (src : Bytes) :
    Int × σ × List LoadEvent :=
  if env.malloc_buf_ok = false then (-ENOMEM, st, [])
  else if env.malloc_tmpb_ok = false then (-ENOMEM, st, [])
  else
    let r := kvdb_load_sources B env force st 20 (kvdb_load_paths env.PATH_MAX [] (cstr src))
    (0, r.1, r.2 ++ [LoadEvent.kvdb_commit])

/-! ## The calls of `kvdb_commit` (`kvdb/unqlite.c`) -/

/-- Embedding of `kvdb_commit` of `unqlite.c` with the calls it makes: the
return value and the indices `i` of the calls `unqlite_commit(kvdb->db[i])`,
in order. -/
def UnqliteBackend.kvdb_commit_run (cfg : Config) (commit : Nat → Int) : Int × List Nat :=
  (List.range (KVDB_COUNT cfg)).foldl
    (fun acc i =>
      ((if commit i < 0 then (if acc.1 = 0 then commit i else acc.1) else acc.1), acc.2 ++ [i]))
    (0, [])

/-! ## The reader of a monitor channel (`kvdb/client.c`) -/

/-- C `strlcpy(dst, src, size)`: the bytes stored in `dst`. -/
def strlcpy (src : Bytes) (size : Nat) : Bytes :=
  if size = 0 then [] else (cstr src).take (size - 1) ++ [0]

/-- Embedding of `property_monitor_read(fd, newkey, newvalue, val_len)`; `sock`
is what the socket `fd` will deliver, `hasKey` and `hasValue` tell whether
`newkey` and `newvalue` are non-NULL.  The result is the return value, the
bytes stored in `newkey` and the bytes stored in `newvalue`. -/
def property_monitor_read (env : ClientEnv) (sock : Sock) (hasKey hasValue : Bool)
    (val_len : Nat) : Int × Bytes × Bytes :=
  if env.malloc_ok = false then (-ENOMEM, [], [])
  else
    let r := recv sock 2
    if r.1 < 2 then ((if r.1 < 0 then -env.errno else -ENODATA), [], [])
    else
      let msg := buf_write env.heap 0 r.2.1
      let key_len := msg.getD 0 0 % 256
      if key_len > PROP_NAME_MAX then (-E2BIG, [], [])
      else
        let len := msg.getD 1 0 % 256
        if len > PROP_VALUE_MAX then (-E2BIG, [], [])
        else
          let rs := recv_safe env.errno r.2.2 msg r.1.toNat (key_len + len + 2)
          if rs.1 < 0 then (rs.1, [], [])
          else
            let newkey := if hasKey then strlcpy (rs.2.1.drop 2) PROP_NAME_MAX else []
            if hasValue then
              let len2 := if val_len > len then len else val_len
              ((len2 : Int), newkey, (rs.2.1.drop (2 + key_len)).take len2)
            else ((len : Int), newkey, [])

/-! ## `kvdb/common.c`

The functions of `common.c` are linked with `client.c`.  The environment of
the process is the function `getenv`, from the name of a variable to its
value (a C string, `none` when the variable is not set), and the result
`setenv` of `setenv`.  Sizes are below 2^31, so that `2 * size` does not wrap. -/

def ERANGE : Int := 34

/-- Embedding of `nibble2ascii`. -/
def nibble2ascii (nibble : Nat) : Nat :=
  if nibble < 10 then 48 + nibble else 97 + nibble - 10

/-- C `isdigit`. -/
def isdigit (c : Nat) : Bool := decide (48 ≤ c ∧ c ≤ 57)

/-- C `isxdigit`. -/
def isxdigit (c : Nat) : Bool :=
  decide ((48 ≤ c ∧ c ≤ 57) ∨ (65 ≤ c ∧ c ≤ 70) ∨ (97 ≤ c ∧ c ≤ 102))

/-- C `tolower`. -/
def tolower (c : Nat) : Nat := if 65 ≤ c ∧ c ≤ 90 then c + 32 else c

/-- Embedding of `ascii2nibble`. -/
def ascii2nibble (ascii : Nat) : Int :=
  if isdigit ascii then (ascii : Int) - 48
  else if isxdigit ascii then (tolower ascii : Int) - 97 + 10
  else -ERANGE

/-- Embedding of `property_set_`; `value` is `none` for NULL. -/
def property_set_ (env : ClientEnv) (getenv : Bytes → Option Bytes) (setenv : Int)
    (key : Option Bytes) (value : Option Bytes) (oneway : Bool) : Int × List Event :=
  let value := value.getD [0]
  if (key.bind (fun k => getenv (cstr k))).isSome then
    ((if setenv < 0 then -env.errno else setenv), [])
  else property_set_binary env key value (strlen value + 1) oneway

/-- Embedding of `property_set`. -/
def property_set (env : ClientEnv) (getenv : Bytes → Option Bytes) (setenv : Int)
    (key : Option Bytes) (value : Option Bytes) : Int × List Event :=
  property_set_ env getenv setenv key value false

/-- Embedding of `property_set_oneway`. -/
def property_set_oneway (env : ClientEnv) (getenv : Bytes → Option Bytes) (setenv : Int)
    (key : Option Bytes) (value : Option Bytes) : Int × List Event :=
  property_set_ env getenv setenv key value true

/-- Embedding of `property_set_bool_`; the strings are `true` and `false`. -/
def property_set_bool_ (env : ClientEnv) (getenv : Bytes → Option Bytes) (setenv : Int)
    (key : Option Bytes) (value : Int) (oneway : Bool) : Int × List Event :=
  property_set_ env getenv setenv key
    (some (if value ≠ 0 then [116, 114, 117, 101, 0] else [102, 97, 108, 115, 101, 0])) oneway

/-- Embedding of `property_set_bool`. -/
def property_set_bool (env : ClientEnv) (getenv : Bytes → Option Bytes) (setenv : Int)
    (key : Option Bytes) (value : Int) : Int × List Event :=
  property_set_bool_ env getenv setenv key value false

/-- Embedding of `property_set_bool_oneway`. -/
def property_set_bool_oneway (env : ClientEnv) (getenv : Bytes → Option Bytes) (setenv : Int)
    (key : Option Bytes) (value : Int) : Int × List Event :=
  property_set_bool_ env getenv setenv key value true

/-- The text `snprintf(buf, 32, "%d", value)` stores in `buf`, NUL included, for
an integer of at most 64 bits. -/
def snprintf_d (value : Int) : Bytes :=
  (if value < 0 then [45] else []) ++ (Nat.toDigits 10 value.natAbs).map Char.toNat ++ [0]

/-- Embedding of `property_set_int32_`. -/
def property_set_int32_ (env : ClientEnv) (getenv : Bytes → Option Bytes) (setenv : Int)
    (key : Option Bytes) (value : Int) (oneway : Bool) : Int × List Event :=
  property_set_ env getenv setenv key (some (snprintf_d value)) oneway

/-- Embedding of `property_set_int32`. -/
def property_set_int32 (env : ClientEnv) (getenv : Bytes → Option Bytes) (setenv : Int)
    (key : Option Bytes) (value : Int) : Int × List Event :=
  property_set_int32_ env getenv setenv key value false

/-- Embedding of `property_set_int32_oneway`. -/
def property_set_int32_oneway (env : ClientEnv) (getenv : Bytes → Option Bytes) (setenv : Int)
    (key : Option Bytes) (value : Int) : Int × List Event :=
  property_set_int32_ env getenv setenv key value true

/-- Embedding of `property_set_int64_`. -/
def property_set_int64_ (env : ClientEnv) (getenv : Bytes → Option Bytes) (setenv : Int)
    (key : Option Bytes) (value : Int) (oneway : Bool) : Int × List Event :=
  property_set_ env getenv setenv key (some (snprintf_d value)) oneway

/-- Embedding of `property_set_int64`. -/
def property_set_int64 (env : ClientEnv) (getenv : Bytes → Option Bytes) (setenv : Int)
    (key : Option Bytes) (value : Int) : Int × List Event :=
  property_set_int64_ env getenv setenv key value false

/-- Embedding of `property_set_int64_oneway`. -/
def property_set_int64_oneway (env : ClientEnv) (getenv : Bytes → Option Bytes) (setenv : Int)
    (key : Option Bytes) (value : Int) : Int × List Event :=
  property_set_int64_ env getenv setenv key value true

/-- The loop `while (i < buf_size)` of `property_set_buffer_`: the characters
stored in `buf` for `size` bytes read from `value`. -/
def property_set_buffer_loop : Nat → Bytes → Bytes
  | 0, _ => []
  | size + 1, value =>
    nibble2ascii (value.headD 0 % 256 / 16) :: nibble2ascii (value.headD 0 % 16) ::
      property_set_buffer_loop size value.tail

/-- Embedding of `property_set_buffer_`. -/
def property_set_buffer_ (env : ClientEnv) (getenv : Bytes → Option Bytes) (setenv : Int)
    (key : Option Bytes) (value : Bytes) (size : Nat) (oneway : Bool) : Int × List Event :=
  if 2 * size ≥ PROP_VALUE_MAX then (-E2BIG, [])
  else
    property_set_ env getenv setenv key (some (property_set_buffer_loop size value ++ [0])) oneway

/-- Embedding of `property_set_buffer`. -/
def property_set_buffer (env : ClientEnv) (getenv : Bytes → Option Bytes) (setenv : Int)
    (key : Option Bytes) (value : Bytes) (size : Nat) : Int × List Event :=
  property_set_buffer_ env getenv setenv key value size false

/-- Embedding of `property_set_buffer_oneway`. -/
def property_set_buffer_oneway (env : ClientEnv) (getenv : Bytes → Option Bytes) (setenv : Int)
    (key : Option Bytes) (value : Bytes) (size : Nat) : Int × List Event :=
  property_set_buffer_ env getenv setenv key value size false

/-- How a call of `property_get` ends: it returns `ret` with the bytes it stored
in `value` from its start on, or it stores a byte through the NULL pointer
`value`, at the given offset. -/
inductive GetOutcome
  | returned (ret : Int) (value : Bytes)
  | null_store (offset : Int)
deriving DecidableEq, Repr

/-- Embedding of `property_get`; `hasBuf` tells whether `value` is non-NULL and
`default_value` is `none` for NULL. -/
def property_get (env : ClientEnv) (getenv : Bytes → Option Bytes) (key : Option Bytes)
    (hasBuf : Bool) (default_value : Option Bytes) : GetOutcome :=
  match key.bind (fun k => getenv (cstr k)) with
  | some e =>
    if strlen e ≥ PROP_VALUE_MAX then GetOutcome.returned (-E2BIG) []
    else GetOutcome.returned (strlen e) (if hasBuf then cstr e ++ [0] else [])
  | none =>
    let r := property_get_binary env key hasBuf PROP_VALUE_MAX
    if r.1 ≤ 0 then
      match default_value with
      | none => GetOutcome.returned (-EINVAL) r.2.1
      | some d => GetOutcome.returned (strlen d) (if hasBuf then cstr d ++ [0] else [])
    else if hasBuf then
      GetOutcome.returned (strlen (r.2.1.take r.1.toNat ++ [0])) (r.2.1.take r.1.toNat ++ [0])
    else GetOutcome.null_store r.1

/-- Embedding of `__system_property_find` of `system_properties.c`: `some true`
when it returns the name, `some false` when it returns NULL, `none` when
`property_get` stored through the NULL pointer. -/
def __system_property_find (env : ClientEnv) (getenv : Bytes → Option Bytes)
    (name : Option Bytes) : Option Bool :=
  match property_get env getenv name false none with
  | GetOutcome.returned ret _ => some (decide (0 ≤ ret))
  | GetOutcome.null_store _ => none

/-- The loop `while (buf[i])` of `property_get_buffer` on the text that is left
at index `i`: the return value and the bytes stored in `value`.  A region that
ends is read as NUL from there on. -/
def property_get_buffer_loop (buf_size : Nat) : Bytes → Nat → Bytes → Int × Bytes
  | [], i, out => (((i / 2 : Nat) : Int), out)
  | [c], i, out =>
    if c = 0 then (((i / 2 : Nat) : Int), out)
    else if i ≥ buf_size then (-E2BIG, out)
    else if ascii2nibble c < 0 then (ascii2nibble c, out)
    else (ascii2nibble 0, out ++ [(ascii2nibble c).toNat * 16 % 256])
  | c :: d :: rest, i, out =>
    if c = 0 then (((i / 2 : Nat) : Int), out)
    else if i ≥ buf_size then (-E2BIG, out)
    else if ascii2nibble c < 0 then (ascii2nibble c, out)
    else if ascii2nibble d < 0 then (ascii2nibble d, out ++ [(ascii2nibble c).toNat * 16 % 256])
    else
      property_get_buffer_loop buf_size rest (i + 2)
        (out ++ [((ascii2nibble c).toNat * 16 % 256) ||| (ascii2nibble d).toNat])

/-- Embedding of `property_get_buffer`: the return value and the bytes stored in
`value`. -/
def property_get_buffer (env : ClientEnv) (getenv : Bytes → Option Bytes) (key : Option Bytes)
    (size : Nat) : Int × Bytes :=
  match property_get env getenv key true none with
  | GetOutcome.returned ret buf =>
    if ret < 0 then (ret, []) else property_get_buffer_loop (2 * size) buf 0 []
  | GetOutcome.null_store off => (off, [])

/-! ## `log/log_write.c`

The priorities of `android/log.h` are numbered in the order of the comments
of the table `g_logprimap`, from ANDROID_LOG_UNKNOWN = 0 to
ANDROID_LOG_SILENT = 8; the values of the table are those of `syslog.h`. -/

def ANDROID_LOG_UNKNOWN : Int := 0
def ANDROID_LOG_DEFAULT : Int := 1
def ANDROID_LOG_VERBOSE : Int := 2
def ANDROID_LOG_DEBUG : Int := 3
def ANDROID_LOG_INFO : Int := 4
def ANDROID_LOG_WARN : Int := 5
def ANDROID_LOG_ERROR : Int := 6
def ANDROID_LOG_FATAL : Int := 7
def ANDROID_LOG_SILENT : Int := 8

def LOG_CRIT : Int := 2
def LOG_ERR : Int := 3
def LOG_WARNING : Int := 4
def LOG_INFO : Int := 6
def LOG_DEBUG : Int := 7

/-- The table `g_logprimap`, of ANDROID_LOG_SILENT + 1 entries. -/
def g_logprimap : List Int :=
  [LOG_DEBUG, LOG_DEBUG, LOG_DEBUG, LOG_DEBUG, LOG_INFO, LOG_WARNING, LOG_ERR, LOG_CRIT, LOG_DEBUG]

/-- Embedding of `__android_log_get_minimum_priority`; `envprio` is the value
`atoi` gives for the variable ANDROID_LOG_MIN_PRIORITY, `none` when the
variable is not set. -/
def __android_log_get_minimum_priority (envprio : Option Int) : Int :=
  match envprio with
  | none => ANDROID_LOG_DEFAULT
  | some v => v

/-- Embedding of `__android_log_is_loggable`. -/
def __android_log_is_loggable (envprio : Option Int) (prio : Int) (default_prio : Int) : Bool :=
  if __android_log_get_minimum_priority envprio ≠ ANDROID_LOG_DEFAULT then
    decide (prio ≥ __android_log_get_minimum_priority envprio)
  else decide (prio ≥ default_prio)

/-- Embedding of `__android_log_buf_vprint`, which `__android_log_print` and
`__android_log_buf_print` call with the priority they are given:
`default_logger` tells whether `g_logger_function` is
`__android_log_logd_logger`.  The result is the return value and the index at
which `g_logprimap` is read, `none` when it is not read. -/
def __android_log_buf_vprint (envprio : Option Int) (default_logger : Bool) (prio : Int) :
    Int × Option Int :=
  if !__android_log_is_loggable envprio prio ANDROID_LOG_VERBOSE then (-EPERM, none)
  else if default_logger then (1, some prio)
  else (1, none)

/-- Embedding of `__android_log_logd_logger`: the index at which `g_logprimap` is
read for a message of the given priority. -/
def __android_log_logd_logger (priority : Int) : Int :=
  if priority > ANDROID_LOG_SILENT then ANDROID_LOG_FATAL else priority

/-! ## Predicates and sample data used in the statements -/

/-- Calls into the backend, as opposed to system calls on sockets. -/
def Event.isCall : Event → Bool
  | Event.kvdb_set _ _ _ _ _ => true
  | Event.kvdb_get _ _ _ => true
  | Event.kvdb_delete _ _ => true
  | _ => false

/-- The writes of frames with `sendmsg`. -/
def Event.isSendmsg : Event → Bool
  | Event.sendmsg _ _ => true
  | _ => false

/-- An environment in which `epoll_ctl(EPOLL_CTL_ADD)` fails. -/
def env_epoll_fails : ServerEnv kvdb := { env_ok kvdb with epoll_ctl_add := -1 }

/-- An environment in which the `zalloc` of `kvdb_monitor_open` fails. -/
def env_zalloc_fails : ServerEnv kvdb := { env_ok kvdb with zalloc_ok := false }

/-- A client environment in which every call succeeds and the server replies
with status 0. -/
def cenv_ok : ClientEnv where
  connect := 3
  sendmsg := []
  errno := 0
  send := 1
  reply := [RecvResult.data [0, 0, 0, 0]]
  malloc_ok := true
  heap := heap_aa

/-- The bytes of `persist.foo`. -/
def name_persist_foo : Bytes := [112, 101, 114, 115, 105, 115, 116, 46, 102, 111, 111]

/-- The bytes a stream delivers. -/
def sock_bytes : Sock → Bytes
  | [] => []
  | RecvResult.data bs :: rest => bs ++ sock_bytes rest
  | RecvResult.error :: rest => sock_bytes rest

/-- A `recv` result that carries at least one byte. -/
def RecvResult.hasData : RecvResult → Bool
  | RecvResult.data bs => !bs.isEmpty
  | RecvResult.error => false

/-- Every `recv` on the stream succeeds with at least one byte, until the
stream is exhausted. -/
def sock_ok (s : Sock) : Prop := ∀ r ∈ s, r.hasData = true

instance (s : Sock) : Decidable (sock_ok s) :=
  inferInstanceAs (Decidable (∀ r ∈ s, r.hasData = true))

/-- The record of one entry in the list reply. -/
def list_record (r : Bytes × Bytes) : Bytes := [r.1.length, r.2.length] ++ r.1 ++ r.2

/-- The byte stream of the list reply for the entries: the records, then the
terminator. -/
def list_stream : List (Bytes × Bytes) → Bytes
  | [] => [0, 0]
  | r :: rs => list_record r ++ list_stream rs

/-- A stored entry with valid lengths: the key is a name without NUL bytes
followed by its NUL, at most PROP_NAME_MAX bytes in all, and the value is
shorter than PROP_VALUE_MAX. -/
def valid_entry (r : Bytes × Bytes) : Prop :=
  r.1 = r.1.dropLast ++ [0] ∧ (∀ c ∈ r.1.dropLast, c ≠ 0) ∧ r.1.length ≤ PROP_NAME_MAX ∧
    r.2.length < PROP_VALUE_MAX

instance (r : Bytes × Bytes) : Decidable (valid_entry r) :=
  inferInstanceAs (Decidable (r.1 = r.1.dropLast ++ [0] ∧ (∀ c ∈ r.1.dropLast, c ≠ 0) ∧
    r.1.length ≤ PROP_NAME_MAX ∧ r.2.length < PROP_VALUE_MAX))

/-- The bytes written to the socket `fd` by the `send` and `sendmsg` calls of
a trace, in order. -/
def written_to (fd : Nat) : List Event → Bytes
  | [] => []
  | Event.send f d :: t => if f = fd then d ++ written_to fd t else written_to fd t
  | Event.sendmsg f d :: t => if f = fd then d ++ written_to fd t else written_to fd t
  | _ :: t => written_to fd t

/-- A store with `persist.foo = hello` in the persistent namespace and
`a = v` in the volatile one, and no watcher. -/
def server_two : kvdb_server kvdb :=
  ⟨⟨[(name_persist_foo ++ [0], [104, 101, 108, 108, 111, 0])], [([97, 0], [118, 0])]⟩, []⟩

/-- A client whose socket delivers the list reply for `server_two` in three
pieces that cut across the records. -/
def cenv_list : ClientEnv :=
  { cenv_ok with
    reply := [RecvResult.data [12],
      RecvResult.data ([6] ++ name_persist_foo ++ [0, 104, 101, 108, 108, 111, 0, 2, 2, 97]),
      RecvResult.data [0, 118, 0, 0, 0]] }

/-- What follows the first `n` bytes, the received ones, in the message
buffer of `kvdb_client`. -/
def frame_junk {σ : Type} (env : ServerEnv σ) (n : Nat) : Bytes :=
  (buf_write env.heap 0 [0, 0, 0]).drop n

/-- The part of `case 'S'` that follows a successful `kvdb_recv`. -/
def kvdb_client_S_call {σ : Type} (B : Backend σ) (env : ServerEnv σ) (server : kvdb_server σ)
    (fd : Nat) (key : Bytes) (key_len : Nat) (value : Bytes) (val_len : Nat) : ClientResult σ :=
  if (B.kvdb_set server.kvdb key key_len value val_len false).1 ≥ 0 then
    kvdb_client_out true
      (kvdb_monitor_notify env ⟨(B.kvdb_set server.kvdb key key_len value val_len false).2,
        server.head⟩ key (some value) val_len).1
      ([Event.kvdb_set key key_len value val_len false] ++
        (kvdb_monitor_notify env ⟨(B.kvdb_set server.kvdb key key_len value val_len false).2,
          server.head⟩ key (some value) val_len).2 ++
        [Event.send fd (int32_bytes (B.kvdb_set server.kvdb key key_len value val_len false).1)])
      fd
  else
    kvdb_client_out false
      ⟨(B.kvdb_set server.kvdb key key_len value val_len false).2, server.head⟩
      [Event.kvdb_set key key_len value val_len false,
        Event.send fd (int32_bytes (B.kvdb_set server.kvdb key key_len value val_len false).1)]
      fd

/-- The part of `case 'D'` that follows a successful `kvdb_recv`. -/
def kvdb_client_D_call {σ : Type} (B : Backend σ) (env : ServerEnv σ) (server : kvdb_server σ)
    (fd : Nat) (key : Bytes) (key_len : Nat) : ClientResult σ :=
  if (B.kvdb_delete server.kvdb key key_len).1 ≥ 0 then
    kvdb_client_out true
      (kvdb_monitor_notify env ⟨(B.kvdb_delete server.kvdb key key_len).2, server.head⟩
        key none 0).1
      ([Event.kvdb_delete key key_len] ++
        (kvdb_monitor_notify env ⟨(B.kvdb_delete server.kvdb key key_len).2, server.head⟩
          key none 0).2 ++
        [Event.send fd (int32_bytes (B.kvdb_delete server.kvdb key key_len).1)])
      fd
  else
    kvdb_client_out false ⟨(B.kvdb_delete server.kvdb key key_len).2, server.head⟩
      [Event.kvdb_delete key key_len,
        Event.send fd (int32_bytes (B.kvdb_delete server.kvdb key key_len).1)]
      fd

/-- A key of 126 bytes `a` and its NUL, 127 bytes in all. -/
def key_127 : Bytes := List.replicate 126 97 ++ [0]

/-- The part of `case 'G'` that follows a successful `kvdb_recv`. -/
def kvdb_client_G_call {σ : Type} (B : Backend σ) (server : kvdb_server σ)
    (fd : Nat) (key : Bytes) (key_len : Nat) (val_len : Nat) : ClientResult σ :=
  if (B.kvdb_get server.kvdb key key_len val_len).1 > 0 then
    kvdb_client_out false server
      [Event.kvdb_get key key_len val_len,
        Event.send fd ((B.kvdb_get server.kvdb key key_len val_len).2.take
          (B.kvdb_get server.kvdb key key_len val_len).1.toNat)] fd
  else kvdb_client_out false server [Event.kvdb_get key key_len val_len] fd

/-- The name `ro.build`, without its NUL. -/
def name_ro_build : Bytes := [114, 111, 46, 98, 117, 105, 108, 100]

/-- A file store whose temporary directory holds `ro.build` with the one byte `1`. -/
def fs_ro_build : fs := ⟨[], [(name_ro_build, [49])]⟩

/-- A file system whose namespace directories have no subdirectory: `open`
fails with ENOENT for a file name that holds the byte `/` and succeeds for
any other name, and every `write` stores all it is given. -/
def file_env_no_subdir : FileEnv :=
  ⟨fun _ name => if name.contains 47 then ENOENT else 0, 0, []⟩

/-- A region that holds the C string `persist.`, NUL included, followed by `junk`. -/
def persist_dot (junk : Bytes) : Bytes := PERSIST_LABEL ++ 0 :: junk

/-- The source line `k=` followed by 383 bytes `v` and a newline: 386 bytes. -/
def long_line : Bytes := [107, 61] ++ List.replicate 383 118 ++ [10]

/-- The name `persist.a`, without its NUL. -/
def name_persist_a : Bytes := PERSIST_LABEL ++ [97]

/-- The source line `persist.a=2` with its newline. -/
def line_persist_a : Bytes := name_persist_a ++ [61, 50, 10]

/-- The paths `kvdb_load` hands to `fopen`, in order. -/
def fopen_paths : List LoadEvent → List Bytes
  | [] => []
  | LoadEvent.fopen p :: t => p :: fopen_paths t
  | _ :: t => fopen_paths t

/-- The polls of `access` among the calls made. -/
def LoadEvent.isAccess : LoadEvent → Bool
  | LoadEvent.access _ => true
  | _ => false

/-- The sleeps among the calls made. -/
def LoadEvent.isUsleep : LoadEvent → Bool
  | LoadEvent.usleep _ => true
  | _ => false

/-- One failed poll followed by its sleep, `k` times. -/
def failed_polls (path : Bytes) (k : Nat) : List LoadEvent :=
  (List.replicate k [LoadEvent.access path, LoadEvent.usleep 1000]).flatten

/-- A file system in which nothing can be opened, the path `a` is never
accessible and the path `b` is accessible from the second poll on. -/
def env_unmounted : LoadEnv where
  malloc_buf_ok := true
  malloc_tmpb_ok := true
  PATH_MAX := 256
  access := fun path i => path == [98] && decide (1 ≤ i)
  fopen := fun _ => none

/-- The source list made of the given paths, separated by `;`. -/
def src_list : List Bytes → Bytes
  | [] => []
  | [p] => p
  | p :: q :: t => p ++ 59 :: src_list (q :: t)

/-- A path of a source list: not empty, without NUL and without `;`, and
short enough for the buffer of PATH_MAX bytes. -/
def valid_path (path_max : Nat) (p : Bytes) : Prop :=
  p ≠ [] ∧ p.length < path_max ∧ ∀ c ∈ p, c ≠ 0 ∧ c ≠ 59

instance (path_max : Nat) (p : Bytes) : Decidable (valid_path path_max p) :=
  inferInstanceAs (Decidable (p ≠ [] ∧ p.length < path_max ∧ ∀ c ∈ p, c ≠ 0 ∧ c ≠ 59))

/-- The name `persist.net.ip`, without its NUL. -/
def name_persist_net_ip : Bytes := PERSIST_LABEL ++ [110, 101, 116, 46, 105, 112]

/-- The value `1.2.3.4` with its NUL. -/
def value_1234 : Bytes := [49, 46, 50, 46, 51, 46, 52, 0]

/-- A client whose request is answered with the two bytes `v` and NUL, the
value the server holds for the key. -/
def cenv_value : ClientEnv := { cenv_ok with reply := [RecvResult.data [118, 0]] }

/-- A client whose request is answered with nothing: the server closes the
socket, as it does for a key that does not exist. -/
def cenv_absent : ClientEnv := { cenv_ok with reply := [] }

/-- The sixteen lowercase hexadecimal digits, `0` to `9` and `a` to `f`. -/
def hex_digits : Bytes := [48, 49, 50, 51, 52, 53, 54, 55, 56, 57, 97, 98, 99, 100, 101, 102]

/-- The lowercase hexadecimal encoding of a byte string as the claim words it:
two digits for each byte, the high nibble first. -/
def hex_encoding : Bytes → Bytes
  | [] => []
  | x :: t => hex_digits.getD (x / 16) 0 :: hex_digits.getD (x % 16) 0 :: hex_encoding t

/-- A client whose G request is answered with the text `01ff` and its NUL. -/
def cenv_hex : ClientEnv :=
  { cenv_ok with reply := [RecvResult.data (hex_encoding [1, 255] ++ [0])] }

/-- The `close` calls among the system calls made. -/
def Event.isClose : Event → Bool
  | Event.close _ => true
  | _ => false

/-- Whether the fan-out for `key` removes the watcher: its pattern matches and
the write to its socket fails. -/
def watcher_dropped {σ : Type} (env : ServerEnv σ) (key : Bytes) (m : kvdb_monitor) : Bool :=
  decide (env.fnmatch m.key (cstr key) = 0) && env.sendmsg_fails m.fd

/-- The bytes a stream delivers before the peer closes or a `recv` fails. -/
def sock_avail : Sock → Bytes
  | [] => []
  | RecvResult.error :: _ => []
  | RecvResult.data bs :: rest => if bs = [] then [] else bs ++ sock_avail rest

/-- Whether the bytes of `sock_avail` are followed by a failing `recv` (and not
by the close of the peer). -/
def sock_fails : Sock → Bool
  | [] => false
  | RecvResult.error :: _ => true
  | RecvResult.data bs :: rest => if bs = [] then false else sock_fails rest

/-- What a receive loop called with `offset` bytes in `buf` and the target `len`
does on the stream `sock`, `r` being its result (return value, buffer, rest
of the stream) and `err` the value it returns when `recv` fails.  It returns
`len` when the bytes the stream delivers complete `len` bytes, `-ENODATA`
when the peer closes before that, and `err` when a `recv` fails before that.
It leaves the buffer as it is at index `len` and beyond, and before index
`offset`.  It takes at most `len - offset` bytes from the stream.  When it
returns `len` the buffer holds the bytes delivered from index `offset` on. -/
def recv_loop_spec (err : Int) (sock : Sock) (buf : Bytes) (offset len : Nat)
    (r : Int × Bytes × Sock) : Prop :=
  (len ≤ offset + (sock_avail sock).length → r.1 = (len : Int)) ∧
  (offset + (sock_avail sock).length < len → sock_fails sock = false → r.1 = -ENODATA) ∧
  (offset + (sock_avail sock).length < len → sock_fails sock = true → r.1 = err) ∧
  (len ≤ buf.length →
    r.2.1.length = buf.length ∧ r.2.1.drop len = buf.drop len ∧
      r.2.1.take offset = buf.take offset) ∧
  (sock_bytes sock).length ≤ (sock_bytes r.2.2).length + (len - offset) ∧
  (offset ≤ len → len ≤ buf.length → len ≤ offset + (sock_avail sock).length →
    r.2.1 = buf_write buf offset ((sock_avail sock).take (len - offset)))

/-- An index inside the table `g_logprimap`. -/
def in_logprimap (i : Int) : Prop := 0 ≤ i ∧ i < g_logprimap.length

instance (i : Int) : Decidable (in_logprimap i) :=
  inferInstanceAs (Decidable (0 ≤ i ∧ i < g_logprimap.length))

set_option maxRecDepth 100000

/-! ## Basic facts about the engine model -/

theorem kvdb_db_setDb (kv : kvdb) (i : Int) (d : unqlite) : (kv.setDb i d).db i = d := by
  unfold kvdb.setDb kvdb.db
  by_cases h : i = KVDB_PERSIST <;> simp [h]

theorem unqlite_lookup_cons_self (db : unqlite) (k d : Bytes) :
    unqlite_lookup ((k, d) :: db) k = some d := by
  simp [unqlite_lookup, List.find?]

theorem unqlite_fetch_after_store (db : unqlite) (key : Bytes) (klen : Nat) (value : Bytes)
    (vlen n : Nat) :
    unqlite_kv_fetch (unqlite_kv_store db key klen value vlen).2 key klen true n =
      (UNQLITE_OK, min n (value.take vlen).length, (value.take vlen).take n) := by
  simp [unqlite_kv_fetch, unqlite_kv_store, unqlite_lookup_cons_self]

/-- The only way `kvdb_set` returns a non-negative status: every check passed
and the record was stored. -/
theorem kvdb_set_nonneg (cfg : Config) (kv : kvdb) (key value : Bytes)
    (key_len val_len : Nat) (force : Bool)
    (hset : 0 ≤ (UnqliteBackend.kvdb_set cfg kv (some key) key_len value val_len force).1) :
    size_dec key_len < PROP_NAME_MAX ∧ key.getD (size_dec key_len) 0 = 0 ∧
    val_len < PROP_VALUE_MAX ∧ 0 ≤ kvdb_get_index cfg key ∧
    UnqliteBackend.kvdb_set cfg kv (some key) key_len value val_len force =
      (UNQLITE_OK, kv.setDb (kvdb_get_index cfg key)
        (unqlite_kv_store (kv.db (kvdb_get_index cfg key)) key
          (size_inc (size_dec key_len)) value val_len).2) := by
  simp only [UnqliteBackend.kvdb_set] at hset ⊢
  split_ifs at hset ⊢ with h1 h2 h3 h4 h5
  · simp [E2BIG] at hset
  · simp [EINVAL] at hset
  · simp [E2BIG] at hset
  · simp only at hset; omega
  · simp [EPERM] at hset
  · refine ⟨by omega, by simpa using h2, by omega, by omega, ?_⟩
    simp [unqlite_kv_store]

/-! ## Set followed by get (unqlite backend) -/

/-- C1 (as amended): in the unqlite backend, when `kvdb_set` of a value of at
least one byte returns a non-negative status, an immediately following
`kvdb_get` into a buffer of capacity `n ≥ 1` returns `min n val_len`, which is
positive, and the buffer holds the first `min n val_len` bytes of the value. -/
theorem C1_set_then_get (cfg : Config) (kv : kvdb) (key value : Bytes)
    (key_len val_len n : Nat)
    (hv : val_len ≤ value.length) (hvl : 1 ≤ val_len) (hn : 1 ≤ n)
    (hset : 0 ≤ (UnqliteBackend.kvdb_set cfg kv (some key) key_len value val_len false).1) :
    UnqliteBackend.kvdb_get cfg
        (UnqliteBackend.kvdb_set cfg kv (some key) key_len value val_len false).2
        key key_len true n
      = (((min n val_len : Nat) : Int), value.take (min n val_len)) := by
  obtain ⟨h1, h2, _, h4, heq⟩ := kvdb_set_nonneg cfg kv key value key_len val_len false hset
  rw [heq]
  have hlen : (value.take val_len).length = val_len := by
    simp [List.length_take, hv]
  have hpos : ¬ (min n val_len ≤ 0) := by omega
  have hok : ¬ (UNQLITE_OK < 0) := by decide
  simp only [UnqliteBackend.kvdb_get, kvdb_db_setDb, unqlite_fetch_after_store, hlen]
  rw [if_neg (by omega), if_neg (not_not.mpr h2), if_neg (by omega), if_neg hok, if_neg hpos,
    List.take_take]

/-- Witness for C1: the value `[1, 0, 2]` (with an embedded NUL) is set under
the key `a` and read back into a two-byte buffer. -/
theorem C1_set_then_get_witness :
    UnqliteBackend.kvdb_get ⟨true, true, true⟩
        (UnqliteBackend.kvdb_set ⟨true, true, true⟩ ⟨[], []⟩ (some [97, 0]) 2 [1, 0, 2] 3 false).2
        [97, 0] 2 true 2
      = (((min 2 3 : Nat) : Int), [1, 0, 2].take (min 2 3)) :=
  C1_set_then_get ⟨true, true, true⟩ ⟨[], []⟩ [97, 0] [1, 0, 2] 2 3 2
    (by decide) (by decide) (by decide) (by decide)

/-- C1 (counterexample to the claim as stated): a set that succeeds is not
always followed by a get with a non-negative result.  With a buffer capacity
`n = 0` the get of the value just set returns `-EINVAL`; and `kvdb_set`
accepts a value of length 0, after which every get returns `-EINVAL`. -/
theorem C1_counterexample :
    (UnqliteBackend.kvdb_set ⟨true, true, true⟩ ⟨[], []⟩ (some [97, 0]) 2 [1] 1 false).1 = 0 ∧
    (UnqliteBackend.kvdb_get ⟨true, true, true⟩
        (UnqliteBackend.kvdb_set ⟨true, true, true⟩ ⟨[], []⟩ (some [97, 0]) 2 [1] 1 false).2
        [97, 0] 2 true 0).1 = -EINVAL ∧
    (UnqliteBackend.kvdb_set ⟨true, true, true⟩ ⟨[], []⟩ (some [97, 0]) 2 [] 0 false).1 = 0 ∧
    (UnqliteBackend.kvdb_get ⟨true, true, true⟩
        (UnqliteBackend.kvdb_set ⟨true, true, true⟩ ⟨[], []⟩ (some [97, 0]) 2 [] 0 false).2
        [97, 0] 2 true 8).1 = -EINVAL := by
  decide

/-! ## The read-only rule in `kvdb_set` (unqlite backend) -/

theorem size_dec_of_pos (n : Nat) (h : 1 ≤ n) : size_dec n = n - 1 := by
  unfold size_dec
  rw [if_neg (by omega)]

theorem size_inc_dec (n : Nat) (h1 : 1 ≤ n) (h2 : n ≤ SIZE_MAX) : size_inc (size_dec n) = n := by
  rw [size_dec_of_pos n h1]
  unfold size_inc
  rw [if_neg (by omega)]
  omega

theorem kvdb_is_readonly_ro (rest : Bytes) : kvdb_is_readonly (RO_LABEL ++ rest) = true := by
  simp [kvdb_is_readonly, RO_LABEL, strncmp]

theorem kvdb_get_index_ro (cfg : Config) (h : cfg.TEMPORARY_STORAGE = true) (rest : Bytes) :
    kvdb_get_index cfg (RO_LABEL ++ rest) = KVDB_MEM := by
  simp [kvdb_get_index, RO_LABEL, PERSIST_LABEL, PERSIST_LABEL_LEN, strncmp, h]

theorem unqlite_kv_is_exist_iff (db : unqlite) (key : Bytes) (klen : Nat) :
    unqlite_kv_is_exist db key klen = (unqlite_lookup db (key.take klen)).isSome := by
  unfold unqlite_kv_is_exist unqlite_kv_fetch
  cases h : unqlite_lookup db (key.take klen) <;> simp [UNQLITE_NOTFOUND, UNQLITE_OK]

theorem kvdb_mem_setDb (kv : kvdb) (d : unqlite) : (kv.setDb KVDB_MEM d).mem = d := by
  simp [kvdb.setDb, KVDB_MEM, KVDB_PERSIST]

/-- What `kvdb_set` does once the length checks pass and a namespace exists. -/
theorem kvdb_set_valid (cfg : Config) (kv : kvdb) (key value : Bytes) (key_len val_len : Nat)
    (force : Bool) (hk1 : 1 ≤ key_len) (hk2 : key_len ≤ PROP_NAME_MAX)
    (hnul : key.getD (key_len - 1) 0 = 0) (hv : val_len < PROP_VALUE_MAX)
    (hi : 0 ≤ kvdb_get_index cfg key) :
    UnqliteBackend.kvdb_set cfg kv (some key) key_len value val_len force =
      if (!force && kvdb_is_readonly key &&
          (unqlite_lookup (kv.db (kvdb_get_index cfg key)) (key.take key_len)).isSome) = true
      then (-EPERM, kv)
      else (0, kv.setDb (kvdb_get_index cfg key)
        ((key.take key_len, value.take val_len) ::
          (kv.db (kvdb_get_index cfg key)).filter (fun r => r.1 != key.take key_len))) := by
  have hd : size_dec key_len = key_len - 1 := size_dec_of_pos key_len hk1
  have hinc : size_inc (key_len - 1) = key_len := by
    have := size_inc_dec key_len hk1 (by unfold PROP_NAME_MAX at hk2; unfold SIZE_MAX; omega)
    rwa [hd] at this
  have hlt : ¬ (key_len - 1 ≥ PROP_NAME_MAX) := by omega
  have hvv : ¬ (val_len ≥ PROP_VALUE_MAX) := by omega
  have hsub : key_len - 1 + 1 = key_len := by omega
  simp only [UnqliteBackend.kvdb_set, hd, hinc, unqlite_kv_is_exist_iff, hsub]
  rw [if_neg hlt, if_neg (not_not.mpr hnul), if_neg hvv, if_neg (by omega)]
  rfl

/-- C2: in the unqlite backend with the volatile namespace enabled, for a key
that begins with `ro.`, has a valid length and is NUL-terminated, and a value
of valid length: if the key is absent, a set with `force = false` succeeds and
stores the value; if the key is present, a set with `force = false` returns
`-EPERM` and leaves the whole store unchanged; a set with `force = true`
succeeds and stores the new value whether or not the key is present. -/
theorem C2_readonly_set (cfg : Config) (kv : kvdb) (rest value : Bytes) (key_len val_len : Nat)
    (hcfg : cfg.TEMPORARY_STORAGE = true)
    (hk1 : 1 ≤ key_len) (hk2 : key_len ≤ PROP_NAME_MAX)
    (hnul : (RO_LABEL ++ rest).getD (key_len - 1) 0 = 0)
    (hv : val_len < PROP_VALUE_MAX) :
    (unqlite_lookup kv.mem ((RO_LABEL ++ rest).take key_len) = none →
      (UnqliteBackend.kvdb_set cfg kv (some (RO_LABEL ++ rest)) key_len value val_len false).1 = 0 ∧
      unqlite_lookup
        (UnqliteBackend.kvdb_set cfg kv (some (RO_LABEL ++ rest)) key_len value val_len false).2.mem
        ((RO_LABEL ++ rest).take key_len) = some (value.take val_len)) ∧
    (∀ old, unqlite_lookup kv.mem ((RO_LABEL ++ rest).take key_len) = some old →
      UnqliteBackend.kvdb_set cfg kv (some (RO_LABEL ++ rest)) key_len value val_len false
        = (-EPERM, kv)) ∧
    ((UnqliteBackend.kvdb_set cfg kv (some (RO_LABEL ++ rest)) key_len value val_len true).1 = 0 ∧
      unqlite_lookup
        (UnqliteBackend.kvdb_set cfg kv (some (RO_LABEL ++ rest)) key_len value val_len true).2.mem
        ((RO_LABEL ++ rest).take key_len) = some (value.take val_len)) := by
  have hmem : kv.db KVDB_MEM = kv.mem := by simp [kvdb.db, KVDB_MEM, KVDB_PERSIST]
  have hidx := kvdb_get_index_ro cfg hcfg rest
  have hnn : 0 ≤ kvdb_get_index cfg (RO_LABEL ++ rest) := by rw [hidx]; decide
  have hset := fun force =>
    kvdb_set_valid cfg kv (RO_LABEL ++ rest) value key_len val_len force hk1 hk2 hnul hv hnn
  rw [hidx, hmem] at hset
  refine ⟨?_, ?_, ?_⟩
  · intro habs
    rw [hset false]
    simp [habs, kvdb_mem_setDb, unqlite_lookup_cons_self]
  · intro old hold
    rw [hset false]
    simp [hold, kvdb_is_readonly_ro]
  · rw [hset true]
    simp [kvdb_mem_setDb, unqlite_lookup_cons_self]

/-- Witness for C2: the key `ro.x` and the value `v1` on a store that already
holds `ro.x`. -/
theorem C2_readonly_set_witness :
    (unqlite_lookup (kvdb.mk [] [([114, 111, 46, 120, 0], [118, 48, 0])]).mem
        ((RO_LABEL ++ [120, 0]).take 5) = none →
      (UnqliteBackend.kvdb_set ⟨true, true, true⟩ ⟨[], [([114, 111, 46, 120, 0], [118, 48, 0])]⟩
        (some (RO_LABEL ++ [120, 0])) 5 [118, 49, 0] 3 false).1 = 0 ∧
      unqlite_lookup
        (UnqliteBackend.kvdb_set ⟨true, true, true⟩ ⟨[], [([114, 111, 46, 120, 0], [118, 48, 0])]⟩
          (some (RO_LABEL ++ [120, 0])) 5 [118, 49, 0] 3 false).2.mem
        ((RO_LABEL ++ [120, 0]).take 5) = some ([118, 49, 0].take 3)) ∧
    (∀ old, unqlite_lookup (kvdb.mk [] [([114, 111, 46, 120, 0], [118, 48, 0])]).mem
        ((RO_LABEL ++ [120, 0]).take 5) = some old →
      UnqliteBackend.kvdb_set ⟨true, true, true⟩ ⟨[], [([114, 111, 46, 120, 0], [118, 48, 0])]⟩
        (some (RO_LABEL ++ [120, 0])) 5 [118, 49, 0] 3 false
        = (-EPERM, ⟨[], [([114, 111, 46, 120, 0], [118, 48, 0])]⟩)) ∧
    ((UnqliteBackend.kvdb_set ⟨true, true, true⟩ ⟨[], [([114, 111, 46, 120, 0], [118, 48, 0])]⟩
        (some (RO_LABEL ++ [120, 0])) 5 [118, 49, 0] 3 true).1 = 0 ∧
      unqlite_lookup
        (UnqliteBackend.kvdb_set ⟨true, true, true⟩ ⟨[], [([114, 111, 46, 120, 0], [118, 48, 0])]⟩
          (some (RO_LABEL ++ [120, 0])) 5 [118, 49, 0] 3 true).2.mem
        ((RO_LABEL ++ [120, 0]).take 5) = some ([118, 49, 0].take 3)) :=
  C2_readonly_set ⟨true, true, true⟩ ⟨[], [([114, 111, 46, 120, 0], [118, 48, 0])]⟩ [120, 0]
    [118, 49, 0] 5 3 rfl (by decide) (by decide) (by decide) (by decide)

/-! ## The order of the writes of a mutation -/

theorem walk_no_call {σ : Type} (env : ServerEnv σ) (key frame : Bytes) (l : List kvdb_monitor) :
    ∀ e ∈ (kvdb_monitor_walk env key frame l).2, e.isCall = false := by
  induction l with
  | nil => simp [kvdb_monitor_walk]
  | cons m ms ih =>
    intro e he
    simp only [kvdb_monitor_walk] at he
    split_ifs at he
    · exact ih e he
    · simp only [List.mem_cons] at he
      rcases he with h | h | h
      · subst h; rfl
      · subst h; rfl
      · exact ih e h
    · simp only [List.mem_cons] at he
      rcases he with h | h
      · subst h; rfl
      · exact ih e h

theorem notify_no_call {σ : Type} (env : ServerEnv σ) (server : kvdb_server σ) (key : Bytes)
    (value : Option Bytes) (val_len : Nat) :
    ∀ e ∈ (kvdb_monitor_notify env server key value val_len).2, e.isCall = false :=
  walk_no_call env key _ server.head

theorem list_no_call (fd : Nat) (l : List (Bytes × Bytes × Nat)) :
    ∀ e ∈ l.map (kvdb_list_consume fd), e.isCall = false := by
  intro e he
  simp only [List.mem_map] at he
  obtain ⟨c, _, rfl⟩ := he
  rfl

theorem kvdb_client_S_set {σ : Type} (B : Backend σ) (env : ServerEnv σ)
    (server : kvdb_server σ) (fd : Nat) (msg : Bytes) (len : Nat) (sock : Sock)
    (k : Bytes) (kl : Nat) (v : Bytes) (vl : Nat)
    (hmem : Event.kvdb_set k kl v vl false ∈ (kvdb_client_S B env server fd msg len sock).trace)
    (hok : 0 ≤ (B.kvdb_set server.kvdb k kl v vl false).1) :
    (kvdb_client_S B env server fd msg len sock).trace =
      [Event.kvdb_set k kl v vl false] ++
      (kvdb_monitor_notify env ⟨(B.kvdb_set server.kvdb k kl v vl false).2, server.head⟩
        k (some v) vl).2 ++
      [Event.send fd (int32_bytes (B.kvdb_set server.kvdb k kl v vl false).1), Event.close fd] := by
  unfold kvdb_client_S at hmem ⊢
  simp only at hmem ⊢
  split_ifs at hmem ⊢ with h1 h2 h3
  · simp [kvdb_client_out] at hmem
  · simp only [kvdb_client_out, List.mem_append, List.mem_singleton, List.mem_cons,
      List.not_mem_nil, or_false, false_or, or_assoc] at hmem
    rcases hmem with h | h | h | h
    · injection h with e1 e2 e3 e4 _
      subst e1 e2 e3 e4
      simp [kvdb_client_out]
    · have := notify_no_call env _ _ _ _ _ h
      simp [Event.isCall] at this
    · cases h
    · cases h
  · simp only [kvdb_client_out, List.mem_append, List.mem_singleton, List.mem_cons,
      List.not_mem_nil, or_false, false_or, or_assoc] at hmem
    rcases hmem with h | h | h
    · injection h with e1 e2 e3 e4 _
      subst e1 e2 e3 e4
      exact absurd hok (by simpa using h3)
    · cases h
    · cases h
  · simp [kvdb_client_out] at hmem

theorem kvdb_client_D_delete {σ : Type} (B : Backend σ) (env : ServerEnv σ)
    (server : kvdb_server σ) (fd : Nat) (msg : Bytes) (len : Nat) (sock : Sock)
    (k : Bytes) (kl : Nat)
    (hmem : Event.kvdb_delete k kl ∈ (kvdb_client_D B env server fd msg len sock).trace)
    (hok : 0 ≤ (B.kvdb_delete server.kvdb k kl).1) :
    (kvdb_client_D B env server fd msg len sock).trace =
      [Event.kvdb_delete k kl] ++
      (kvdb_monitor_notify env ⟨(B.kvdb_delete server.kvdb k kl).2, server.head⟩ k none 0).2 ++
      [Event.send fd (int32_bytes (B.kvdb_delete server.kvdb k kl).1), Event.close fd] := by
  unfold kvdb_client_D at hmem ⊢
  simp only at hmem ⊢
  split_ifs at hmem ⊢ with h1 h2 h3
  · simp [kvdb_client_out] at hmem
  · simp only [kvdb_client_out, List.mem_append, List.mem_singleton, List.mem_cons,
      List.not_mem_nil, or_false, false_or, or_assoc] at hmem
    rcases hmem with h | h | h | h
    · injection h with e1 e2
      subst e1 e2
      simp [kvdb_client_out]
    · have := notify_no_call env _ _ _ _ _ h
      simp [Event.isCall] at this
    · cases h
    · cases h
  · simp only [kvdb_client_out, List.mem_append, List.mem_singleton, List.mem_cons,
      List.not_mem_nil, or_false, false_or, or_assoc] at hmem
    rcases hmem with h | h | h
    · injection h with e1 e2
      subst e1 e2
      exact absurd hok (by simpa using h3)
    · cases h
    · cases h
  · simp [kvdb_client_out] at hmem

/-- The backend calls found in the trace of each case of the handler. -/
theorem kvdb_client_S_calls {σ : Type} (B : Backend σ) (env : ServerEnv σ)
    (server : kvdb_server σ) (fd : Nat) (msg : Bytes) (len : Nat) (sock : Sock) (e : Event)
    (hmem : e ∈ (kvdb_client_S B env server fd msg len sock).trace) (hc : e.isCall = true) :
    ∃ k kl v vl, e = Event.kvdb_set k kl v vl false := by
  unfold kvdb_client_S at hmem
  simp only at hmem
  split_ifs at hmem with h1 h2 h3
  · simp only [kvdb_client_out, List.mem_append, List.mem_singleton, List.mem_cons,
      List.not_mem_nil, or_false, false_or, or_assoc] at hmem
    subst hmem; cases hc
  · simp only [kvdb_client_out, List.mem_append, List.mem_singleton, List.mem_cons,
      List.not_mem_nil, or_false, false_or, or_assoc] at hmem
    rcases hmem with h | h | h | h
    · exact ⟨_, _, _, _, h⟩
    · have := notify_no_call env _ _ _ _ _ h
      rw [hc] at this; cases this
    · subst h; cases hc
    · subst h; cases hc
  · simp only [kvdb_client_out, List.mem_append, List.mem_singleton, List.mem_cons,
      List.not_mem_nil, or_false, false_or, or_assoc] at hmem
    rcases hmem with h | h | h
    · exact ⟨_, _, _, _, h⟩
    · subst h; cases hc
    · subst h; cases hc
  · simp only [kvdb_client_out, List.mem_append, List.mem_singleton, List.mem_cons,
      List.not_mem_nil, or_false, false_or, or_assoc] at hmem
    subst hmem; cases hc

theorem kvdb_client_D_calls {σ : Type} (B : Backend σ) (env : ServerEnv σ)
    (server : kvdb_server σ) (fd : Nat) (msg : Bytes) (len : Nat) (sock : Sock) (e : Event)
    (hmem : e ∈ (kvdb_client_D B env server fd msg len sock).trace) (hc : e.isCall = true) :
    ∃ k kl, e = Event.kvdb_delete k kl := by
  unfold kvdb_client_D at hmem
  simp only at hmem
  split_ifs at hmem with h1 h2 h3
  · simp only [kvdb_client_out, List.mem_append, List.mem_singleton, List.mem_cons,
      List.not_mem_nil, or_false, false_or, or_assoc] at hmem
    subst hmem; cases hc
  · simp only [kvdb_client_out, List.mem_append, List.mem_singleton, List.mem_cons,
      List.not_mem_nil, or_false, false_or, or_assoc] at hmem
    rcases hmem with h | h | h | h
    · exact ⟨_, _, h⟩
    · have := notify_no_call env _ _ _ _ _ h
      rw [hc] at this; cases this
    · subst h; cases hc
    · subst h; cases hc
  · simp only [kvdb_client_out, List.mem_append, List.mem_singleton, List.mem_cons,
      List.not_mem_nil, or_false, false_or, or_assoc] at hmem
    rcases hmem with h | h | h
    · exact ⟨_, _, h⟩
    · subst h; cases hc
    · subst h; cases hc
  · simp only [kvdb_client_out, List.mem_append, List.mem_singleton, List.mem_cons,
      List.not_mem_nil, or_false, false_or, or_assoc] at hmem
    subst hmem; cases hc

theorem kvdb_client_G_calls {σ : Type} (B : Backend σ)
    (server : kvdb_server σ) (fd : Nat) (msg : Bytes) (len : Nat) (sock : Sock) (e : Event)
    (hmem : e ∈ (kvdb_client_G B server fd msg len sock).trace) (hc : e.isCall = true) :
    ∃ k kl vl, e = Event.kvdb_get k kl vl := by
  unfold kvdb_client_G at hmem
  simp only at hmem
  split_ifs at hmem with h1 h2 h3
  · simp only [kvdb_client_out, List.mem_append, List.mem_singleton, List.mem_cons,
      List.not_mem_nil, or_false, false_or, or_assoc] at hmem
    subst hmem; cases hc
  · simp only [kvdb_client_out, List.mem_append, List.mem_singleton, List.mem_cons,
      List.not_mem_nil, or_false, false_or, or_assoc] at hmem
    rcases hmem with h | h | h
    · exact ⟨_, _, _, h⟩
    · subst h; cases hc
    · subst h; cases hc
  · simp only [kvdb_client_out, List.mem_append, List.mem_singleton, List.mem_cons,
      List.not_mem_nil, or_false, false_or, or_assoc] at hmem
    rcases hmem with h | h
    · exact ⟨_, _, _, h⟩
    · subst h; cases hc
  · simp only [kvdb_client_out, List.mem_append, List.mem_singleton, List.mem_cons,
      List.not_mem_nil, or_false, false_or, or_assoc] at hmem
    subst hmem; cases hc

theorem kvdb_client_M_calls {σ : Type} (env : ServerEnv σ)
    (server : kvdb_server σ) (fd : Nat) (msg : Bytes) (len : Nat) (sock : Sock) (e : Event)
    (hmem : e ∈ (kvdb_client_M env server fd msg len sock).trace) : e.isCall = false := by
  unfold kvdb_client_M at hmem
  simp only at hmem
  split_ifs at hmem with h1 h2 h3
  · simp only [kvdb_client_out, List.mem_append, List.mem_singleton, List.mem_cons,
      List.not_mem_nil, or_false, false_or, or_assoc] at hmem
    subst hmem; rfl
  · simp only [kvdb_client_out, List.mem_append, List.mem_singleton, List.mem_cons,
      List.not_mem_nil, or_false, false_or, or_assoc] at hmem
    subst hmem; rfl
  · simp only [List.mem_singleton] at hmem
    subst hmem; rfl
  · simp at hmem

/-- A backend call in the trace of `kvdb_client` was made by the case of the
switch that makes this kind of call. -/
theorem kvdb_client_switch_call_case {σ : Type} (cfg : Config) (B : Backend σ)
    (env : ServerEnv σ) (server : kvdb_server σ) (fd : Nat) (msg : Bytes) (len : Nat)
    (sock : Sock) (e : Event)
    (hmem : e ∈ (kvdb_client_switch cfg B env server fd msg len sock).trace)
    (hc : e.isCall = true) :
    (kvdb_client_switch cfg B env server fd msg len sock
        = kvdb_client_D B env server fd msg len sock ∧ ∃ k kl, e = Event.kvdb_delete k kl) ∨
    (kvdb_client_switch cfg B env server fd msg len sock
        = kvdb_client_G B server fd msg len sock ∧ ∃ k kl vl, e = Event.kvdb_get k kl vl) ∨
    (kvdb_client_switch cfg B env server fd msg len sock
        = kvdb_client_S B env server fd msg len sock ∧
          ∃ k kl v vl, e = Event.kvdb_set k kl v vl false) := by
  unfold kvdb_client_switch at hmem ⊢
  by_cases h68 : msg.getD 0 0 = 68
  · rw [if_pos h68] at hmem ⊢
    exact Or.inl ⟨rfl, kvdb_client_D_calls B env server fd _ _ _ e hmem hc⟩
  rw [if_neg h68] at hmem ⊢
  by_cases h71 : msg.getD 0 0 = 71
  · rw [if_pos h71] at hmem ⊢
    exact Or.inr (Or.inl ⟨rfl, kvdb_client_G_calls B server fd _ _ _ e hmem hc⟩)
  rw [if_neg h71] at hmem ⊢
  by_cases h83 : msg.getD 0 0 = 83
  · rw [if_pos h83] at hmem ⊢
    exact Or.inr (Or.inr ⟨rfl, kvdb_client_S_calls B env server fd _ _ _ e hmem hc⟩)
  rw [if_neg h83] at hmem
  exfalso
  split_ifs at hmem
  · simp only [kvdb_client_out, List.mem_append, List.mem_singleton, List.mem_cons,
      List.not_mem_nil, or_false, false_or, or_assoc] at hmem
    rcases hmem with h | h | h
    · have := list_no_call fd _ e h
      rw [hc] at this; cases this
    · subst h; cases hc
    · subst h; cases hc
  · simp only [kvdb_client_out, List.mem_append, List.mem_singleton, List.mem_cons,
      List.not_mem_nil, or_false, false_or, or_assoc] at hmem
    rcases hmem with h | h
    · subst h; cases hc
    · subst h; cases hc
  · simp only [kvdb_client_out, List.mem_append, List.mem_singleton, List.mem_cons,
      List.not_mem_nil, or_false, false_or, or_assoc] at hmem
    subst hmem; cases hc
  · have := kvdb_client_M_calls env server fd _ _ _ e hmem
    rw [hc] at this; cases this
  · simp only [kvdb_client_out, List.mem_append, List.mem_singleton, List.mem_cons,
      List.not_mem_nil, or_false, false_or, or_assoc] at hmem
    subst hmem; cases hc

theorem kvdb_client_call_case {σ : Type} (cfg : Config) (B : Backend σ) (env : ServerEnv σ)
    (server : kvdb_server σ) (fd : Nat) (sock : Sock) (e : Event)
    (hmem : e ∈ (kvdb_client cfg B env server fd sock).trace) (hc : e.isCall = true) :
    (∃ msg len rest, kvdb_client cfg B env server fd sock
        = kvdb_client_D B env server fd msg len rest ∧ ∃ k kl, e = Event.kvdb_delete k kl) ∨
    (∃ msg len rest, kvdb_client cfg B env server fd sock
        = kvdb_client_G B server fd msg len rest ∧ ∃ k kl vl, e = Event.kvdb_get k kl vl) ∨
    (∃ msg len rest, kvdb_client cfg B env server fd sock
        = kvdb_client_S B env server fd msg len rest ∧
          ∃ k kl v vl, e = Event.kvdb_set k kl v vl false) := by
  unfold kvdb_client at hmem ⊢
  by_cases h1 : env.malloc_ok = false
  · rw [if_pos h1] at hmem
    simp only [kvdb_client_out, List.mem_append, List.mem_singleton, List.mem_cons,
      List.not_mem_nil, or_false, false_or, or_assoc] at hmem
    subst hmem; cases hc
  rw [if_neg h1] at hmem ⊢
  by_cases h2 : (recv sock PROP_MSG_MAX).1 ≤ 0
  · rw [if_pos h2] at hmem
    simp only [kvdb_client_out, List.mem_append, List.mem_singleton, List.mem_cons,
      List.not_mem_nil, or_false, false_or, or_assoc] at hmem
    subst hmem; cases hc
  rw [if_neg h2] at hmem ⊢
  rcases kvdb_client_switch_call_case cfg B env server fd _ _ _ e hmem hc with h | h | h
  · exact Or.inl ⟨_, _, _, h⟩
  · exact Or.inr (Or.inl ⟨_, _, _, h⟩)
  · exact Or.inr (Or.inr ⟨_, _, _, h⟩)

/-- The trace of a run of `kvdb_client` that made a successful `kvdb_set`. -/
theorem kvdb_client_set_shape {σ : Type} (cfg : Config) (B : Backend σ) (env : ServerEnv σ)
    (server : kvdb_server σ) (fd : Nat) (sock : Sock) (k : Bytes) (kl : Nat) (v : Bytes)
    (vl : Nat)
    (hmem : Event.kvdb_set k kl v vl false ∈ (kvdb_client cfg B env server fd sock).trace)
    (hok : 0 ≤ (B.kvdb_set server.kvdb k kl v vl false).1) :
    (kvdb_client cfg B env server fd sock).trace =
      [Event.kvdb_set k kl v vl false] ++
      (kvdb_monitor_notify env ⟨(B.kvdb_set server.kvdb k kl v vl false).2, server.head⟩
        k (some v) vl).2 ++
      [Event.send fd (int32_bytes (B.kvdb_set server.kvdb k kl v vl false).1),
        Event.close fd] := by
  rcases kvdb_client_call_case cfg B env server fd sock _ hmem rfl with
    ⟨msg, len, rest, heq, k2, kl2, he⟩ | ⟨msg, len, rest, heq, k2, kl2, vl2, he⟩ |
    ⟨msg, len, rest, heq, _⟩
  · cases he
  · cases he
  · rw [heq] at hmem ⊢
    exact kvdb_client_S_set B env server fd msg len rest k kl v vl hmem hok

/-- The trace of a run of `kvdb_client` that made a successful `kvdb_delete`. -/
theorem kvdb_client_delete_shape {σ : Type} (cfg : Config) (B : Backend σ) (env : ServerEnv σ)
    (server : kvdb_server σ) (fd : Nat) (sock : Sock) (k : Bytes) (kl : Nat)
    (hmem : Event.kvdb_delete k kl ∈ (kvdb_client cfg B env server fd sock).trace)
    (hok : 0 ≤ (B.kvdb_delete server.kvdb k kl).1) :
    (kvdb_client cfg B env server fd sock).trace =
      [Event.kvdb_delete k kl] ++
      (kvdb_monitor_notify env ⟨(B.kvdb_delete server.kvdb k kl).2, server.head⟩ k none 0).2 ++
      [Event.send fd (int32_bytes (B.kvdb_delete server.kvdb k kl).1), Event.close fd] := by
  rcases kvdb_client_call_case cfg B env server fd sock _ hmem rfl with
    ⟨msg, len, rest, heq, _⟩ | ⟨msg, len, rest, heq, k2, kl2, vl2, he⟩ |
    ⟨msg, len, rest, heq, k2, kl2, v2, vl2, he⟩
  · rw [heq] at hmem ⊢
    exact kvdb_client_D_delete B env server fd msg len rest k kl hmem hok
  · cases he
  · cases he

/-- C3 (as amended): in `kvdb_client`, for every S or D request whose backend
call succeeds, the change-notification frames of that mutation are written to
the watcher sockets before the i32 status reply is written to the requesting
socket: the trace of the handler is the backend call, then the writes of
`kvdb_monitor_notify`, then the reply, then the close of the socket. -/
theorem C3_notifications_then_reply {σ : Type} (cfg : Config) (B : Backend σ) (env : ServerEnv σ)
    (server : kvdb_server σ) (fd : Nat) (sock : Sock) :
    (∀ k kl v vl,
      Event.kvdb_set k kl v vl false ∈ (kvdb_client cfg B env server fd sock).trace →
      0 ≤ (B.kvdb_set server.kvdb k kl v vl false).1 →
      (kvdb_client cfg B env server fd sock).trace =
        [Event.kvdb_set k kl v vl false] ++
        (kvdb_monitor_notify env ⟨(B.kvdb_set server.kvdb k kl v vl false).2, server.head⟩
          k (some v) vl).2 ++
        [Event.send fd (int32_bytes (B.kvdb_set server.kvdb k kl v vl false).1),
          Event.close fd]) ∧
    (∀ k kl,
      Event.kvdb_delete k kl ∈ (kvdb_client cfg B env server fd sock).trace →
      0 ≤ (B.kvdb_delete server.kvdb k kl).1 →
      (kvdb_client cfg B env server fd sock).trace =
        [Event.kvdb_delete k kl] ++
        (kvdb_monitor_notify env ⟨(B.kvdb_delete server.kvdb k kl).2, server.head⟩ k none 0).2 ++
        [Event.send fd (int32_bytes (B.kvdb_delete server.kvdb k kl).1), Event.close fd]) :=
  ⟨fun k kl v vl => kvdb_client_set_shape cfg B env server fd sock k kl v vl,
   fun k kl => kvdb_client_delete_shape cfg B env server fd sock k kl⟩

/-- Witness for C3: an S request for key `a` with value `v`, one matching
watcher on socket 9. -/
theorem C3_notifications_then_reply_witness :
    (kvdb_client ⟨true, true, true⟩ (unqliteBackend ⟨true, true, true⟩ (fun _ => 0)) (env_ok kvdb)
        ⟨⟨[], []⟩, [⟨9, [97]⟩]⟩ 5 [RecvResult.data [83, 2, 2, 97, 0, 118, 0]]).trace =
      [Event.kvdb_set ([97, 0, 118, 0] ++ List.replicate 378 170) 2
          ([118, 0] ++ List.replicate 378 170) 2 false] ++
      (kvdb_monitor_notify (env_ok kvdb)
        ⟨((unqliteBackend ⟨true, true, true⟩ (fun _ => 0)).kvdb_set ⟨[], []⟩
            ([97, 0, 118, 0] ++ List.replicate 378 170) 2
            ([118, 0] ++ List.replicate 378 170) 2 false).2, [⟨9, [97]⟩]⟩
        ([97, 0, 118, 0] ++ List.replicate 378 170) (some ([118, 0] ++ List.replicate 378 170))
        2).2 ++
      [Event.send 5 (int32_bytes ((unqliteBackend ⟨true, true, true⟩ (fun _ => 0)).kvdb_set ⟨[], []⟩
            ([97, 0, 118, 0] ++ List.replicate 378 170) 2
            ([118, 0] ++ List.replicate 378 170) 2 false).1),
        Event.close 5] :=
  (C3_notifications_then_reply ⟨true, true, true⟩ (unqliteBackend ⟨true, true, true⟩ (fun _ => 0))
    (env_ok kvdb) ⟨⟨[], []⟩, [⟨9, [97]⟩]⟩ 5 [RecvResult.data [83, 2, 2, 97, 0, 118, 0]]).1
    ([97, 0, 118, 0] ++ List.replicate 378 170) 2 ([118, 0] ++ List.replicate 378 170) 2
    (by decide) (by decide)

/-- C3 (counterexample to the claim as stated): for a successful S request
with one matching watcher on socket 9, the notification frame is written to
the watcher before the status reply is written to the requesting socket 5. -/
theorem C3_counterexample :
    (kvdb_client ⟨true, true, true⟩ (unqliteBackend ⟨true, true, true⟩ (fun _ => 0)) (env_ok kvdb)
        ⟨⟨[], []⟩, [⟨9, [97]⟩]⟩ 5 [RecvResult.data [83, 2, 2, 97, 0, 118, 0]]).trace =
      [Event.kvdb_set ([97, 0, 118, 0] ++ List.replicate 378 170) 2
          ([118, 0] ++ List.replicate 378 170) 2 false,
        Event.sendmsg 9 [2, 2, 97, 0, 118, 0],
        Event.send 5 [0, 0, 0, 0],
        Event.close 5] ∧
    ((kvdb_client ⟨true, true, true⟩ (unqliteBackend ⟨true, true, true⟩ (fun _ => 0)) (env_ok kvdb)
        ⟨⟨[], []⟩, [⟨9, [97]⟩]⟩ 5 [RecvResult.data [83, 2, 2, 97, 0, 118, 0]]).trace.indexOf
          (Event.sendmsg 9 [2, 2, 97, 0, 118, 0]) <
     (kvdb_client ⟨true, true, true⟩ (unqliteBackend ⟨true, true, true⟩ (fun _ => 0)) (env_ok kvdb)
        ⟨⟨[], []⟩, [⟨9, [97]⟩]⟩ 5 [RecvResult.data [83, 2, 2, 97, 0, 118, 0]]).trace.indexOf
          (Event.send 5 [0, 0, 0, 0])) := by
  decide

/-! ## Fan-out of a change to the watchers -/

theorem walk_sendmsg {σ : Type} (env : ServerEnv σ) (key frame : Bytes) (l : List kvdb_monitor) :
    (kvdb_monitor_walk env key frame l).2.filter Event.isSendmsg =
      (l.filter (fun m => decide (env.fnmatch m.key (cstr key) = 0))).map
        (fun m => Event.sendmsg m.fd frame) := by
  induction l with
  | nil => simp [kvdb_monitor_walk]
  | cons m ms ih =>
    simp only [kvdb_monitor_walk]
    by_cases h1 : env.fnmatch m.key (cstr key) = 0
    · by_cases h2 : env.sendmsg_fails m.fd = true
      · simp [h1, h2, Event.isSendmsg, ih]
      · simp [h1, h2, Event.isSendmsg, ih]
    · simp [h1, ih]

/-- C4: for every watcher list and every key, `kvdb_monitor_notify` calls
`sendmsg` with the change-notification frame exactly once for each registered
watcher whose pattern matches the key under `fnmatch` (in list order) and not
at all for the other watchers; and a run of `kvdb_client` whose `kvdb_set` or
`kvdb_delete` succeeds makes exactly these writes, whatever the value is
(so also when it equals the stored one). -/
theorem C4_fanout {σ : Type} (cfg : Config) (B : Backend σ) (env : ServerEnv σ)
    (server : kvdb_server σ) (fd : Nat) (sock : Sock) :
    (∀ key value val_len,
      (kvdb_monitor_notify env server key value val_len).2.filter Event.isSendmsg =
        (server.head.filter (fun m => decide (env.fnmatch m.key (cstr key) = 0))).map
          (fun m => Event.sendmsg m.fd (notify_frame key value val_len))) ∧
    (∀ k kl v vl,
      Event.kvdb_set k kl v vl false ∈ (kvdb_client cfg B env server fd sock).trace →
      0 ≤ (B.kvdb_set server.kvdb k kl v vl false).1 →
      (kvdb_client cfg B env server fd sock).trace.filter Event.isSendmsg =
        (server.head.filter (fun m => decide (env.fnmatch m.key (cstr k) = 0))).map
          (fun m => Event.sendmsg m.fd (notify_frame k (some v) vl))) ∧
    (∀ k kl,
      Event.kvdb_delete k kl ∈ (kvdb_client cfg B env server fd sock).trace →
      0 ≤ (B.kvdb_delete server.kvdb k kl).1 →
      (kvdb_client cfg B env server fd sock).trace.filter Event.isSendmsg =
        (server.head.filter (fun m => decide (env.fnmatch m.key (cstr k) = 0))).map
          (fun m => Event.sendmsg m.fd (notify_frame k none 0))) := by
  refine ⟨?_, ?_, ?_⟩
  · intro key value val_len
    exact walk_sendmsg env key _ server.head
  · intro k kl v vl hmem hok
    rw [kvdb_client_set_shape cfg B env server fd sock k kl v vl hmem hok]
    simp only [List.filter_append, kvdb_monitor_notify]
    rw [walk_sendmsg]
    simp [Event.isSendmsg]
  · intro k kl hmem hok
    rw [kvdb_client_delete_shape cfg B env server fd sock k kl hmem hok]
    simp only [List.filter_append, kvdb_monitor_notify]
    rw [walk_sendmsg]
    simp [Event.isSendmsg]

/-- Witness for C4: an S request that sets key `a` to the value it already
has, with a matching watcher (socket 9) and a watcher of another key
(socket 8). -/
theorem C4_fanout_witness :
    (kvdb_client ⟨true, true, true⟩ (unqliteBackend ⟨true, true, true⟩ (fun _ => 0)) (env_ok kvdb)
        ⟨⟨[], [([97, 0], [118, 0])]⟩, [⟨8, [98]⟩, ⟨9, [97]⟩]⟩ 5
        [RecvResult.data [83, 2, 2, 97, 0, 118, 0]]).trace.filter Event.isSendmsg =
      ((kvdb_server.mk (kvdb.mk [] [([97, 0], [118, 0])])
          [⟨8, [98]⟩, ⟨9, [97]⟩]).head.filter
        (fun m => decide ((env_ok kvdb).fnmatch m.key
          (cstr ([97, 0, 118, 0] ++ List.replicate 378 170)) = 0))).map
        (fun m => Event.sendmsg m.fd
          (notify_frame ([97, 0, 118, 0] ++ List.replicate 378 170)
            (some ([118, 0] ++ List.replicate 378 170)) 2)) :=
  (C4_fanout ⟨true, true, true⟩ (unqliteBackend ⟨true, true, true⟩ (fun _ => 0))
    (env_ok kvdb) ⟨⟨[], [([97, 0], [118, 0])]⟩, [⟨8, [98]⟩, ⟨9, [97]⟩]⟩ 5
    [RecvResult.data [83, 2, 2, 97, 0, 118, 0]]).2.1
    ([97, 0, 118, 0] ++ List.replicate 378 170) 2 ([118, 0] ++ List.replicate 378 170) 2
    (by decide) (by decide)

/-! ## The notification frame of a set of a zero-length value -/

/-- C5 (the code at the failing input): the server accepts the S request
`S klen=2 vlen=0 key=a` with either backend, reports a change, and writes to
the watcher on socket 9 the frame `02 00 61 00`; this is byte for byte the
frame it writes for the D request on the key `a`.  A frame with `vlen == 0`
and no value region therefore also reports an update. -/
theorem C5_zero_length_update_frame :
    (kvdb_client ⟨true, true, true⟩ (unqliteBackend ⟨true, true, true⟩ (fun _ => 0)) (env_ok kvdb)
        ⟨⟨[], []⟩, [⟨9, [97]⟩]⟩ 5 [RecvResult.data [83, 2, 0, 97, 0]]).trace.drop 1 =
      [Event.sendmsg 9 [2, 0, 97, 0], Event.send 5 [0, 0, 0, 0], Event.close 5] ∧
    (kvdb_client ⟨true, true, true⟩ (unqliteBackend ⟨true, true, true⟩ (fun _ => 0)) (env_ok kvdb)
        ⟨⟨[], []⟩, [⟨9, [97]⟩]⟩ 5 [RecvResult.data [83, 2, 0, 97, 0]]).server.kvdb =
      ⟨[], [([97, 0], [])]⟩ ∧
    (kvdb_client ⟨true, true, true⟩ (fileBackend ⟨true, true, true⟩) (env_ok fs)
        ⟨⟨[], []⟩, [⟨9, [97]⟩]⟩ 5 [RecvResult.data [83, 2, 0, 97, 0]]).trace.drop 1 =
      [Event.sendmsg 9 [2, 0, 97, 0], Event.send 5 [0, 0, 0, 0], Event.close 5] ∧
    (kvdb_client ⟨true, true, true⟩ (unqliteBackend ⟨true, true, true⟩ (fun _ => 0)) (env_ok kvdb)
        ⟨⟨[], [([97, 0], [118, 0])]⟩, [⟨9, [97]⟩]⟩ 5
        [RecvResult.data [68, 2, 97, 0]]).trace.drop 1 =
      [Event.sendmsg 9 [2, 0, 97, 0], Event.send 5 [0, 0, 0, 0], Event.close 5] := by
  decide

/-! ## A request frame that arrives in pieces -/

/-- C6 (the code at the failing input): the frame `S klen=2 vlen=2 key=a
value=v` is decoded differently depending on the first `recv`.  When it
arrives whole, `kvdb_set` is called with `key_len = 2` and `val_len = 2`.
When the first `recv` returns only the opcode, `kvdb_set` is called with
`key_len = 0` and `val_len = 0` and the reply is `-E2BIG`.  When the first
`recv` returns two bytes, `kvdb_set` is called with `val_len = 0`, and an
empty value is stored. -/
theorem C6_short_first_recv :
    (kvdb_client ⟨true, true, true⟩ (unqliteBackend ⟨true, true, true⟩ (fun _ => 0)) (env_ok kvdb)
        ⟨⟨[], []⟩, []⟩ 5 [RecvResult.data [83, 2, 2, 97, 0, 118, 0]]).trace =
      [Event.kvdb_set ([97, 0, 118, 0] ++ List.replicate 378 170) 2
          ([118, 0] ++ List.replicate 378 170) 2 false,
        Event.send 5 (int32_bytes 0), Event.close 5] ∧
    (kvdb_client ⟨true, true, true⟩ (unqliteBackend ⟨true, true, true⟩ (fun _ => 0)) (env_ok kvdb)
        ⟨⟨[], []⟩, []⟩ 5
        [RecvResult.data [83], RecvResult.data [2, 2, 97, 0, 118, 0]]).trace =
      [Event.kvdb_set (List.replicate 382 170) 0 (List.replicate 382 170) 0 false,
        Event.send 5 (int32_bytes (-E2BIG)), Event.close 5] ∧
    (kvdb_client ⟨true, true, true⟩ (unqliteBackend ⟨true, true, true⟩ (fun _ => 0)) (env_ok kvdb)
        ⟨⟨[], []⟩, []⟩ 5
        [RecvResult.data [83, 2], RecvResult.data [2, 97, 0, 118, 0]]).trace =
      [Event.kvdb_set ([97, 0] ++ List.replicate 380 170) 2 (List.replicate 380 170) 0 false,
        Event.send 5 (int32_bytes 0), Event.close 5] ∧
    (kvdb_client ⟨true, true, true⟩ (unqliteBackend ⟨true, true, true⟩ (fun _ => 0)) (env_ok kvdb)
        ⟨⟨[], []⟩, []⟩ 5
        [RecvResult.data [83, 2], RecvResult.data [2, 97, 0, 118, 0]]).server.kvdb =
      ⟨[], [([97, 0], [])]⟩ := by
  decide

/-! ## Malformed frames -/

/-- C7 (the code at the failing input): with the file-per-key backend the S
request `S klen=2 vlen=2` whose key bytes are `ab` (no NUL) and whose value is
`c` NUL is not dropped: the file `abc` is created with the value, a change is
reported and the watcher of `abc` is notified; the unqlite backend rejects the
same frame and keeps its store.  With the unqlite backend, the frame
`S klen=2 vlen=2 key=a` cut off before its value and delivered as two bytes,
then three, stores an empty value under `a` and reports a change. -/
theorem C7_malformed_frame_mutates :
    (kvdb_client ⟨true, true, true⟩ (fileBackend ⟨true, true, true⟩) (env_ok fs)
        ⟨⟨[], []⟩, [⟨9, [97, 98, 99]⟩]⟩ 5 [RecvResult.data [83, 2, 2, 97, 98, 99, 0]]).dirty
      = true ∧
    (kvdb_client ⟨true, true, true⟩ (fileBackend ⟨true, true, true⟩) (env_ok fs)
        ⟨⟨[], []⟩, [⟨9, [97, 98, 99]⟩]⟩ 5 [RecvResult.data [83, 2, 2, 97, 98, 99, 0]]).server.kvdb
      = ⟨[], [([97, 98, 99], [99, 0])]⟩ ∧
    (kvdb_client ⟨true, true, true⟩ (fileBackend ⟨true, true, true⟩) (env_ok fs)
        ⟨⟨[], []⟩, [⟨9, [97, 98, 99]⟩]⟩ 5
        [RecvResult.data [83, 2, 2, 97, 98, 99, 0]]).trace.drop 1
      = [Event.sendmsg 9 [4, 2, 97, 98, 99, 0, 99, 0], Event.send 5 [0, 0, 0, 0],
          Event.close 5] ∧
    (kvdb_client ⟨true, true, true⟩ (unqliteBackend ⟨true, true, true⟩ (fun _ => 0)) (env_ok kvdb)
        ⟨⟨[], []⟩, [⟨9, [97, 98, 99]⟩]⟩ 5
        [RecvResult.data [83, 2, 2, 97, 98, 99, 0]]).trace.drop 1
      = [Event.send 5 (int32_bytes (-EINVAL)), Event.close 5] ∧
    (kvdb_client ⟨true, true, true⟩ (unqliteBackend ⟨true, true, true⟩ (fun _ => 0)) (env_ok kvdb)
        ⟨⟨[], []⟩, [⟨9, [97, 98, 99]⟩]⟩ 5
        [RecvResult.data [83, 2, 2, 97, 98, 99, 0]]).server.kvdb = ⟨[], []⟩ ∧
    (kvdb_client ⟨true, true, true⟩ (unqliteBackend ⟨true, true, true⟩ (fun _ => 0)) (env_ok kvdb)
        ⟨⟨[], []⟩, []⟩ 5 [RecvResult.data [83, 2], RecvResult.data [2, 97, 0]]).dirty = true ∧
    (kvdb_client ⟨true, true, true⟩ (unqliteBackend ⟨true, true, true⟩ (fun _ => 0)) (env_ok kvdb)
        ⟨⟨[], []⟩, []⟩ 5 [RecvResult.data [83, 2], RecvResult.data [2, 97, 0]]).server.kvdb
      = ⟨[], [([97, 0], [])]⟩ := by
  decide

/-! ## The accepted socket after the handler -/

/-- C10 (the code at the failing input): for the M request `M klen=2 key=a`
on socket 5, when `kvdb_monitor_open` fails (because `epoll_ctl` fails, or
because `zalloc` fails), the handler writes the negative status and returns:
the trace has no `close` of socket 5 and the watcher list is unchanged, so the
socket is neither registered nor closed. -/
theorem C10_failed_monitor_open_leaves_socket_open :
    (kvdb_client ⟨true, true, true⟩ (unqliteBackend ⟨true, true, true⟩ (fun _ => 0))
        env_epoll_fails ⟨⟨[], []⟩, [⟨9, [98]⟩]⟩ 5 [RecvResult.data [77, 2, 97, 0]]).trace
      = [Event.send 5 (int32_bytes (-1))] ∧
    (kvdb_client ⟨true, true, true⟩ (unqliteBackend ⟨true, true, true⟩ (fun _ => 0))
        env_epoll_fails ⟨⟨[], []⟩, [⟨9, [98]⟩]⟩ 5 [RecvResult.data [77, 2, 97, 0]]).server.head
      = [⟨9, [98]⟩] ∧
    (kvdb_client ⟨true, true, true⟩ (unqliteBackend ⟨true, true, true⟩ (fun _ => 0))
        env_zalloc_fails ⟨⟨[], []⟩, [⟨9, [98]⟩]⟩ 5 [RecvResult.data [77, 2, 97, 0]]).trace
      = [Event.send 5 (int32_bytes (-ENOMEM))] ∧
    (kvdb_client ⟨true, true, true⟩ (unqliteBackend ⟨true, true, true⟩ (fun _ => 0))
        env_zalloc_fails ⟨⟨[], []⟩, [⟨9, [98]⟩]⟩ 5 [RecvResult.data [77, 2, 97, 0]]).server.head
      = [⟨9, [98]⟩] ∧
    (kvdb_client ⟨true, true, true⟩ (unqliteBackend ⟨true, true, true⟩ (fun _ => 0))
        (env_ok kvdb) ⟨⟨[], []⟩, [⟨9, [98]⟩]⟩ 5 [RecvResult.data [77, 2, 97, 0]]).server.head
      = [⟨5, [97]⟩, ⟨9, [98]⟩] := by
  decide

/-! ## The S request on the wire -/

theorem strlen_append_nul (name rest : Bytes) (h : ∀ c ∈ name, c ≠ 0) :
    strlen (name ++ 0 :: rest) = name.length := by
  induction name with
  | nil => simp [strlen]
  | cons c cs ih =>
    have hc : c ≠ 0 := h c (List.mem_cons_self c cs)
    have ih2 := ih (fun d hd => h d (List.mem_cons_of_mem c hd))
    simp only [strlen] at ih2 ⊢
    have hb : (c != 0) = true := by simpa using hc
    rw [List.cons_append, List.takeWhile_cons, hb]
    simp [ih2]

theorem take_key_with_nul (name rest : Bytes) :
    (name ++ 0 :: rest).take (name.length + 1) = name ++ [0] := by
  have : name ++ 0 :: rest = (name ++ [0]) ++ rest := by simp
  rw [this, List.take_append_of_le_length (by simp)]
  simp

theorem buf_write_zero (buf data : Bytes) :
    buf_write buf 0 data = data ++ buf.drop data.length := by
  simp [buf_write]

theorem recv_data_le (bs : Bytes) (rest : Sock) (n : Nat) (h : bs.length ≤ n) :
    recv (RecvResult.data bs :: rest) n = ((bs.length : Int), bs, rest) := by
  simp [recv, h]

/-- When `recv` returns fewer bytes than asked for, it has consumed a whole
result of the stream: this is the case in which the loops of `kvdb_recv` and
`recv_safe` go round again. -/
theorem recv_short_rest (ev : RecvResult) (rest : Sock) (n : Nat)
    (h : (recv (ev :: rest) n).1 < (n : Int)) : (recv (ev :: rest) n).2.2 = rest := by
  cases ev with
  | error => simp [recv]
  | data bs =>
    by_cases hle : bs.length ≤ n
    · simp [recv, hle]
    · simp [recv, hle] at h

theorem kvdb_recv_done (sock : Sock) (buf : Bytes) (offset len : Nat) (h : len ≤ offset) :
    kvdb_recv sock buf offset len = ((len : Int), buf, sock) := by
  cases sock with
  | nil => simp [kvdb_recv, Nat.not_lt.mpr h]
  | cons ev rest => simp [kvdb_recv, Nat.not_lt.mpr h]

theorem property_set_binary_send_head (env : ClientEnv) (fd : Nat) (frame : Bytes)
    (oneway : Bool) (l : List (Int × Int)) :
    (property_set_binary_send env fd frame oneway l).2.head? = some (Event.sendmsg fd frame) := by
  cases l with
  | nil => simp [property_set_binary_send]
  | cons r more =>
    obtain ⟨ret, e⟩ := r
    simp only [property_set_binary_send]
    split_ifs <;> simp

/-- The first event of `case 'S'` when the whole frame is already in the
buffer: the call of `kvdb_set` with the regions `msg + 3` and
`msg + 3 + key_len`. -/
theorem kvdb_client_S_whole {σ : Type} (B : Backend σ) (env : ServerEnv σ)
    (server : kvdb_server σ) (fd : Nat) (keyz val junk : Bytes) (sock : Sock)
    (hk : keyz.length ≤ PROP_NAME_MAX) (hv : val.length < PROP_VALUE_MAX) :
    (kvdb_client_S B env server fd (83 :: keyz.length :: val.length :: (keyz ++ val ++ junk))
        (3 + keyz.length + val.length) sock).trace.head? =
      some (Event.kvdb_set (keyz ++ val ++ junk) keyz.length (val ++ junk) val.length false) := by
  have hkm : keyz.length % 256 = keyz.length :=
    Nat.mod_eq_of_lt (by unfold PROP_NAME_MAX at hk; omega)
  have hvm : val.length % 256 = val.length :=
    Nat.mod_eq_of_lt (by unfold PROP_VALUE_MAX at hv; omega)
  have hend : ¬ (keyz.length + val.length + 3 ≥ PROP_MSG_MAX) := by
    unfold PROP_MSG_MAX; unfold PROP_NAME_MAX at *; unfold PROP_VALUE_MAX at *; omega
  have hrecv := kvdb_recv_done sock (83 :: keyz.length :: val.length :: (keyz ++ val ++ junk))
    (3 + keyz.length + val.length) (keyz.length + val.length + 3) (by omega)
  have hpos : ((keyz.length + val.length + 3 : Nat) : Int) > 0 := by omega
  have hd1 : List.drop 3 (83 :: keyz.length :: val.length :: (keyz ++ val ++ junk))
      = keyz ++ val ++ junk := rfl
  have hd2 : List.drop (3 + keyz.length) (83 :: keyz.length :: val.length :: (keyz ++ val ++ junk))
      = val ++ junk := by
    rw [show 3 + keyz.length = keyz.length + 3 by omega]
    simp [List.append_assoc]
  unfold kvdb_client_S
  simp only [List.getD_cons_zero, List.getD_cons_succ, hkm, hvm]
  rw [if_neg hend, hrecv]
  simp only [hd1, hd2]
  rw [if_pos hpos]
  split_ifs <;> simp [kvdb_client_out]

/-- C8: for every key whose length with the trailing NUL is at most 127 and
every value of 1 to 254 bytes, the first system call of `property_set_binary`
on the connected socket is the `sendmsg` of the frame `S`, klen, vlen, the key
with its NUL, the value bytes; and `kvdb_client`, receiving that frame in one
`recv`, calls `kvdb_set` with `key_len = klen`, `val_len = vlen`, a key region
that starts with the key and its NUL and a value region that starts with the
value bytes. -/
theorem C8_set_frame {σ : Type} (cfg : Config) (B : Backend σ) (senv : ServerEnv σ)
    (server : kvdb_server σ) (sfd : Nat) (cenv : ClientEnv) (name rest value : Bytes)
    (val_len : Nat) (oneway : Bool)
    (hname : ∀ c ∈ name, c ≠ 0) (hklen : name.length + 1 ≤ PROP_NAME_MAX)
    (hv1 : 1 ≤ val_len) (hv2 : val_len ≤ 254) (hval : val_len ≤ value.length)
    (hconn : 0 ≤ cenv.connect) (hmalloc : senv.malloc_ok = true) :
    (property_set_binary cenv (some (name ++ 0 :: rest)) value val_len oneway).2.head? =
      some (Event.sendmsg cenv.connect.toNat
        ([83, name.length + 1, val_len] ++ (name ++ [0]) ++ value.take val_len)) ∧
    ∃ key_region value_region,
      (kvdb_client cfg B senv server sfd
        [RecvResult.data ([83, name.length + 1, val_len] ++ (name ++ [0]) ++ value.take val_len)]
        ).trace.head? =
        some (Event.kvdb_set key_region (name.length + 1) value_region val_len false) ∧
      key_region.take (name.length + 1) = name ++ [0] ∧
      value_region.take val_len = value.take val_len := by
  have hvl : (value.take val_len).length = val_len := by simp [List.length_take, hval]
  have hkl : (name ++ [0]).length = name.length + 1 := by simp
  constructor
  · unfold property_set_binary
    simp only [strlen_append_nul name rest hname, take_key_with_nul]
    rw [if_neg (by omega), if_neg (by unfold PROP_VALUE_MAX; omega), if_neg (by omega),
      property_set_binary_send_head,
      Nat.mod_eq_of_lt (by unfold PROP_NAME_MAX at hklen; omega : name.length + 1 < 256),
      Nat.mod_eq_of_lt (by omega : val_len < 256)]
  · refine ⟨(name ++ [0]) ++ value.take val_len ++
        (buf_write senv.heap 0 [0, 0, 0]).drop (3 + (name.length + 1) + val_len),
      value.take val_len ++
        (buf_write senv.heap 0 [0, 0, 0]).drop (3 + (name.length + 1) + val_len), ?_, ?_, ?_⟩
    · have hlen : ([83, name.length + 1, val_len] ++ (name ++ [0]) ++ value.take val_len).length
          = 3 + (name.length + 1) + val_len := by
        simp [hvl]; omega
      have hrecv : recv [RecvResult.data
            ([83, name.length + 1, val_len] ++ (name ++ [0]) ++ value.take val_len)] PROP_MSG_MAX
          = (((3 + (name.length + 1) + val_len : Nat) : Int),
              [83, name.length + 1, val_len] ++ (name ++ [0]) ++ value.take val_len, []) := by
        rw [recv_data_le _ _ _
          (by rw [hlen]; unfold PROP_MSG_MAX PROP_VALUE_MAX PROP_NAME_MAX at *; omega), hlen]
      have hmsg : buf_write (buf_write senv.heap 0 [0, 0, 0]) 0
            ([83, name.length + 1, val_len] ++ (name ++ [0]) ++ value.take val_len)
          = 83 :: (name ++ [0]).length :: (value.take val_len).length ::
              ((name ++ [0]) ++ value.take val_len ++
                (buf_write senv.heap 0 [0, 0, 0]).drop (3 + (name.length + 1) + val_len)) := by
        rw [buf_write_zero, hlen, hkl, hvl]
        simp
      unfold kvdb_client
      rw [if_neg (by simp [hmalloc]), hrecv]
      rw [if_neg (by simp only; omega)]
      simp only [Int.toNat_ofNat, hmsg]
      unfold kvdb_client_switch
      rw [if_neg (by simp), if_neg (by simp), if_pos (by simp)]
      have := kvdb_client_S_whole B senv server sfd (name ++ [0]) (value.take val_len)
        ((buf_write senv.heap 0 [0, 0, 0]).drop (3 + (name.length + 1) + val_len)) []
        (by rw [hkl]; exact hklen) (by rw [hvl]; unfold PROP_VALUE_MAX; omega)
      rw [hkl, hvl] at this
      rw [hkl, hvl]
      exact this
    · rw [List.append_assoc, List.take_append_of_le_length (by simp)]
      simp
    · rw [List.take_append_of_le_length (by simp [hvl])]
      simp [List.take_take]

/-- Witness for C8: key `persist.foo`, value `hello` with its NUL (klen = 12,
vlen = 6). -/
theorem C8_set_frame_witness :
    (property_set_binary cenv_ok (some (name_persist_foo ++ 0 :: []))
        [104, 101, 108, 108, 111, 0] 6 false).2.head? =
      some (Event.sendmsg cenv_ok.connect.toNat
        ([83, name_persist_foo.length + 1, 6] ++ (name_persist_foo ++ [0]) ++
          [104, 101, 108, 108, 111, 0].take 6)) ∧
    ∃ key_region value_region,
      (kvdb_client ⟨true, true, true⟩ (unqliteBackend ⟨true, true, true⟩ (fun _ => 0))
        (env_ok kvdb) ⟨⟨[], []⟩, []⟩ 5
        [RecvResult.data ([83, name_persist_foo.length + 1, 6] ++ (name_persist_foo ++ [0]) ++
          [104, 101, 108, 108, 111, 0].take 6)]).trace.head? =
        some (Event.kvdb_set key_region (name_persist_foo.length + 1) value_region 6 false) ∧
      key_region.take (name_persist_foo.length + 1) = name_persist_foo ++ [0] ∧
      value_region.take 6 = [104, 101, 108, 108, 111, 0].take 6 :=
  C8_set_frame ⟨true, true, true⟩ (unqliteBackend ⟨true, true, true⟩ (fun _ => 0))
    (env_ok kvdb) ⟨⟨[], []⟩, []⟩ 5 cenv_ok name_persist_foo [] [104, 101, 108, 108, 111, 0] 6
    false (by decide) (by decide) (by decide) (by decide) (by decide) (by decide) rfl

/-! ## The list reply on the wire -/

theorem hasData_iff (r : RecvResult) :
    r.hasData = true ↔ ∃ bs, r = RecvResult.data bs ∧ bs ≠ [] := by
  cases r with
  | data bs => cases bs <;> simp [RecvResult.hasData]
  | error => simp [RecvResult.hasData]

theorem buf_write_nil (buf : Bytes) (off : Nat) : buf_write buf off [] = buf := by
  simp [buf_write]

theorem buf_write_length (buf data : Bytes) (off : Nat) (h : off ≤ buf.length) :
    off + data.length ≤ (buf_write buf off data).length := by
  simp [buf_write, List.length_append, List.length_take, Nat.min_eq_left h]

theorem buf_write_append (buf a b : Bytes) (off : Nat) (h : off ≤ buf.length) :
    buf_write (buf_write buf off a) (off + a.length) b = buf_write buf off (a ++ b) := by
  have hlen : (buf.take off ++ a).length = off + a.length := by
    simp [List.length_take, Nat.min_eq_left h]
  have h1 : (buf.take off ++ a ++ buf.drop (off + a.length)).take (off + a.length)
      = buf.take off ++ a := by
    rw [List.take_append_of_le_length (by omega), List.take_of_length_le (by omega)]
  have h2 : (buf.take off ++ a ++ buf.drop (off + a.length)).drop (off + a.length + b.length)
      = buf.drop (off + (a ++ b).length) := by
    rw [List.drop_append_eq_append_drop, hlen,
      List.drop_of_length_le (by omega : (buf.take off ++ a).length ≤ off + a.length + b.length),
      List.drop_drop, List.length_append]
    simp only [List.nil_append]
    congr 1
    omega
  unfold buf_write
  rw [h1, h2]
  simp [List.append_assoc]

theorem recv_safe_chunks (errno : Int) (sock : Sock) :
    ∀ (buf : Bytes) (off len : Nat), sock_ok sock → off ≤ len → off ≤ buf.length →
      len - off ≤ (sock_bytes sock).length →
      ∃ rest, recv_safe errno sock buf off len =
          ((len : Int), buf_write buf off ((sock_bytes sock).take (len - off)), rest) ∧
        sock_ok rest ∧ sock_bytes rest = (sock_bytes sock).drop (len - off) := by
  induction sock with
  | nil =>
    intro buf off len _ h1 _ h3
    have : len = off := by simp [sock_bytes] at h3; omega
    subst this
    refine ⟨[], ?_, ?_, ?_⟩
    · simp [recv_safe, sock_bytes, buf_write_nil]
    · intro r hr
      cases hr
    · simp [sock_bytes]
  | cons ev rest ih =>
    intro buf off len hok h1 h2 h3
    obtain ⟨bs, hev, hne⟩ := (hasData_iff ev).mp (hok ev (List.mem_cons_self _ _))
    subst hev
    have hokrest : sock_ok rest := fun r hr => hok r (List.mem_cons_of_mem _ hr)
    have hbs : 0 < bs.length := List.length_pos.mpr hne
    simp only [sock_bytes] at h3 ⊢
    by_cases hlt : off < len
    · by_cases hle : bs.length ≤ len - off
      · have hrecv := recv_data_le bs rest (len - off) hle
        have h3l : len - off ≤ bs.length + (sock_bytes rest).length := by
          simpa [List.length_append] using h3
        have htake : bs.take (len - off) = bs := List.take_of_length_le hle
        have hdrop : bs.drop (len - off) = [] := List.drop_of_length_le hle
        by_cases hmore : off + bs.length < len
        · obtain ⟨rest2, e1, e2, e3⟩ := ih (buf_write buf off bs) (off + bs.length) len hokrest
            (by omega) (buf_write_length buf bs off h2) (by omega)
          have hsub : len - (off + bs.length) = len - off - bs.length := by omega
          refine ⟨rest2, ?_, e2, ?_⟩
          · simp only [recv_safe, hrecv]
            rw [if_pos hlt, if_neg (by omega), if_neg (by omega)]
            simp only [Int.toNat_ofNat]
            rw [if_pos hmore, e1, buf_write_append buf bs _ off h2,
              List.take_append_eq_append_take, htake, hsub]
          · rw [e3, List.drop_append_eq_append_drop, hdrop, hsub]
            simp
        · have heq : len - off = bs.length := by omega
          refine ⟨rest, ?_, hokrest, ?_⟩
          · simp only [recv_safe, hrecv]
            rw [if_pos hlt, if_neg (by omega), if_neg (by omega)]
            simp only [Int.toNat_ofNat]
            rw [if_neg hmore, heq]
            simp
          · rw [heq]; simp
      · have hgt : len - off < bs.length := by omega
        have hrecv : recv (RecvResult.data bs :: rest) (len - off) =
            (((len - off : Nat) : Int), bs.take (len - off),
              RecvResult.data (bs.drop (len - off)) :: rest) := by
          simp [recv, hle]
        refine ⟨RecvResult.data (bs.drop (len - off)) :: rest, ?_, ?_, ?_⟩
        · simp only [recv_safe, hrecv]
          rw [if_pos hlt, if_neg (by omega), if_neg (by omega)]
          simp only [Int.toNat_ofNat]
          rw [if_neg (by omega), List.take_append_of_le_length (Nat.le_of_lt hgt)]
        · intro r hr
          rcases List.mem_cons.mp hr with h | h
          · rw [hasData_iff]
            refine ⟨_, h, ?_⟩
            intro hnil
            have := congrArg List.length hnil
            simp at this
            omega
          · exact hokrest r h
        · simp only [sock_bytes]
          rw [List.drop_append_of_le_length (Nat.le_of_lt hgt)]
    · have : len = off := by omega
      subst this
      refine ⟨RecvResult.data bs :: rest, ?_, hok, ?_⟩
      · simp [recv_safe, buf_write_nil]
      · simp [sock_bytes]

theorem valid_entry_name (r : Bytes × Bytes) (h : valid_entry r) :
    ∃ name, r.1 = name ++ [0] ∧ (∀ c ∈ name, c ≠ 0) ∧ name.length + 1 ≤ PROP_NAME_MAX ∧
      r.2.length < PROP_VALUE_MAX := by
  obtain ⟨h1, h2, h3, h4⟩ := h
  refine ⟨r.1.dropLast, h1, h2, ?_, h4⟩
  have := congrArg List.length h1
  simp only [List.length_append, List.length_singleton] at this
  omega

theorem cstr_append_nul (name rest : Bytes) (h : ∀ c ∈ name, c ≠ 0) :
    cstr (name ++ 0 :: rest) = name := by
  induction name with
  | nil => simp [cstr]
  | cons c cs ih =>
    have hc : c ≠ 0 := h c (List.mem_cons_self c cs)
    have ih2 := ih (fun d hd => h d (List.mem_cons_of_mem c hd))
    simp only [cstr] at ih2 ⊢
    have hb : (c != 0) = true := by simpa using hc
    rw [List.cons_append, List.takeWhile_cons, hb]
    simp [ih2]

theorem buf_write_two (a b : Nat) (t d : Bytes) :
    buf_write (a :: b :: t) 2 d = a :: b :: (d ++ t.drop d.length) := by
  unfold buf_write
  rw [show 2 + d.length = d.length + 2 by omega]
  simp

theorem getD_append_nul (name rest : Bytes) : (name ++ 0 :: rest).getD name.length 0 = 0 := by
  induction name with
  | nil => simp
  | cons c cs ih => simpa using ih

theorem list_stream_length (entries : List (Bytes × Bytes)) :
    entries.length < (list_stream entries).length := by
  induction entries with
  | nil => simp [list_stream]
  | cons r rs ih =>
    simp only [list_stream, list_record, List.length_append, List.length_cons]
    omega

theorem sock_size_bytes (sock : Sock) : (sock_bytes sock).length ≤ sock_size sock := by
  induction sock with
  | nil => simp [sock_bytes, sock_size]
  | cons ev rest ih =>
    cases ev with
    | data bs => simp only [sock_bytes, sock_size, List.length_append]; omega
    | error => simp only [sock_bytes, sock_size]; omega

theorem property_list_loop_stream (env : ClientEnv) :
    ∀ (entries : List (Bytes × Bytes)) (fuel : Nat) (sock : Sock) (msg : Bytes),
      (∀ r ∈ entries, valid_entry r) → entries.length < fuel → sock_ok sock →
      sock_bytes sock = list_stream entries →
      ∃ calls, property_list_loop env fuel sock msg = (0, calls) ∧
        calls.map (fun c => (cstr c.1, c.2.1.take c.2.2, c.2.2)) =
          entries.map (fun r => (cstr r.1, r.2, r.2.length)) := by
  intro entries
  induction entries with
  | nil =>
    intro fuel sock msg _ hfuel hok hbytes
    obtain ⟨f, rfl⟩ : ∃ f, fuel = f + 1 := ⟨fuel - 1, by simp at hfuel; omega⟩
    obtain ⟨rest, e1, _, _⟩ := recv_safe_chunks env.errno sock msg 0 2 hok (by omega) (by omega)
      (by rw [hbytes]; simp [list_stream])
    rw [hbytes] at e1
    refine ⟨[], ?_, rfl⟩
    simp only [property_list_loop, e1]
    simp [list_stream, buf_write_zero]
  | cons e es ih =>
    intro fuel sock msg hvalid hfuel hok hbytes
    obtain ⟨f, rfl⟩ : ∃ f, fuel = f + 1 := ⟨fuel - 1, by simp at hfuel; omega⟩
    obtain ⟨k, v⟩ := e
    obtain ⟨name, hk, hname, hklen, hvlen⟩ :=
      valid_entry_name (k, v) (hvalid (k, v) (List.mem_cons_self _ _))
    simp only at hk hvlen
    subst hk
    have hkl : (name ++ [0]).length = name.length + 1 := by simp
    have hstream : list_stream ((name ++ [0], v) :: es) =
        (name.length + 1) :: v.length :: ((name ++ [0]) ++ v ++ list_stream es) := by
      simp [list_stream, list_record]
    rw [hstream] at hbytes
    obtain ⟨rest1, e1, ok1, b1⟩ := recv_safe_chunks env.errno sock msg 0 2 hok (by omega)
      (by omega) (by rw [hbytes]; simp)
    rw [hbytes] at e1 b1
    have hmsg1 : buf_write msg 0
        (List.take (2 - 0) ((name.length + 1) :: v.length :: ((name ++ [0]) ++ v ++ list_stream es)))
        = (name.length + 1) :: v.length :: msg.drop 2 := by
      simp [buf_write_zero]
    rw [hmsg1] at e1
    have hb1 : sock_bytes rest1 = (name ++ [0]) ++ v ++ list_stream es := by
      rw [b1]; simp
    obtain ⟨rest2, e2, ok2, b2⟩ := recv_safe_chunks env.errno rest1
      ((name.length + 1) :: v.length :: msg.drop 2) 2 (name.length + 1 + v.length + 2) ok1
      (by omega) (by simp) (by rw [hb1]; simp; omega)
    have htk : List.take (name.length + 1 + v.length + 2 - 2) (sock_bytes rest1)
        = (name ++ [0]) ++ v := by
      rw [hb1, List.take_append_of_le_length (by simp; omega)]
      rw [List.take_of_length_le (by simp; omega)]
    have hdr : List.drop (name.length + 1 + v.length + 2 - 2) (sock_bytes rest1)
        = list_stream es := by
      rw [hb1, List.drop_append_of_le_length (by simp; omega)]
      rw [List.drop_of_length_le (by simp; omega)]
      simp
    rw [htk, buf_write_two] at e2
    rw [hdr] at b2
    obtain ⟨J, hJ⟩ : ∃ J, J = (msg.drop 2).drop ((name ++ [0]) ++ v).length := ⟨_, rfl⟩
    rw [← hJ] at e2
    obtain ⟨calls, c1, c2⟩ := ih f rest2
      ((name.length + 1) :: v.length :: ((name ++ [0]) ++ v ++ J))
      (fun r hr => hvalid r (List.mem_cons_of_mem _ hr))
      (by simp only [List.length_cons] at hfuel; omega) ok2 b2
    have hm1 : (name.length + 1) % 256 = name.length + 1 :=
      Nat.mod_eq_of_lt (by unfold PROP_NAME_MAX at hklen; omega)
    have hm2 : v.length % 256 = v.length :=
      Nat.mod_eq_of_lt (by unfold PROP_VALUE_MAX at hvlen; omega)
    have hnul : List.getD ((name.length + 1) :: v.length :: ((name ++ [0]) ++ v ++ J))
        (name.length + 1 + 1) 0 = 0 := by
      simp only [List.getD_cons_succ, List.append_assoc, List.singleton_append]
      exact getD_append_nul name _
    refine ⟨(List.drop 2 ((name.length + 1) :: v.length :: ((name ++ [0]) ++ v ++ J)),
      List.drop (2 + (name.length + 1))
        ((name.length + 1) :: v.length :: ((name ++ [0]) ++ v ++ J)), v.length) :: calls, ?_, ?_⟩
    · simp only [property_list_loop, e1, List.getD_cons_zero, List.getD_cons_succ, hm1, hm2, e2,
        hnul, c1]
      rw [if_neg (by omega), if_neg (by omega), if_neg (by omega), if_neg (by omega),
        if_neg (by omega), if_neg (by simp)]
    · simp only [List.map_cons, c2, List.drop_succ_cons, List.drop_zero]
      congr 1
      have hc1 : cstr (name ++ [0] ++ v ++ J) = name := by
        rw [List.append_assoc, List.append_assoc]
        exact cstr_append_nul name _ hname
      have hc2 : cstr (name ++ [0]) = name := cstr_append_nul name [] hname
      have hv : List.take v.length (List.drop (name.length + 1) (name ++ [0] ++ v ++ J)) = v := by
        rw [List.append_assoc, List.drop_append_of_le_length (by simp)]
        rw [List.drop_of_length_le (by simp)]
        simp
      rw [hc1, hc2]
      simp only [Prod.mk.injEq, true_and, and_true]
      have h2 : 2 + (name.length + 1) = (name.length + 1) + 2 := by omega
      rw [h2]
      simp

theorem kvdb_list_consume_valid (fd : Nat) (r : Bytes × Bytes) (h : valid_entry r) :
    kvdb_list_consume fd (r.1, r.2, r.2.length) = Event.sendmsg fd (list_record r) := by
  obtain ⟨name, hk, hname, hklen, hvlen⟩ := valid_entry_name r h
  obtain ⟨k, v⟩ := r
  simp only at hk hvlen
  subst hk
  have hs : strlen (name ++ [0]) = name.length := strlen_append_nul name [] hname
  have hm1 : (name.length + 1) % 256 = name.length + 1 :=
    Nat.mod_eq_of_lt (by unfold PROP_NAME_MAX at hklen; omega)
  have hm2 : v.length % 256 = v.length :=
    Nat.mod_eq_of_lt (by unfold PROP_VALUE_MAX at hvlen; omega)
  have ht : List.take (name.length + 1) (name ++ [0]) = name ++ [0] :=
    List.take_of_length_le (by simp)
  simp only [kvdb_list_consume, list_record, hs, hm1, hm2, ht, List.take_length,
    List.length_append, List.length_singleton]

theorem written_to_list (fd : Nat) (entries : List (Bytes × Bytes)) :
    written_to fd (entries.map (fun r => Event.sendmsg fd (list_record r)) ++
      [Event.send fd [0, 0], Event.close fd]) = list_stream entries := by
  induction entries with
  | nil => simp [written_to, list_stream]
  | cons r rs ih =>
    simp only [List.map_cons, List.cons_append, written_to, list_stream, if_true]
    exact congrArg (fun t => list_record r ++ t) ih

/-- The handler on the request `L`. -/
theorem kvdb_client_L {σ : Type} (cfg : Config) (B : Backend σ) (env : ServerEnv σ)
    (server : kvdb_server σ) (fd : Nat)
    (hdump : cfg.DUMPLIST = true) (hmalloc : env.malloc_ok = true) :
    (kvdb_client cfg B env server fd [RecvResult.data [76]]).trace =
      (B.kvdb_list server.kvdb).map (kvdb_list_consume fd) ++
        [Event.send fd [0, 0], Event.close fd] := by
  have hrecv : recv [RecvResult.data [76]] PROP_MSG_MAX = (((1 : Nat) : Int), [76], []) :=
    recv_data_le [76] [] PROP_MSG_MAX (by decide)
  unfold kvdb_client
  rw [if_neg (by simp [hmalloc]), hrecv, if_neg (by decide)]
  unfold kvdb_client_switch
  simp only [buf_write_zero, List.singleton_append, List.getD_cons_zero]
  rw [if_neg (by decide), if_neg (by decide), if_neg (by decide), if_pos ⟨trivial, hdump⟩]
  simp [kvdb_client_out]

/-- C9: for every store content whose keys and values have valid lengths, the
handler of `kvdb_client` for an L request writes to the socket one record
`klen, vlen, key, value` for each entry of the persistent namespace and then
of the volatile one (when it exists), each entry once, followed by the bytes
`00 00`, and closes the socket; and `property_list_binary`, reading these
bytes in whatever pieces `recv` delivers them, calls the callback once per
record, in stream order, with the same key, value and value length, and
returns 0. -/
theorem C9_list_reply (cfg : Config) (commit : Nat → Int) (senv : ServerEnv kvdb)
    (server : kvdb_server kvdb) (fd : Nat) (cenv : ClientEnv)
    (hdump : cfg.DUMPLIST = true) (hmalloc : senv.malloc_ok = true)
    (hvalid : ∀ r ∈ server.kvdb.persist ++ (if cfg.TEMPORARY_STORAGE then server.kvdb.mem else []),
      valid_entry r)
    (hconn : 0 ≤ cenv.connect) (hsend : 0 ≤ cenv.send) (hcm : cenv.malloc_ok = true)
    (hok : sock_ok cenv.reply)
    (hbytes : sock_bytes cenv.reply =
      written_to fd (kvdb_client cfg (unqliteBackend cfg commit) senv server fd
        [RecvResult.data [76]]).trace) :
    (kvdb_client cfg (unqliteBackend cfg commit) senv server fd [RecvResult.data [76]]).trace =
      (server.kvdb.persist ++ (if cfg.TEMPORARY_STORAGE then server.kvdb.mem else [])).map
        (fun r => Event.sendmsg fd ([r.1.length, r.2.length] ++ r.1 ++ r.2)) ++
        [Event.send fd [0, 0], Event.close fd] ∧
    ∃ calls, property_list_binary cenv = (0, calls) ∧
      calls.map (fun c => (cstr c.1, c.2.1.take c.2.2, c.2.2)) =
        (server.kvdb.persist ++ (if cfg.TEMPORARY_STORAGE then server.kvdb.mem else [])).map
          (fun r => (cstr r.1, r.2, r.2.length)) := by
  have htrace : (kvdb_client cfg (unqliteBackend cfg commit) senv server fd
        [RecvResult.data [76]]).trace =
      (server.kvdb.persist ++ (if cfg.TEMPORARY_STORAGE then server.kvdb.mem else [])).map
        (fun r => Event.sendmsg fd (list_record r)) ++
        [Event.send fd [0, 0], Event.close fd] := by
    rw [kvdb_client_L cfg _ senv server fd hdump hmalloc]
    congr 1
    have hl : (unqliteBackend cfg commit).kvdb_list server.kvdb =
        (server.kvdb.persist ++ (if cfg.TEMPORARY_STORAGE then server.kvdb.mem else [])).map
          (fun r => (r.1, r.2, r.2.length)) := by
      simp only [unqliteBackend, UnqliteBackend.kvdb_list]
      split_ifs <;> simp
    rw [hl, List.map_map]
    apply List.map_congr_left
    intro r hr
    exact kvdb_list_consume_valid fd r (hvalid r hr)
  refine ⟨htrace, ?_⟩
  rw [htrace, written_to_list] at hbytes
  have hfuel : (server.kvdb.persist ++
      (if cfg.TEMPORARY_STORAGE then server.kvdb.mem else [])).length < sock_size cenv.reply + 1 := by
    have h1 := list_stream_length
      (server.kvdb.persist ++ (if cfg.TEMPORARY_STORAGE then server.kvdb.mem else []))
    have h2 := sock_size_bytes cenv.reply
    rw [hbytes] at h2
    omega
  unfold property_list_binary
  rw [if_neg (by omega), if_neg (by omega), if_neg (by simp [hcm])]
  exact property_list_loop_stream cenv _ _ cenv.reply cenv.heap hvalid hfuel hok hbytes

/-- Witness for C9: the list reply for `server_two`, read in three pieces. -/
theorem C9_list_reply_witness :
    (kvdb_client ⟨true, true, true⟩ (unqliteBackend ⟨true, true, true⟩ (fun _ => 0)) (env_ok kvdb)
        server_two 5 [RecvResult.data [76]]).trace =
      (server_two.kvdb.persist ++
          (if (Config.mk true true true).TEMPORARY_STORAGE then server_two.kvdb.mem else [])).map
        (fun r => Event.sendmsg 5 ([r.1.length, r.2.length] ++ r.1 ++ r.2)) ++
        [Event.send 5 [0, 0], Event.close 5] ∧
    ∃ calls, property_list_binary cenv_list = (0, calls) ∧
      calls.map (fun c => (cstr c.1, c.2.1.take c.2.2, c.2.2)) =
        (server_two.kvdb.persist ++
          (if (Config.mk true true true).TEMPORARY_STORAGE then server_two.kvdb.mem else [])).map
          (fun r => (cstr r.1, r.2, r.2.length)) :=
  C9_list_reply ⟨true, true, true⟩ (fun _ => 0) (env_ok kvdb) server_two 5 cenv_list rfl rfl
    (by decide) (by decide) (by decide) rfl (by decide) (by decide)

/-! ## The deferred commit of `kvdb_loop` -/

theorem int_cast_of_range (x : Int) (h1 : -2147483648 ≤ x) (h2 : x ≤ 2147483647) :
    int_cast x = x := by
  unfold int_cast
  omega

theorem kvdb_loop_timer_unarmed (st : LoopState) (now : Int) (h : st.next = 0) :
    kvdb_loop_timer st now = (st, -1) := by
  simp [kvdb_loop_timer, h]

theorem kvdb_loop_timer_expired (st : LoopState) (now : Int) (h : st.next ≠ 0)
    (h1 : -2147483648 ≤ st.next - now) (h2 : st.next - now ≤ 2147483647) (h3 : st.next ≤ now) :
    (kvdb_loop_timer st now).1 = ⟨0, st.commits + 1⟩ := by
  unfold kvdb_loop_timer
  rw [if_pos h, int_cast_of_range _ h1 h2, if_pos (by omega)]

theorem kvdb_loop_timer_pending (st : LoopState) (now : Int) (h : st.next ≠ 0)
    (h1 : -2147483648 ≤ st.next - now) (h2 : st.next - now ≤ 2147483647) (h3 : now < st.next) :
    (kvdb_loop_timer st now).1 = st := by
  unfold kvdb_loop_timer
  rw [if_pos h, int_cast_of_range _ h1 h2, if_neg (by omega)]

theorem kvdb_loop_conn_armed (interval : Int) (st : LoopState) (dirty : Bool) (now : Int)
    (h : st.next ≠ 0) : kvdb_loop_conn interval st dirty now = st := by
  unfold kvdb_loop_conn
  rw [if_neg (fun hc => h hc.2)]

theorem kvdb_loop_conns_armed (interval : Int) (conns : List (Bool × Int)) :
    ∀ st : LoopState, st.next ≠ 0 →
      conns.foldl (fun s c => kvdb_loop_conn interval s c.1 c.2) st = st := by
  induction conns with
  | nil => intro st _; rfl
  | cons c cs ih =>
    intro st h
    simp only [List.foldl_cons]
    rw [kvdb_loop_conn_armed interval st c.1 c.2 h]
    exact ih st h

/-- Rounds whose head comes before the deadline leave an armed state as it
is, whatever connections they handle. -/
theorem kvdb_loop_before_deadline (interval : Int) (rounds : List Round) :
    ∀ st : LoopState, st.next ≠ 0 →
      (∀ r ∈ rounds, -2147483648 ≤ st.next - r.now ∧ st.next - r.now ≤ 2147483647 ∧
        r.now < st.next) →
      kvdb_loop interval st rounds = st := by
  induction rounds with
  | nil => intro st _ _; rfl
  | cons r rs ih =>
    intro st h hr
    obtain ⟨h1, h2, h3⟩ := hr r (List.mem_cons_self _ _)
    have hround : kvdb_loop_round interval st r = st := by
      unfold kvdb_loop_round
      rw [kvdb_loop_timer_pending st r.now h h1 h2 h3]
      exact kvdb_loop_conns_armed interval r.conns st h
    simp only [kvdb_loop, List.foldl_cons, hround]
    exact ih st h (fun r2 hr2 => hr r2 (List.mem_cons_of_mem _ hr2))

theorem kvdb_loop_idle_unarmed (interval : Int) (idle : List Int) :
    ∀ st : LoopState, st.next = 0 → kvdb_loop interval st (idle.map idle_round) = st := by
  induction idle with
  | nil => intro st _; rfl
  | cons t ts ih =>
    intro st h
    have hround : kvdb_loop_round interval st (idle_round t) = st := by
      simp [kvdb_loop_round, idle_round, kvdb_loop_timer_unarmed st t h]
    simp only [kvdb_loop, List.map_cons, List.foldl_cons, hround]
    exact ih st h

/-- Idle rounds from an armed state: the first round whose head has reached
the deadline calls `kvdb_commit` and disarms, and nothing happens after it. -/
theorem kvdb_loop_idle_armed (interval : Int) (idle : List Int) :
    ∀ st : LoopState, st.next ≠ 0 →
      (∀ t ∈ idle, -2147483648 ≤ st.next - t ∧ st.next - t ≤ 2147483647) →
      (∃ t ∈ idle, st.next ≤ t) →
      kvdb_loop interval st (idle.map idle_round) = ⟨0, st.commits + 1⟩ := by
  induction idle with
  | nil =>
    intro st _ _ hex
    obtain ⟨t, ht, _⟩ := hex
    cases ht
  | cons t ts ih =>
    intro st h hr hex
    obtain ⟨h1, h2⟩ := hr t (List.mem_cons_self _ _)
    by_cases hd : st.next ≤ t
    · have hround : kvdb_loop_round interval st (idle_round t) = ⟨0, st.commits + 1⟩ := by
        simp [kvdb_loop_round, idle_round, kvdb_loop_timer_expired st t h h1 h2 hd]
      simp only [kvdb_loop, List.map_cons, List.foldl_cons, hround]
      exact kvdb_loop_idle_unarmed interval ts ⟨0, st.commits + 1⟩ rfl
    · have hround : kvdb_loop_round interval st (idle_round t) = st := by
        simp [kvdb_loop_round, idle_round, kvdb_loop_timer_pending st t h h1 h2 (by omega)]
      simp only [kvdb_loop, List.map_cons, List.foldl_cons, hround]
      refine ih st h (fun t2 ht2 => hr t2 (List.mem_cons_of_mem _ ht2)) ?_
      obtain ⟨t2, ht2, hle⟩ := hex
      rcases List.mem_cons.mp ht2 with heq | hmem
      · subst heq; exact absurd hle hd
      · exact ⟨t2, hmem, hle⟩

/-- C11 (as amended): with `kvdb_loop` as a step function over the deadline
`next`, the clock and the result of each handled connection.  A connection
that reports a change while the deadline is not armed arms it to
`now + interval`, or to 1 when that sum is 0; a connection handled while the
deadline is armed does not move it.  At the head of a round, with the clock
within the range of `int` of the deadline: when the clock has reached an armed
deadline `kvdb_commit` is called once and `next` becomes 0; before the
deadline, or when the deadline is not armed, nothing is done.  Hence a first
reported change (with `now + interval` not 0), any further activity handled in
rounds that start before the deadline, and then rounds without activity one of
which starts at or after the deadline, cause exactly one call of
`kvdb_commit` and leave the deadline cleared. -/
theorem C11_deferred_commit (interval : Int) :
    (∀ (st : LoopState) (now : Int), st.next = 0 →
      kvdb_loop_conn interval st true now =
        ⟨if now + interval = 0 then 1 else now + interval, st.commits⟩) ∧
    (∀ (st : LoopState) (dirty : Bool) (now : Int), st.next ≠ 0 →
      kvdb_loop_conn interval st dirty now = st) ∧
    (∀ (st : LoopState) (now : Int), st.next ≠ 0 →
      -2147483648 ≤ st.next - now → st.next - now ≤ 2147483647 → st.next ≤ now →
      (kvdb_loop_timer st now).1 = ⟨0, st.commits + 1⟩) ∧
    (∀ (st : LoopState) (now : Int), st.next ≠ 0 →
      -2147483648 ≤ st.next - now → st.next - now ≤ 2147483647 → now < st.next →
      (kvdb_loop_timer st now).1 = st) ∧
    (∀ (st : LoopState) (now : Int), st.next = 0 → (kvdb_loop_timer st now).1 = st) ∧
    (∀ (c : Nat) (n1 t1 : Int) (more : List (Bool × Int)) (busy : List Round) (idle : List Int),
      t1 + interval ≠ 0 →
      (∀ r ∈ busy, -2147483648 ≤ t1 + interval - r.now ∧ t1 + interval - r.now ≤ 2147483647 ∧
        r.now < t1 + interval) →
      (∀ t ∈ idle, -2147483648 ≤ t1 + interval - t ∧ t1 + interval - t ≤ 2147483647) →
      (∃ t ∈ idle, t1 + interval ≤ t) →
      kvdb_loop interval ⟨0, c⟩ ((⟨n1, (true, t1) :: more⟩ :: busy) ++ idle.map idle_round)
        = ⟨0, c + 1⟩) := by
  refine ⟨?_, ?_, ?_, ?_, ?_, ?_⟩
  · intro st now h
    unfold kvdb_loop_conn
    rw [if_pos ⟨rfl, h⟩]
    by_cases hz : now + interval = 0
    · rw [if_pos hz, if_pos hz, hz]; rfl
    · rw [if_neg hz, if_neg hz]
  · intro st dirty now h
    exact kvdb_loop_conn_armed interval st dirty now h
  · intro st now h h1 h2 h3
    exact kvdb_loop_timer_expired st now h h1 h2 h3
  · intro st now h h1 h2 h3
    exact kvdb_loop_timer_pending st now h h1 h2 h3
  · intro st now h
    rw [kvdb_loop_timer_unarmed st now h]
  · intro c n1 t1 more busy idle hd hbusy hidle hex
    have hfirst : kvdb_loop_round interval ⟨0, c⟩ ⟨n1, (true, t1) :: more⟩
        = ⟨t1 + interval, c⟩ := by
      unfold kvdb_loop_round
      rw [kvdb_loop_timer_unarmed ⟨0, c⟩ n1 rfl]
      simp only [List.foldl_cons]
      have harm : kvdb_loop_conn interval ⟨0, c⟩ true t1 = ⟨t1 + interval, c⟩ := by
        unfold kvdb_loop_conn
        rw [if_pos ⟨rfl, rfl⟩, if_neg hd]
      rw [harm]
      exact kvdb_loop_conns_armed interval more ⟨t1 + interval, c⟩ hd
    have hsplit : kvdb_loop interval ⟨0, c⟩
          ((⟨n1, (true, t1) :: more⟩ :: busy) ++ idle.map idle_round)
        = kvdb_loop interval (kvdb_loop interval ⟨t1 + interval, c⟩ busy)
            (idle.map idle_round) := by
      simp only [kvdb_loop, List.cons_append, List.foldl_cons, List.foldl_append, hfirst]
    rw [hsplit, kvdb_loop_before_deadline interval busy ⟨t1 + interval, c⟩ hd hbusy]
    exact kvdb_loop_idle_armed interval idle ⟨t1 + interval, c⟩ hd hidle hex

/-- Witness for C11: three changes reported at clock 100 and 101 with an
interval of 5 seconds, then rounds without activity at clocks 103, 105
and 110. -/
theorem C11_deferred_commit_witness :
    kvdb_loop 5 ⟨0, 0⟩
        ((⟨100, (true, 100) :: [(true, 100)]⟩ :: [⟨101, [(true, 101)]⟩]) ++
          [103, 105, 110].map idle_round)
      = ⟨0, 0 + 1⟩ :=
  (C11_deferred_commit 5).2.2.2.2.2 0 100 100 [(true, 100)] [⟨101, [(true, 101)]⟩]
    [103, 105, 110] (by decide) (by decide) (by decide) (by decide)

/-- C11 (counterexample to the claim as stated): with an interval of 0, a
change reported while the clock reads 0 arms the deadline to 1, not to
`now + interval`, which is 0. -/
theorem C11_counterexample :
    (kvdb_loop_conn 0 ⟨0, 0⟩ true 0).next = 1 ∧ (kvdb_loop_conn 0 ⟨0, 0⟩ true 0).next ≠ 0 + 0 := by
  decide

/-! ## The namespace of a key -/

/-- Against a string `b` without NUL among its first `n` bytes, `strncmp`
returns 0 exactly when the first `n` bytes are equal. -/
theorem strncmp_zero_iff (n : Nat) :
    ∀ (a b : Bytes), n ≤ b.length → (∀ c ∈ b.take n, c ≠ 0) →
      (strncmp a b n = 0 ↔ a.take n = b.take n) := by
  induction n with
  | zero => intro a b _ _; simp [strncmp]
  | succ n ih =>
    intro a b hlen hnz
    cases b with
    | nil => simp at hlen
    | cons cb bt =>
      have hcb : cb ≠ 0 := hnz cb (by simp)
      have hbt : ∀ c ∈ bt.take n, c ≠ 0 := fun c hc => hnz c (by simp [hc])
      have hlen2 : n ≤ bt.length := by simpa using hlen
      cases a with
      | nil =>
        simp only [strncmp, List.headD_nil, List.headD_cons, List.take_nil]
        rw [if_pos (fun h => hcb h.symm)]
        simp
        omega
      | cons ca at2 =>
        simp only [strncmp, List.headD_cons, List.tail_cons, List.take_succ_cons]
        by_cases heq : ca = cb
        · subst heq
          rw [if_neg (by simp), if_neg hcb]
          simp [ih at2 bt hlen2 hbt]
        · rw [if_pos heq]
          simp [heq]
          omega

/-- C12: `kvdb_get_index` returns KVDB_PERSIST exactly when the first 8 bytes
of the key are `persist.`; for every other key it returns KVDB_MEM when
CONFIG_KVDB_TEMPORARY_STORAGE is set and a negative error when it is not; and
the result depends on the key and on that switch only. -/
theorem C12_kvdb_get_index (cfg : Config) (key : Bytes) :
    (kvdb_get_index cfg key = KVDB_PERSIST ↔ key.take 8 = PERSIST_LABEL) ∧
    (key.take 8 ≠ PERSIST_LABEL → cfg.TEMPORARY_STORAGE = true →
      kvdb_get_index cfg key = KVDB_MEM) ∧
    (key.take 8 ≠ PERSIST_LABEL → cfg.TEMPORARY_STORAGE = false →
      kvdb_get_index cfg key = -EINVAL ∧ kvdb_get_index cfg key < 0) ∧
    (∀ cfg2 : Config, cfg2.TEMPORARY_STORAGE = cfg.TEMPORARY_STORAGE →
      kvdb_get_index cfg2 key = kvdb_get_index cfg key) := by
  have hiff : strncmp key PERSIST_LABEL PERSIST_LABEL_LEN = 0 ↔ key.take 8 = PERSIST_LABEL :=
    strncmp_zero_iff 8 key PERSIST_LABEL (by decide) (by decide)
  refine ⟨?_, ?_, ?_, ?_⟩
  · unfold kvdb_get_index
    by_cases h : strncmp key PERSIST_LABEL PERSIST_LABEL_LEN = 0
    · rw [if_pos h]
      exact ⟨fun _ => hiff.mp h, fun _ => rfl⟩
    · rw [if_neg h]
      constructor
      · intro hc
        exfalso
        by_cases ht : cfg.TEMPORARY_STORAGE = true
        · rw [if_pos ht] at hc; exact absurd hc (by decide)
        · rw [if_neg ht] at hc; exact absurd hc (by decide)
      · intro hc
        exact absurd (hiff.mpr hc) h
  · intro hne ht
    unfold kvdb_get_index
    rw [if_neg (fun h => hne (hiff.mp h)), if_pos ht]
  · intro hne ht
    unfold kvdb_get_index
    rw [if_neg (fun h => hne (hiff.mp h)), if_neg (by simp [ht])]
    exact ⟨rfl, by decide⟩
  · intro cfg2 h2
    unfold kvdb_get_index
    rw [h2]

/-- Witness for C12: the key `ro.x` is not in the persistent namespace. -/
theorem C12_kvdb_get_index_witness :
    kvdb_get_index ⟨true, true, true⟩ [114, 111, 46, 120, 0] = KVDB_MEM :=
  (C12_kvdb_get_index ⟨true, true, true⟩ [114, 111, 46, 120, 0]).2.1 (by decide) rfl

/-! ## The size limit of a key in the client -/

/-- A key of 127 bytes `a`, which needs 128 bytes with its NUL. -/
theorem key_128_strlen : strlen (List.replicate 127 97 ++ [0]) + 1 = 128 := by
  decide

/-- C13 (the code at the failing input): for a key that needs 128 bytes with
its NUL, `property_get_binary` of `client.c` returns `-EINVAL` (which is not
`-E2BIG`) before anything is sent, while `property_set_binary`,
`property_delete` and `property_monitor_open` return `-E2BIG`; for a key that
needs 127 bytes all four send their request. -/
theorem C13_oversize_key_get_returns_einval :
    property_get_binary cenv_ok (some (List.replicate 127 97 ++ [0])) true 16
      = (-EINVAL, [], []) ∧
    -EINVAL ≠ -E2BIG ∧
    property_set_binary cenv_ok (some (List.replicate 127 97 ++ [0])) [118, 0] 2 false
      = (-E2BIG, []) ∧
    property_delete cenv_ok (fun _ => false) 0 (some (List.replicate 127 97 ++ [0]))
      = (-E2BIG, []) ∧
    property_monitor_open cenv_ok (some (List.replicate 127 97 ++ [0])) = (-E2BIG, []) ∧
    (property_get_binary cenv_ok (some (List.replicate 126 97 ++ [0])) true 16).2.2.head?
      = some (Event.sendmsg 3 ([71, 127, 16] ++ List.replicate 126 97 ++ [0])) ∧
    (property_set_binary cenv_ok (some (List.replicate 126 97 ++ [0])) [118, 0] 2 false).2.head?
      = some (Event.sendmsg 3 ([83, 127, 2] ++ List.replicate 126 97 ++ [0] ++ [118, 0])) ∧
    (property_delete cenv_ok (fun _ => false) 0 (some (List.replicate 126 97 ++ [0]))).2.head?
      = some (Event.sendmsg 3 ([68, 127] ++ List.replicate 126 97 ++ [0])) ∧
    (property_monitor_open cenv_ok (some (List.replicate 126 97 ++ [0]))).2.head?
      = some (Event.sendmsg 3 ([77, 127] ++ List.replicate 126 97 ++ [0])) := by
  decide

/-! ## A request frame that arrives whole -/

/-- The handler on a frame of at most PROP_MSG_MAX bytes delivered by the
first `recv`: the switch runs on the frame followed by what the buffer held. -/
theorem kvdb_client_whole {σ : Type} (cfg : Config) (B : Backend σ) (env : ServerEnv σ)
    (server : kvdb_server σ) (fd : Nat) (frame : Bytes)
    (hm : env.malloc_ok = true) (h0 : 0 < frame.length) (hlen : frame.length ≤ PROP_MSG_MAX) :
    kvdb_client cfg B env server fd [RecvResult.data frame] =
      kvdb_client_switch cfg B env server fd (frame ++ frame_junk env frame.length)
        frame.length [] := by
  unfold kvdb_client
  rw [if_neg (by simp [hm]), recv_data_le frame [] PROP_MSG_MAX hlen]
  rw [if_neg (by simp only; omega)]
  simp only [Int.toNat_ofNat, buf_write_zero, frame_junk]

theorem kvdb_client_S_frame {σ : Type} (cfg : Config) (B : Backend σ) (env : ServerEnv σ)
    (server : kvdb_server σ) (fd : Nat) (keyz val : Bytes)
    (hm : env.malloc_ok = true) (hk : keyz.length < 256) (hv : val.length < 256)
    (hend : keyz.length + val.length + 3 < PROP_MSG_MAX) :
    kvdb_client cfg B env server fd
        [RecvResult.data ([83, keyz.length, val.length] ++ keyz ++ val)] =
      kvdb_client_S_call B env server fd
        (keyz ++ val ++ frame_junk env (3 + keyz.length + val.length)) keyz.length
        (val ++ frame_junk env (3 + keyz.length + val.length)) val.length := by
  have hlen : ([83, keyz.length, val.length] ++ keyz ++ val).length
      = 3 + keyz.length + val.length := by
    simp; omega
  rw [kvdb_client_whole cfg B env server fd _ hm (by rw [hlen]; omega) (by rw [hlen]; omega),
    hlen]
  obtain ⟨junk, hj⟩ : ∃ j, j = frame_junk env (3 + keyz.length + val.length) := ⟨_, rfl⟩
  rw [← hj]
  have hmsg : [83, keyz.length, val.length] ++ keyz ++ val ++ junk
      = 83 :: keyz.length :: val.length :: (keyz ++ val ++ junk) := by simp
  rw [hmsg]
  unfold kvdb_client_switch
  rw [if_neg (by simp), if_neg (by simp), if_pos (by simp)]
  have hrecv := kvdb_recv_done [] (83 :: keyz.length :: val.length :: (keyz ++ val ++ junk))
    (3 + keyz.length + val.length) (keyz.length + val.length + 3) (by omega)
  have hpos : ((keyz.length + val.length + 3 : Nat) : Int) > 0 := by omega
  have hd1 : List.drop 3 (83 :: keyz.length :: val.length :: (keyz ++ val ++ junk))
      = keyz ++ val ++ junk := rfl
  have hd2 : List.drop (3 + keyz.length) (83 :: keyz.length :: val.length :: (keyz ++ val ++ junk))
      = val ++ junk := by
    rw [show 3 + keyz.length = keyz.length + 3 by omega]
    simp [List.append_assoc]
  unfold kvdb_client_S kvdb_client_S_call
  simp only [List.getD_cons_zero, List.getD_cons_succ, Nat.mod_eq_of_lt hk, Nat.mod_eq_of_lt hv]
  rw [if_neg (by omega), hrecv]
  simp only [hd1, hd2]
  rw [if_pos hpos]

theorem kvdb_client_D_frame {σ : Type} (cfg : Config) (B : Backend σ) (env : ServerEnv σ)
    (server : kvdb_server σ) (fd : Nat) (keyz : Bytes)
    (hm : env.malloc_ok = true) (hk : keyz.length < 256) :
    kvdb_client cfg B env server fd [RecvResult.data ([68, keyz.length] ++ keyz)] =
      kvdb_client_D_call B env server fd (keyz ++ frame_junk env (2 + keyz.length))
        keyz.length := by
  have hlen : ([68, keyz.length] ++ keyz).length = 2 + keyz.length := by
    simp; omega
  rw [kvdb_client_whole cfg B env server fd _ hm (by rw [hlen]; omega)
    (by rw [hlen]; unfold PROP_MSG_MAX PROP_NAME_MAX PROP_VALUE_MAX; omega), hlen]
  obtain ⟨junk, hj⟩ : ∃ j, j = frame_junk env (2 + keyz.length) := ⟨_, rfl⟩
  rw [← hj]
  have hmsg : [68, keyz.length] ++ keyz ++ junk = 68 :: keyz.length :: (keyz ++ junk) := by simp
  rw [hmsg]
  unfold kvdb_client_switch
  rw [if_pos (by simp)]
  have hrecv := kvdb_recv_done [] (68 :: keyz.length :: (keyz ++ junk))
    (2 + keyz.length) (keyz.length + 2) (by omega)
  have hpos : ((keyz.length + 2 : Nat) : Int) > 0 := by omega
  have hd1 : List.drop 2 (68 :: keyz.length :: (keyz ++ junk)) = keyz ++ junk := rfl
  unfold kvdb_client_D kvdb_client_D_call
  simp only [List.getD_cons_zero, List.getD_cons_succ, Nat.mod_eq_of_lt hk]
  rw [if_neg (by unfold PROP_MSG_MAX PROP_NAME_MAX PROP_VALUE_MAX; omega), hrecv]
  simp only [hd1]
  rw [if_pos hpos]

/-! ## The size limit of a value in the server -/

theorem kvdb_get_index_cases (cfg : Config) (key : Bytes) :
    kvdb_get_index cfg key = KVDB_PERSIST ∨ kvdb_get_index cfg key = KVDB_MEM ∨
      kvdb_get_index cfg key = -EINVAL := by
  unfold kvdb_get_index
  split_ifs <;> simp

/-- The status of `kvdb_set` for a NUL-terminated key of valid length and a
value of valid length is 0, `-EPERM` or `-EINVAL` (no namespace). -/
theorem kvdb_set_status_valid (cfg : Config) (kv : kvdb) (key value : Bytes)
    (key_len val_len : Nat) (force : Bool) (hk1 : 1 ≤ key_len) (hk2 : key_len ≤ PROP_NAME_MAX)
    (hnul : key.getD (key_len - 1) 0 = 0) (hv : val_len < PROP_VALUE_MAX) :
    (UnqliteBackend.kvdb_set cfg kv (some key) key_len value val_len force).1 = 0 ∨
    (UnqliteBackend.kvdb_set cfg kv (some key) key_len value val_len force).1 = -EPERM ∨
    (UnqliteBackend.kvdb_set cfg kv (some key) key_len value val_len force).1 = -EINVAL := by
  by_cases hi : 0 ≤ kvdb_get_index cfg key
  · rw [kvdb_set_valid cfg kv key value key_len val_len force hk1 hk2 hnul hv hi]
    split_ifs <;> simp
  · have hidx : kvdb_get_index cfg key = -EINVAL := by
      rcases kvdb_get_index_cases cfg key with h | h | h
      · rw [h] at hi; exact absurd (by decide) hi
      · rw [h] at hi; exact absurd (by decide) hi
      · exact h
    have hd : size_dec key_len = key_len - 1 := size_dec_of_pos key_len hk1
    simp only [UnqliteBackend.kvdb_set, hd]
    rw [if_neg (by omega), if_neg (not_not.mpr hnul), if_neg (by omega), if_pos (by omega)]
    exact Or.inr (Or.inr hidx)

/-- The status of `kvdb_set` for a NUL-terminated key of valid length and a
value of PROP_VALUE_MAX bytes or more. -/
theorem kvdb_set_value_2big (cfg : Config) (kv : kvdb) (key value : Bytes)
    (key_len val_len : Nat) (force : Bool) (hk1 : 1 ≤ key_len) (hk2 : key_len ≤ PROP_NAME_MAX)
    (hnul : key.getD (key_len - 1) 0 = 0) (hv : PROP_VALUE_MAX ≤ val_len) :
    UnqliteBackend.kvdb_set cfg kv (some key) key_len value val_len force = (-E2BIG, kv) := by
  have hd : size_dec key_len = key_len - 1 := size_dec_of_pos key_len hk1
  simp only [UnqliteBackend.kvdb_set, hd]
  rw [if_neg (by omega), if_neg (not_not.mpr hnul), if_pos (by omega)]

theorem getD_append_left (a b : Bytes) (i : Nat) (h : i < a.length) :
    (a ++ b).getD i 0 = a.getD i 0 := by
  simp [List.getD_eq_getElem?_getD, List.getElem?_append_left h]

/-- The handler on an S frame whose declared length reaches PROP_MSG_MAX. -/
theorem kvdb_client_S_too_long {σ : Type} (cfg : Config) (B : Backend σ) (env : ServerEnv σ)
    (server : kvdb_server σ) (fd : Nat) (keyz val : Bytes)
    (hm : env.malloc_ok = true) (hk : keyz.length = 127) (hv : val.length = 255) :
    kvdb_client cfg B env server fd
        [RecvResult.data ([83, keyz.length, val.length] ++ keyz ++ val)] =
      kvdb_client_out false server [] fd := by
  have hlen : ([83, keyz.length, val.length] ++ keyz ++ val).length = 385 := by
    simp; omega
  rw [kvdb_client_whole cfg B env server fd _ hm (by rw [hlen]; omega)
    (by rw [hlen]; decide), hlen]
  obtain ⟨junk, hj⟩ : ∃ j, j = frame_junk env 385 := ⟨_, rfl⟩
  rw [← hj]
  have hmsg : [83, keyz.length, val.length] ++ keyz ++ val ++ junk
      = 83 :: keyz.length :: val.length :: (keyz ++ val ++ junk) := by simp
  rw [hmsg]
  unfold kvdb_client_switch
  rw [if_neg (by simp), if_neg (by simp), if_pos (by simp)]
  unfold kvdb_client_S
  simp only [List.getD_cons_zero, List.getD_cons_succ, hk, hv]
  rw [if_pos (by decide)]

/-- C14 (as amended): for every S request that arrives whole, with a
NUL-terminated key (unqlite backend).  With klen from 1 to 126 and a declared
vlen of 255 the handler calls `kvdb_set`, stores nothing, reports no change
and replies with the i32 status `-E2BIG`.  With klen from 1 to 127 and vlen
from 1 to 254 the handler replies with a status that is 0, `-EPERM` or
`-EINVAL`, never `-E2BIG`.  With klen 127 and vlen 255 the declared frame is
PROP_MSG_MAX bytes long: the handler closes the socket without calling
`kvdb_set` and without a reply, and stores nothing. -/
theorem C14_value_size (cfg : Config) (commit : Nat → Int) (env : ServerEnv kvdb)
    (server : kvdb_server kvdb) (fd : Nat) (key val : Bytes)
    (hm : env.malloc_ok = true) (hk1 : 1 ≤ key.length)
    (hnul : key.getD (key.length - 1) 0 = 0) :
    (key.length ≤ 126 → val.length = 255 →
      (kvdb_client cfg (unqliteBackend cfg commit) env server fd
          [RecvResult.data ([83, key.length, val.length] ++ key ++ val)]).trace.drop 1 =
        [Event.send fd (int32_bytes (-E2BIG)), Event.close fd] ∧
      (kvdb_client cfg (unqliteBackend cfg commit) env server fd
          [RecvResult.data ([83, key.length, val.length] ++ key ++ val)]).dirty = false ∧
      (kvdb_client cfg (unqliteBackend cfg commit) env server fd
          [RecvResult.data ([83, key.length, val.length] ++ key ++ val)]).server.kvdb
        = server.kvdb) ∧
    (key.length ≤ 127 → 1 ≤ val.length → val.length ≤ 254 →
      ∃ status, (status = 0 ∨ status = -EPERM ∨ status = -EINVAL) ∧ status ≠ -E2BIG ∧
        Event.send fd (int32_bytes status) ∈
          (kvdb_client cfg (unqliteBackend cfg commit) env server fd
            [RecvResult.data ([83, key.length, val.length] ++ key ++ val)]).trace) ∧
    (key.length = 127 → val.length = 255 →
      (kvdb_client cfg (unqliteBackend cfg commit) env server fd
          [RecvResult.data ([83, key.length, val.length] ++ key ++ val)]).trace
        = [Event.close fd] ∧
      (kvdb_client cfg (unqliteBackend cfg commit) env server fd
          [RecvResult.data ([83, key.length, val.length] ++ key ++ val)]).dirty = false ∧
      (kvdb_client cfg (unqliteBackend cfg commit) env server fd
          [RecvResult.data ([83, key.length, val.length] ++ key ++ val)]).server.kvdb
        = server.kvdb) := by
  have hreg : ∀ junk : Bytes, (key ++ val ++ junk).getD (key.length - 1) 0 = 0 := by
    intro junk
    rw [List.append_assoc, getD_append_left key _ _ (by omega)]
    exact hnul
  refine ⟨?_, ?_, ?_⟩
  · intro hk2 hv
    rw [kvdb_client_S_frame cfg _ env server fd key val hm (by omega) (by omega)
      (by unfold PROP_MSG_MAX PROP_NAME_MAX PROP_VALUE_MAX; omega)]
    have hset := kvdb_set_value_2big cfg server.kvdb
      (key ++ val ++ frame_junk env (3 + key.length + val.length))
      (val ++ frame_junk env (3 + key.length + val.length)) key.length val.length false hk1
      (by unfold PROP_NAME_MAX; omega) (hreg _) (by unfold PROP_VALUE_MAX; omega)
    unfold kvdb_client_S_call
    simp only [unqliteBackend, hset]
    rw [if_neg (by decide)]
    simp [kvdb_client_out]
  · intro hk2 hv1 hv2
    rw [kvdb_client_S_frame cfg _ env server fd key val hm (by omega) (by omega)
      (by unfold PROP_MSG_MAX PROP_NAME_MAX PROP_VALUE_MAX; omega)]
    have hst := kvdb_set_status_valid cfg server.kvdb
      (key ++ val ++ frame_junk env (3 + key.length + val.length))
      (val ++ frame_junk env (3 + key.length + val.length)) key.length val.length false hk1
      (by unfold PROP_NAME_MAX; omega) (hreg _) (by unfold PROP_VALUE_MAX; omega)
    refine ⟨(UnqliteBackend.kvdb_set cfg server.kvdb
      (some (key ++ val ++ frame_junk env (3 + key.length + val.length))) key.length
      (val ++ frame_junk env (3 + key.length + val.length)) val.length false).1, hst, ?_, ?_⟩
    · rcases hst with h | h | h <;> rw [h] <;> decide
    · unfold kvdb_client_S_call
      simp only [unqliteBackend]
      split_ifs <;> simp [kvdb_client_out]
  · intro hk2 hv
    rw [kvdb_client_S_too_long cfg _ env server fd key val hm hk2 hv]
    simp [kvdb_client_out]

/-- Witness for C14: the key `a` with its NUL and a value of 254 bytes. -/
theorem C14_value_size_witness :
    ∃ status, (status = 0 ∨ status = -EPERM ∨ status = -EINVAL) ∧ status ≠ -E2BIG ∧
      Event.send 5 (int32_bytes status) ∈
        (kvdb_client ⟨true, true, true⟩ (unqliteBackend ⟨true, true, true⟩ (fun _ => 0))
          (env_ok kvdb) ⟨⟨[], []⟩, []⟩ 5
          [RecvResult.data ([83, [97, 0].length, (List.replicate 254 118).length] ++ [97, 0] ++
            List.replicate 254 118)]).trace :=
  (C14_value_size ⟨true, true, true⟩ (fun _ => 0) (env_ok kvdb) ⟨⟨[], []⟩, []⟩ 5 [97, 0]
    (List.replicate 254 118) rfl (by decide) (by decide)).2.1 (by decide) (by decide) (by decide)

/-- C14 (counterexample to the claim as stated): the S request with a
NUL-terminated key of klen 127 and a declared vlen of 255 gets no reply: the
handler only closes the socket. -/
theorem C14_counterexample :
    (kvdb_client ⟨true, true, true⟩ (unqliteBackend ⟨true, true, true⟩ (fun _ => 0))
        (env_ok kvdb) ⟨⟨[], []⟩, []⟩ 5
        [RecvResult.data ([83, 127, 255] ++ key_127 ++ List.replicate 255 118)]).trace
      = [Event.close 5] := by
  decide

/-! ## The read-only rule and the file-per-key backend -/

theorem kvdb_monitor_notify_kvdb {σ : Type} (env : ServerEnv σ) (server : kvdb_server σ)
    (key : Bytes) (value : Option Bytes) (val_len : Nat) :
    (kvdb_monitor_notify env server key value val_len).1.kvdb = server.kvdb := rfl

theorem kvdb_client_G_frame {σ : Type} (cfg : Config) (B : Backend σ) (env : ServerEnv σ)
    (server : kvdb_server σ) (fd : Nat) (keyz : Bytes) (vl : Nat)
    (hm : env.malloc_ok = true) (hk : keyz.length < 256) (hv : vl < 256) :
    kvdb_client cfg B env server fd [RecvResult.data ([71, keyz.length, vl] ++ keyz)] =
      kvdb_client_G_call B server fd (keyz ++ frame_junk env (3 + keyz.length))
        keyz.length vl := by
  have hlen : ([71, keyz.length, vl] ++ keyz).length = 3 + keyz.length := by
    simp; omega
  rw [kvdb_client_whole cfg B env server fd _ hm (by rw [hlen]; omega)
    (by rw [hlen]; unfold PROP_MSG_MAX PROP_NAME_MAX PROP_VALUE_MAX; omega), hlen]
  obtain ⟨junk, hj⟩ : ∃ j, j = frame_junk env (3 + keyz.length) := ⟨_, rfl⟩
  rw [← hj]
  have hmsg : [71, keyz.length, vl] ++ keyz ++ junk = 71 :: keyz.length :: vl :: (keyz ++ junk) := by
    simp
  rw [hmsg]
  unfold kvdb_client_switch
  rw [if_neg (by simp), if_pos (by simp)]
  have hrecv := kvdb_recv_done [] (71 :: keyz.length :: vl :: (keyz ++ junk))
    (3 + keyz.length) (keyz.length + 3) (by omega)
  have hpos : ((keyz.length + 3 : Nat) : Int) > 0 := by omega
  have hd1 : List.drop 3 (71 :: keyz.length :: vl :: (keyz ++ junk)) = keyz ++ junk := rfl
  unfold kvdb_client_G kvdb_client_G_call
  simp only [List.getD_cons_zero, List.getD_cons_succ, Nat.mod_eq_of_lt hk, Nat.mod_eq_of_lt hv]
  rw [if_neg (by unfold PROP_MSG_MAX PROP_NAME_MAX PROP_VALUE_MAX; omega), hrecv]
  simp only [hd1]
  rw [if_pos hpos]

theorem kvdb_file_set_ok (errno : Int) (d : Dir) (key value : Bytes) (vl : Nat)
    (hv : vl < PROP_VALUE_MAX) :
    kvdb_file_set 0 errno [] d key value vl =
      (0, (cstr key, value.take vl) :: d.filter (fun f => f.1 != cstr key)) := by
  unfold kvdb_file_set
  rw [if_neg (by omega), if_neg (by simp)]
  by_cases h0 : 0 < vl
  · simp [kvdb_file_set_loop, h0]
  · have : vl = 0 := by omega
    subst this
    simp [kvdb_file_set_loop]

theorem kvdb_file_set_open_fails (e errno : Int) (writes : List Int) (d : Dir)
    (key value : Bytes) (vl : Nat) (hv : vl < PROP_VALUE_MAX) (he : e ≠ 0) :
    kvdb_file_set e errno writes d key value vl = (-e, d) := by
  unfold kvdb_file_set
  rw [if_neg (by omega), if_pos he]

theorem kvdb_file_get_head (d : Dir) (name content key : Bytes) (n : Nat)
    (h : cstr key = name) :
    kvdb_file_get ((name, content) :: d) key n =
      (((content.take n).length : Int), content.take n) := by
  unfold kvdb_file_get
  simp [List.find?, h]

/-- With the file backend, when the file of the key can be opened and no
`write` is short, a set of a key that has a namespace and a value below
PROP_VALUE_MAX succeeds whatever the key and `force`, and a get of the same
name reads the value back. -/
theorem file_set_then_get (fenv : FileEnv) (cfg : Config) (st : fs) (key key' value : Bytes)
    (kl kl' vl n : Nat) (force : Bool)
    (hi : 0 ≤ kvdb_get_index cfg key) (hi' : kvdb_get_index cfg key' = kvdb_get_index cfg key)
    (hc : cstr key' = cstr key) (hv : vl < PROP_VALUE_MAX)
    (hopen : fenv.open_errno (cfg.TEMPORARY_PATH && kvdb_get_index cfg key == KVDB_MEM)
      (cstr key) = 0)
    (hw : fenv.writes = []) :
    (FileBackend.kvdb_set fenv cfg st (some key) kl (some value) vl force).1 = 0 ∧
    FileBackend.kvdb_get cfg
        (FileBackend.kvdb_set fenv cfg st (some key) kl (some value) vl force).2
        (some key') kl' true n
      = ((((value.take vl).take n).length : Int), (value.take vl).take n) := by
  unfold FileBackend.kvdb_set FileBackend.kvdb_get
  simp only [hi', hw]
  rw [if_neg (not_lt.mpr hi), if_neg (not_lt.mpr hi)]
  by_cases hb : (cfg.TEMPORARY_PATH && kvdb_get_index cfg key == KVDB_MEM) = true
  · rw [hb] at hopen
    rw [if_pos hb, if_pos hb, hopen, kvdb_file_set_ok _ _ key value vl hv]
    exact ⟨rfl, kvdb_file_get_head _ _ _ _ _ hc⟩
  · have hb2 : (cfg.TEMPORARY_PATH && kvdb_get_index cfg key == KVDB_MEM) = false := by
      simpa using hb
    rw [hb2] at hopen
    rw [if_neg hb, if_neg hb, hopen, kvdb_file_set_ok _ _ key value vl hv]
    exact ⟨rfl, kvdb_file_get_head _ _ _ _ _ hc⟩

/-- With the file backend, when the file of the key cannot be opened, a set of a
key that has a namespace and a value below PROP_VALUE_MAX returns the negated
`errno` of `open` and changes nothing. -/
theorem file_set_open_fails (fenv : FileEnv) (cfg : Config) (st : fs) (key value : Bytes)
    (kl vl : Nat) (force : Bool) (e : Int)
    (hi : 0 ≤ kvdb_get_index cfg key) (hv : vl < PROP_VALUE_MAX)
    (hopen : fenv.open_errno (cfg.TEMPORARY_PATH && kvdb_get_index cfg key == KVDB_MEM)
      (cstr key) = e)
    (he : e ≠ 0) :
    FileBackend.kvdb_set fenv cfg st (some key) kl (some value) vl force = (-e, st) := by
  unfold FileBackend.kvdb_set
  simp only
  rw [if_neg (not_lt.mpr hi)]
  by_cases hb : (cfg.TEMPORARY_PATH && kvdb_get_index cfg key == KVDB_MEM) = true
  · rw [hb] at hopen
    rw [if_pos hb, hopen, kvdb_file_set_open_fails e _ _ _ key value vl hv he]
  · have hb2 : (cfg.TEMPORARY_PATH && kvdb_get_index cfg key == KVDB_MEM) = false := by
      simpa using hb
    rw [hb2] at hopen
    rw [if_neg hb, hopen, kvdb_file_set_open_fails e _ _ _ key value vl hv he]

theorem ro_key_region (cfg : Config) (hts : cfg.TEMPORARY_STORAGE = true) (rest junk : Bytes)
    (hrest : ∀ c ∈ rest, c ≠ 0) :
    kvdb_get_index cfg (RO_LABEL ++ rest ++ [0] ++ junk) = KVDB_MEM ∧
    cstr (RO_LABEL ++ rest ++ [0] ++ junk) = RO_LABEL ++ rest := by
  constructor
  · rw [List.append_assoc, List.append_assoc]
    exact kvdb_get_index_ro cfg hts _
  · have h := cstr_append_nul (RO_LABEL ++ rest) junk (by
      intro c hc
      rcases List.mem_append.mp hc with h | h
      · simp [RO_LABEL] at h
        rcases h with h | h | h <;> omega
      · exact hrest c h)
    rw [show RO_LABEL ++ rest ++ [0] ++ junk = (RO_LABEL ++ rest) ++ 0 :: junk by simp]
    exact h

/-- C15 (as amended): the read-only rule depends on the backend chosen.  With
the file-per-key backend and a volatile namespace, whatever the store holds
(so also when the key already holds v1), an S request for a key beginning with
`ro.` with a value v2 of 1 to 254 bytes (`kvdb_set` with force = false) is
served as follows.  When the file of the key can be opened and no `write` is
short, the request reports a change and is answered with the i32 status 0,
the last write before the close, and a following G request for the key is
answered with v2.  When the file cannot be opened, the request is answered
with the negated `errno` of `open`, reports no change and leaves the store
as it is. -/
theorem C15_file_backend_ignores_readonly (fenv : FileEnv) (cfg : Config) (env : ServerEnv fs)
    (server : kvdb_server fs) (fd fd2 : Nat) (rest v2 : Bytes)
    (hts : cfg.TEMPORARY_STORAGE = true) (hm : env.malloc_ok = true)
    (hrest : ∀ c ∈ rest, c ≠ 0) (hrl : rest.length ≤ 123)
    (hv1 : 1 ≤ v2.length) (hv2 : v2.length ≤ 254) :
    (fenv.open_errno cfg.TEMPORARY_PATH (RO_LABEL ++ rest) = 0 → fenv.writes = [] →
      (kvdb_client cfg (fileBackendEnv fenv cfg) env server fd
        [RecvResult.data ([83, (RO_LABEL ++ rest ++ [0]).length, v2.length] ++
          (RO_LABEL ++ rest ++ [0]) ++ v2)]).dirty = true ∧
      (kvdb_client cfg (fileBackendEnv fenv cfg) env server fd
        [RecvResult.data ([83, (RO_LABEL ++ rest ++ [0]).length, v2.length] ++
          (RO_LABEL ++ rest ++ [0]) ++ v2)]).trace.reverse.take 2
        = [Event.close fd, Event.send fd (int32_bytes 0)] ∧
      (kvdb_client cfg (fileBackendEnv fenv cfg) env
        (kvdb_client cfg (fileBackendEnv fenv cfg) env server fd
          [RecvResult.data ([83, (RO_LABEL ++ rest ++ [0]).length, v2.length] ++
            (RO_LABEL ++ rest ++ [0]) ++ v2)]).server fd2
        [RecvResult.data ([71, (RO_LABEL ++ rest ++ [0]).length, 255] ++
          (RO_LABEL ++ rest ++ [0]))]).trace.drop 1
        = [Event.send fd2 v2, Event.close fd2]) ∧
    (0 < fenv.open_errno cfg.TEMPORARY_PATH (RO_LABEL ++ rest) →
      (kvdb_client cfg (fileBackendEnv fenv cfg) env server fd
        [RecvResult.data ([83, (RO_LABEL ++ rest ++ [0]).length, v2.length] ++
          (RO_LABEL ++ rest ++ [0]) ++ v2)]).trace.drop 1
        = [Event.send fd (int32_bytes (-fenv.open_errno cfg.TEMPORARY_PATH (RO_LABEL ++ rest))),
            Event.close fd] ∧
      (kvdb_client cfg (fileBackendEnv fenv cfg) env server fd
        [RecvResult.data ([83, (RO_LABEL ++ rest ++ [0]).length, v2.length] ++
          (RO_LABEL ++ rest ++ [0]) ++ v2)]).dirty = false ∧
      (kvdb_client cfg (fileBackendEnv fenv cfg) env server fd
        [RecvResult.data ([83, (RO_LABEL ++ rest ++ [0]).length, v2.length] ++
          (RO_LABEL ++ rest ++ [0]) ++ v2)]).server.kvdb = server.kvdb) := by
  have hkl : (RO_LABEL ++ rest ++ [0]).length = rest.length + 4 := by simp [RO_LABEL]
  have hreg := fun junk => ro_key_region cfg hts rest junk hrest
  obtain ⟨keyz, hkz⟩ : ∃ k, k = RO_LABEL ++ rest ++ [0] := ⟨_, rfl⟩
  rw [← hkz] at hkl hreg ⊢
  rw [kvdb_client_S_frame cfg _ env server fd keyz v2 hm (by omega) (by omega)
    (by unfold PROP_MSG_MAX PROP_NAME_MAX PROP_VALUE_MAX; omega)]
  obtain ⟨junk1, hj1⟩ : ∃ j, j = frame_junk env (3 + keyz.length + v2.length) := ⟨_, rfl⟩
  rw [← hj1]
  have hidx1 : kvdb_get_index cfg (keyz ++ v2 ++ junk1) = KVDB_MEM := by
    rw [List.append_assoc]; exact (hreg _).1
  have hc1 : cstr (keyz ++ v2 ++ junk1) = RO_LABEL ++ rest := by
    rw [List.append_assoc]; exact (hreg _).2
  have hflag : (cfg.TEMPORARY_PATH && kvdb_get_index cfg (keyz ++ v2 ++ junk1) == KVDB_MEM)
      = cfg.TEMPORARY_PATH := by
    rw [hidx1]; simp
  refine ⟨?_, ?_⟩
  · intro hopen hw
    have hset := fun (key' : Bytes) (h1 : kvdb_get_index cfg key' = KVDB_MEM)
        (h2 : cstr key' = RO_LABEL ++ rest) =>
      file_set_then_get fenv cfg server.kvdb (keyz ++ v2 ++ junk1) key' (v2 ++ junk1)
        keyz.length keyz.length v2.length 255 false (by rw [hidx1]; decide) (by rw [hidx1, h1])
        (by rw [hc1, h2]) (by unfold PROP_VALUE_MAX; omega) (by rw [hflag, hc1]; exact hopen) hw
    have hst := (hset _ hidx1 hc1).1
    have hS : kvdb_client_S_call (fileBackendEnv fenv cfg) env server fd (keyz ++ v2 ++ junk1)
        keyz.length (v2 ++ junk1) v2.length =
      kvdb_client_out true
        (kvdb_monitor_notify env ⟨(FileBackend.kvdb_set fenv cfg server.kvdb
          (some (keyz ++ v2 ++ junk1)) keyz.length (some (v2 ++ junk1)) v2.length false).2,
          server.head⟩ (keyz ++ v2 ++ junk1) (some (v2 ++ junk1)) v2.length).1
        ([Event.kvdb_set (keyz ++ v2 ++ junk1) keyz.length (v2 ++ junk1) v2.length false] ++
          (kvdb_monitor_notify env ⟨(FileBackend.kvdb_set fenv cfg server.kvdb
            (some (keyz ++ v2 ++ junk1)) keyz.length (some (v2 ++ junk1)) v2.length false).2,
            server.head⟩ (keyz ++ v2 ++ junk1) (some (v2 ++ junk1)) v2.length).2 ++
          [Event.send fd (int32_bytes 0)]) fd := by
      unfold kvdb_client_S_call
      simp only [fileBackendEnv]
      rw [if_pos (by rw [hst]), hst]
    rw [hS]
    refine ⟨rfl, ?_, ?_⟩
    · simp [kvdb_client_out]
    · rw [kvdb_client_G_frame cfg _ env _ fd2 keyz 255 hm (by omega) (by omega)]
      obtain ⟨junk2, hj2⟩ : ∃ j, j = frame_junk env (3 + keyz.length) := ⟨_, rfl⟩
      rw [← hj2]
      have hget := (hset (keyz ++ junk2) (hreg _).1 (hreg _).2).2
      have htk : (v2 ++ junk1).take v2.length = v2 := by simp
      rw [htk] at hget
      have htk2 : v2.take 255 = v2 := List.take_of_length_le (by omega)
      rw [htk2] at hget
      unfold kvdb_client_G_call
      simp only [fileBackendEnv, kvdb_client_out, kvdb_monitor_notify_kvdb, hget]
      rw [if_pos (by omega)]
      simp
  · intro hfail
    obtain ⟨e, he⟩ : ∃ e, e = fenv.open_errno cfg.TEMPORARY_PATH (RO_LABEL ++ rest) := ⟨_, rfl⟩
    rw [← he] at hfail ⊢
    have hset := file_set_open_fails fenv cfg server.kvdb (keyz ++ v2 ++ junk1) (v2 ++ junk1)
      keyz.length v2.length false e (by rw [hidx1]; decide) (by unfold PROP_VALUE_MAX; omega)
      (by rw [hflag, hc1]; exact he.symm) (by omega)
    unfold kvdb_client_S_call
    simp only [fileBackendEnv, hset]
    rw [if_neg (by omega)]
    simp [kvdb_client_out]

/-- Witness for C15: the store holds `ro.build` with the byte `1`.  When every
`open` succeeds and no `write` is short, after the S request for `ro.build`
with the byte `2` the G request that follows is answered with the byte `2`.
When the namespace directories have no subdirectory, the S request for
`ro.a/b` with the byte `2` is answered with `-ENOENT`. -/
theorem C15_file_backend_ignores_readonly_witness :
    (kvdb_client ⟨true, true, true⟩ (fileBackendEnv file_env_ok ⟨true, true, true⟩) (env_ok fs)
      (kvdb_client ⟨true, true, true⟩ (fileBackendEnv file_env_ok ⟨true, true, true⟩)
        (env_ok fs) ⟨fs_ro_build, []⟩ 5
        [RecvResult.data ([83, (RO_LABEL ++ [98, 117, 105, 108, 100] ++ [0]).length,
          [50].length] ++ (RO_LABEL ++ [98, 117, 105, 108, 100] ++ [0]) ++ [50])]).server 6
      [RecvResult.data ([71, (RO_LABEL ++ [98, 117, 105, 108, 100] ++ [0]).length, 255] ++
        (RO_LABEL ++ [98, 117, 105, 108, 100] ++ [0]))]).trace.drop 1
      = [Event.send 6 [50], Event.close 6] ∧
    (kvdb_client ⟨true, true, true⟩ (fileBackendEnv file_env_no_subdir ⟨true, true, true⟩)
      (env_ok fs) ⟨fs_ro_build, []⟩ 5
      [RecvResult.data ([83, (RO_LABEL ++ [97, 47, 98] ++ [0]).length,
        [50].length] ++ (RO_LABEL ++ [97, 47, 98] ++ [0]) ++ [50])]).trace.drop 1
      = [Event.send 5 (int32_bytes (-ENOENT)), Event.close 5] :=
  ⟨((C15_file_backend_ignores_readonly file_env_ok ⟨true, true, true⟩ (env_ok fs)
      ⟨fs_ro_build, []⟩ 5 6 [98, 117, 105, 108, 100] [50] rfl rfl (by decide) (by decide)
      (by decide) (by decide)).1 rfl rfl).2.2,
    ((C15_file_backend_ignores_readonly file_env_no_subdir ⟨true, true, true⟩ (env_ok fs)
      ⟨fs_ro_build, []⟩ 5 6 [97, 47, 98] [50] rfl rfl (by decide) (by decide)
      (by decide) (by decide)).2 (by decide)).1⟩

/-- C15 (counterexample to the claim as stated): with the file-per-key backend,
on a file system on which the file `ro.build` can be opened and written,
`ro.build` holds the byte `1`; the S request for `ro.build` with the byte `2`
is answered with the status 0, which is not the reply `-EPERM`, and a
following get of `ro.build` returns the byte `2`. -/
theorem C15_counterexample :
    FileBackend.kvdb_get ⟨true, true, true⟩ fs_ro_build (some (name_ro_build ++ [0])) 9 true 255
      = (1, [49]) ∧
    (kvdb_client ⟨true, true, true⟩ (fileBackend ⟨true, true, true⟩) (env_ok fs)
      ⟨fs_ro_build, []⟩ 5
      [RecvResult.data ([83, 9, 1] ++ (name_ro_build ++ [0]) ++ [50])]).trace.drop 1
      = [Event.send 5 (int32_bytes 0), Event.close 5] ∧
    int32_bytes 0 ≠ int32_bytes (-EPERM) ∧
    FileBackend.kvdb_get ⟨true, true, true⟩
      (kvdb_client ⟨true, true, true⟩ (fileBackend ⟨true, true, true⟩) (env_ok fs)
        ⟨fs_ro_build, []⟩ 5
        [RecvResult.data ([83, 9, 1] ++ (name_ro_build ++ [0]) ++ [50])]).server.kvdb
      (some (name_ro_build ++ [0])) 9 true 255 = (1, [50]) := by
  decide

/-! ## Delete of a read-only key (unqlite backend) -/

theorem kvdb_delete_ro (cfg : Config) (kv : kvdb) (key : Bytes) (key_len : Nat)
    (hk1 : 1 ≤ key_len) (hk2 : key_len ≤ PROP_NAME_MAX) (hnul : key.getD (key_len - 1) 0 = 0)
    (hro : kvdb_is_readonly key = true) :
    UnqliteBackend.kvdb_delete cfg kv key key_len = (-EPERM, kv) := by
  have hd : size_dec key_len = key_len - 1 := size_dec_of_pos key_len hk1
  unfold UnqliteBackend.kvdb_delete
  simp only [hd]
  rw [if_neg (by omega), if_neg (not_not.mpr hnul), if_pos hro]

/-- C16: in the unqlite backend `kvdb_delete` on a NUL-terminated key of at
most PROP_NAME_MAX bytes that begins with `ro.` returns `-EPERM` and leaves the
store as it was, so a key that has been set keeps its value; the D handler
of the server, on such a request, makes that call, reports no change, sends
no notification (its writes are the i32 reply `-EPERM` and the close) and
leaves the store and the watcher list as they were. -/
theorem C16_delete_readonly (cfg : Config) (commit : Nat → Int) (env : ServerEnv kvdb)
    (server : kvdb_server kvdb) (fd : Nat) (rest : Bytes)
    (hm : env.malloc_ok = true) (hrl : rest.length ≤ 123) :
    (∀ junk : Bytes, UnqliteBackend.kvdb_delete cfg server.kvdb (RO_LABEL ++ rest ++ [0] ++ junk)
        (RO_LABEL ++ rest ++ [0]).length = (-EPERM, server.kvdb)) ∧
    (kvdb_client cfg (unqliteBackend cfg commit) env server fd
      [RecvResult.data ([68, (RO_LABEL ++ rest ++ [0]).length] ++ (RO_LABEL ++ rest ++ [0]))])
      = ⟨false, server,
          [Event.kvdb_delete (RO_LABEL ++ rest ++ [0] ++
              frame_junk env (2 + (RO_LABEL ++ rest ++ [0]).length))
            (RO_LABEL ++ rest ++ [0]).length,
           Event.send fd (int32_bytes (-EPERM)), Event.close fd]⟩ := by
  have hkl : (RO_LABEL ++ rest ++ [0]).length = rest.length + 4 := by simp [RO_LABEL]
  have hdel : ∀ junk : Bytes, UnqliteBackend.kvdb_delete cfg server.kvdb
      (RO_LABEL ++ rest ++ [0] ++ junk) (RO_LABEL ++ rest ++ [0]).length
        = (-EPERM, server.kvdb) := by
    intro junk
    apply kvdb_delete_ro cfg server.kvdb _ _ (by omega) (by unfold PROP_NAME_MAX; omega)
    · rw [hkl, show rest.length + 4 - 1 = (RO_LABEL ++ rest).length by simp [RO_LABEL]]
      rw [show RO_LABEL ++ rest ++ [0] ++ junk = (RO_LABEL ++ rest) ++ 0 :: junk by simp]
      exact getD_append_nul _ _
    · rw [List.append_assoc, List.append_assoc]
      exact kvdb_is_readonly_ro _
  refine ⟨hdel, ?_⟩
  rw [kvdb_client_D_frame cfg _ env server fd _ hm (by omega)]
  unfold kvdb_client_D_call
  simp only [unqliteBackend, hdel]
  rw [if_neg (by decide)]
  rfl

/-- Witness for C16: the store holds `ro.build`, and the D request is for `ro.build`. -/
theorem C16_delete_readonly_witness :
    (kvdb_client ⟨true, true, true⟩ (unqliteBackend ⟨true, true, true⟩ (fun _ => 0))
      (env_ok kvdb) ⟨⟨[], [(name_ro_build ++ [0], [49, 0])]⟩, []⟩ 5
      [RecvResult.data ([68, (RO_LABEL ++ [98, 117, 105, 108, 100] ++ [0]).length] ++
        (RO_LABEL ++ [98, 117, 105, 108, 100] ++ [0]))])
      = ⟨false, ⟨⟨[], [(name_ro_build ++ [0], [49, 0])]⟩, []⟩,
          [Event.kvdb_delete (RO_LABEL ++ [98, 117, 105, 108, 100] ++ [0] ++
              frame_junk (env_ok kvdb) (2 + (RO_LABEL ++ [98, 117, 105, 108, 100] ++ [0]).length))
            (RO_LABEL ++ [98, 117, 105, 108, 100] ++ [0]).length,
           Event.send 5 (int32_bytes (-EPERM)), Event.close 5]⟩ :=
  (C16_delete_readonly ⟨true, true, true⟩ (fun _ => 0) (env_ok kvdb)
    ⟨⟨[], [(name_ro_build ++ [0], [49, 0])]⟩, []⟩ 5 [98, 117, 105, 108, 100] rfl (by decide)).2

/-! ## The key `persist.` -/

theorem unqlite_lookup_filter_self (db : unqlite) (k : Bytes) :
    unqlite_lookup (db.filter (fun r => r.1 != k)) k = none := by
  unfold unqlite_lookup
  rw [Option.map_eq_none', List.find?_eq_none]
  intro r hr
  have := (List.mem_filter.mp hr).2
  simpa using this

theorem persist_dot_region (cfg : Config) (junk : Bytes) :
    kvdb_get_index cfg (PERSIST_LABEL ++ 0 :: junk) = KVDB_PERSIST ∧
    kvdb_is_readonly (PERSIST_LABEL ++ 0 :: junk) = false ∧
    (PERSIST_LABEL ++ 0 :: junk).getD 8 0 = 0 ∧
    (PERSIST_LABEL ++ 0 :: junk).take 9 = PERSIST_LABEL ++ [0] := by
  refine ⟨?_, ?_, ?_, ?_⟩
  · simp [kvdb_get_index, PERSIST_LABEL, PERSIST_LABEL_LEN, strncmp]
  · simp [kvdb_is_readonly, PERSIST_LABEL, RO_LABEL, strncmp]
  · simp [PERSIST_LABEL]
  · simp [PERSIST_LABEL]

/-- What `kvdb_get` of the unqlite backend returns for the key `persist.`. -/
theorem kvdb_get_persist_dot (cfg : Config) (kv : kvdb) (junk : Bytes) (n : Nat) :
    UnqliteBackend.kvdb_get cfg kv (PERSIST_LABEL ++ 0 :: junk) 9 true n =
      match unqlite_lookup kv.persist (PERSIST_LABEL ++ [0]) with
      | none => (UNQLITE_NOTFOUND, [])
      | some d => if min n d.length ≤ 0 then (-EINVAL, d.take n)
                  else (((min n d.length : Nat) : Int), d.take n) := by
  obtain ⟨hi, _, hnul, htake⟩ := persist_dot_region cfg junk
  have hd : size_dec 9 = 8 := by decide
  have hinc : size_inc 8 = 9 := by decide
  unfold UnqliteBackend.kvdb_get
  simp only [hd, hinc, hi]
  rw [if_neg (by decide), if_neg (not_not.mpr hnul), if_neg (by decide)]
  unfold unqlite_kv_fetch
  rw [htake]
  simp only [kvdb.db, if_true]
  cases unqlite_lookup kv.persist (PERSIST_LABEL ++ [0]) with
  | none => simp [UNQLITE_NOTFOUND]
  | some d => simp [UNQLITE_OK]

theorem kvdb_set_persist_dot (cfg : Config) (kv : kvdb) (junk value : Bytes) (vl : Nat)
    (force : Bool) (hv : vl < PROP_VALUE_MAX) :
    UnqliteBackend.kvdb_set cfg kv (some (PERSIST_LABEL ++ 0 :: junk)) 9 value vl force =
      (0, ⟨(PERSIST_LABEL ++ [0], value.take vl) ::
        kv.persist.filter (fun r => r.1 != PERSIST_LABEL ++ [0]), kv.mem⟩) := by
  obtain ⟨hi, hro, hnul, htake⟩ := persist_dot_region cfg junk
  rw [kvdb_set_valid cfg kv _ value 9 vl force (by decide) (by decide) hnul hv
    (by rw [hi]; decide), hro, htake, hi]
  rw [if_neg (by simp)]
  simp [kvdb.setDb, kvdb.db]

theorem kvdb_delete_persist_dot (cfg : Config) (kv : kvdb) (junk : Bytes) :
    UnqliteBackend.kvdb_delete cfg kv (PERSIST_LABEL ++ 0 :: junk) 9 =
      match unqlite_lookup kv.persist (PERSIST_LABEL ++ [0]) with
      | none => (UNQLITE_NOTFOUND, kv)
      | some _ => (UNQLITE_OK,
          ⟨kv.persist.filter (fun r => r.1 != PERSIST_LABEL ++ [0]), kv.mem⟩) := by
  obtain ⟨hi, hro, hnul, htake⟩ := persist_dot_region cfg junk
  have hd : size_dec 9 = 8 := by decide
  have hinc : size_inc 8 = 9 := by decide
  unfold UnqliteBackend.kvdb_delete
  simp only [hd, hinc, hi, hro]
  rw [if_neg (by decide), if_neg (not_not.mpr hnul), if_neg (by decide), if_neg (by decide)]
  unfold unqlite_kv_delete
  simp only [htake, kvdb.db, if_true]
  cases unqlite_lookup kv.persist (PERSIST_LABEL ++ [0]) with
  | none => simp [kvdb.setDb]
  | some d => simp [kvdb.setDb]

/-- C17 (as amended): the key of exactly `persist.` is served like any other
key of the persistent namespace (unqlite backend).  A set of a value of 1 to
254 bytes returns 0 and stores the value under it, a following get returns
the value, a following delete returns 0 and removes the key, and a get after
the delete finds nothing. -/
theorem C17_persist_dot_is_served (cfg : Config) (kv : kvdb) (value j1 j2 j3 j4 : Bytes)
    (vl : Nat) (h1 : 1 ≤ vl) (h2 : vl ≤ 254) (h3 : vl ≤ value.length) :
    (UnqliteBackend.kvdb_set cfg kv (some (persist_dot j1)) 9 value vl false).1 = 0 ∧
    unqlite_lookup
        (UnqliteBackend.kvdb_set cfg kv (some (persist_dot j1)) 9 value vl false).2.persist
        (PERSIST_LABEL ++ [0]) = some (value.take vl) ∧
    UnqliteBackend.kvdb_get cfg
        (UnqliteBackend.kvdb_set cfg kv (some (persist_dot j1)) 9 value vl false).2
        (persist_dot j2) 9 true 255 = ((vl : Int), value.take vl) ∧
    (UnqliteBackend.kvdb_delete cfg
        (UnqliteBackend.kvdb_set cfg kv (some (persist_dot j1)) 9 value vl false).2
        (persist_dot j3) 9).1 = 0 ∧
    unqlite_lookup (UnqliteBackend.kvdb_delete cfg
        (UnqliteBackend.kvdb_set cfg kv (some (persist_dot j1)) 9 value vl false).2
        (persist_dot j3) 9).2.persist (PERSIST_LABEL ++ [0]) = none ∧
    UnqliteBackend.kvdb_get cfg (UnqliteBackend.kvdb_delete cfg
        (UnqliteBackend.kvdb_set cfg kv (some (persist_dot j1)) 9 value vl false).2
        (persist_dot j3) 9).2 (persist_dot j4) 9 true 255 = (UNQLITE_NOTFOUND, []) := by
  unfold persist_dot
  rw [kvdb_set_persist_dot cfg kv j1 value vl false (by unfold PROP_VALUE_MAX; omega)]
  have hlen : (value.take vl).length = vl := by simp [List.length_take, h3]
  have htk : (value.take vl).take 255 = value.take vl :=
    List.take_of_length_le (by rw [hlen]; omega)
  rw [kvdb_delete_persist_dot, kvdb_get_persist_dot, kvdb_get_persist_dot]
  refine ⟨rfl, unqlite_lookup_cons_self _ _ _, ?_, ?_, ?_, ?_⟩
  · simp only [unqlite_lookup_cons_self, hlen, htk]
    rw [if_neg (by omega), show min 255 vl = vl by omega]
  · simp only [unqlite_lookup_cons_self]
    rfl
  · simp only [unqlite_lookup_cons_self]
    simp [unqlite_lookup_filter_self]
  · simp only [unqlite_lookup_cons_self]
    simp [unqlite_lookup_filter_self]

/-- Witness for C17: the value `v` with its NUL is set under `persist.`. -/
theorem C17_persist_dot_is_served_witness :
    UnqliteBackend.kvdb_get ⟨true, true, true⟩
        (UnqliteBackend.kvdb_set ⟨true, true, true⟩ ⟨[], []⟩ (some (persist_dot [])) 9
          [118, 0] 2 false).2
        (persist_dot []) 9 true 255 = (((2 : Nat) : Int), [118, 0].take 2) :=
  (C17_persist_dot_is_served ⟨true, true, true⟩ ⟨[], []⟩ [118, 0] [] [] [] [] 2
    (by decide) (by decide) (by decide)).2.2.1

/-- C17 (counterexample to the claim as stated): the client sends the set
request for the key `persist.`; the S handler of the server answers it with
the status 0 and the store then holds the key; the G request for it is
answered with the value, and the D request with the status 0. -/
theorem C17_counterexample :
    (property_set_binary cenv_ok (some (persist_dot [])) [118, 0] 2 false).2.head?
      = some (Event.sendmsg 3 ([83, 9, 2] ++ persist_dot [] ++ [118, 0])) ∧
    (kvdb_client ⟨true, true, true⟩ (unqliteBackend ⟨true, true, true⟩ (fun _ => 0))
      (env_ok kvdb) ⟨⟨[], []⟩, []⟩ 5
      [RecvResult.data ([83, 9, 2] ++ persist_dot [] ++ [118, 0])]).trace.drop 1
      = [Event.send 5 (int32_bytes 0), Event.close 5] ∧
    (kvdb_client ⟨true, true, true⟩ (unqliteBackend ⟨true, true, true⟩ (fun _ => 0))
      (env_ok kvdb) ⟨⟨[], []⟩, []⟩ 5
      [RecvResult.data ([83, 9, 2] ++ persist_dot [] ++ [118, 0])]).server.kvdb
      = ⟨[(persist_dot [], [118, 0])], []⟩ ∧
    (kvdb_client ⟨true, true, true⟩ (unqliteBackend ⟨true, true, true⟩ (fun _ => 0))
      (env_ok kvdb) ⟨⟨[(persist_dot [], [118, 0])], []⟩, []⟩ 6
      [RecvResult.data ([71, 9, 255] ++ persist_dot [])]).trace.drop 1
      = [Event.send 6 [118, 0], Event.close 6] ∧
    (kvdb_client ⟨true, true, true⟩ (unqliteBackend ⟨true, true, true⟩ (fun _ => 0))
      (env_ok kvdb) ⟨⟨[(persist_dot [], [118, 0])], []⟩, []⟩ 7
      [RecvResult.data ([68, 9] ++ persist_dot [])]).trace.drop 1
      = [Event.send 7 (int32_bytes 0), Event.close 7] ∧
    (kvdb_client ⟨true, true, true⟩ (unqliteBackend ⟨true, true, true⟩ (fun _ => 0))
      (env_ok kvdb) ⟨⟨[(persist_dot [], [118, 0])], []⟩, []⟩ 7
      [RecvResult.data ([68, 9] ++ persist_dot [])]).server.kvdb = ⟨[], []⟩ := by
  decide

/-! ## The null key and the empty key -/

/-- The status of `kvdb_set` for a NUL-terminated key of valid length that has
no namespace. -/
theorem kvdb_set_no_namespace (cfg : Config) (kv : kvdb) (key value : Bytes)
    (key_len val_len : Nat) (force : Bool) (hk1 : 1 ≤ key_len) (hk2 : key_len ≤ PROP_NAME_MAX)
    (hnul : key.getD (key_len - 1) 0 = 0) (hv : val_len < PROP_VALUE_MAX)
    (hi : kvdb_get_index cfg key < 0) :
    UnqliteBackend.kvdb_set cfg kv (some key) key_len value val_len force =
      (kvdb_get_index cfg key, kv) := by
  have hd : size_dec key_len = key_len - 1 := size_dec_of_pos key_len hk1
  simp only [UnqliteBackend.kvdb_set, hd]
  rw [if_neg (by omega), if_neg (not_not.mpr hnul), if_neg (by omega), if_pos hi]

theorem empty_key_region (cfg : Config) (rest : Bytes) :
    kvdb_get_index cfg (0 :: rest) = (if cfg.TEMPORARY_STORAGE then KVDB_MEM else -EINVAL) ∧
    kvdb_is_readonly (0 :: rest) = false := by
  constructor
  · simp [kvdb_get_index, PERSIST_LABEL, PERSIST_LABEL_LEN, strncmp]
  · simp [kvdb_is_readonly, RO_LABEL, strncmp]

/-- The S request for the empty key as it reaches the call of `kvdb_set`. -/
theorem kvdb_client_S_empty_key (cfg : Config) (commit : Nat → Int) (env : ServerEnv kvdb)
    (server : kvdb_server kvdb) (fd : Nat) (v : Bytes)
    (hm : env.malloc_ok = true) (hv : v.length ≤ 254) :
    kvdb_client cfg (unqliteBackend cfg commit) env server fd
        [RecvResult.data ([83, 1, v.length] ++ [0] ++ v)] =
      kvdb_client_S_call (unqliteBackend cfg commit) env server fd
        (0 :: (v ++ frame_junk env (3 + 1 + v.length))) 1
        (v ++ frame_junk env (3 + 1 + v.length)) v.length := by
  have h := kvdb_client_S_frame cfg (unqliteBackend cfg commit) env server fd [0] v hm
    (by decide) (by omega) (by unfold PROP_MSG_MAX PROP_NAME_MAX PROP_VALUE_MAX; simp; omega)
  simpa using h

/-- C18 (as amended): a null key is rejected with `-EINVAL` by
`property_set_binary`, `property_get_binary` and `property_delete` of
`client.c`, before any system call.  A set of the empty key (klen = 1, key =
NUL, a value of at most 254 bytes) is answered by the server with `-EINVAL`
and stores nothing when the build has no volatile namespace; with a volatile
namespace it is answered with 0, reported as a change, and the value is
stored under the empty key (unqlite backend). -/
theorem C18_null_and_empty_key (cfg : Config) (commit : Nat → Int) (cenv : ClientEnv)
    (env : ServerEnv kvdb) (server : kvdb_server kvdb) (fd : Nat) (value v : Bytes) (vl : Nat)
    (oneway hasBuf : Bool) (getenv : Bytes → Bool) (unsetenv : Int)
    (hm : env.malloc_ok = true) (hv : v.length ≤ 254) :
    property_set_binary cenv none value vl oneway = (-EINVAL, []) ∧
    property_get_binary cenv none hasBuf vl = (-EINVAL, [], []) ∧
    property_delete cenv getenv unsetenv none = (-EINVAL, []) ∧
    (cfg.TEMPORARY_STORAGE = false →
      (kvdb_client cfg (unqliteBackend cfg commit) env server fd
        [RecvResult.data ([83, 1, v.length] ++ [0] ++ v)]).trace.drop 1
        = [Event.send fd (int32_bytes (-EINVAL)), Event.close fd] ∧
      (kvdb_client cfg (unqliteBackend cfg commit) env server fd
        [RecvResult.data ([83, 1, v.length] ++ [0] ++ v)]).dirty = false ∧
      (kvdb_client cfg (unqliteBackend cfg commit) env server fd
        [RecvResult.data ([83, 1, v.length] ++ [0] ++ v)]).server.kvdb = server.kvdb) ∧
    (cfg.TEMPORARY_STORAGE = true →
      (kvdb_client cfg (unqliteBackend cfg commit) env server fd
        [RecvResult.data ([83, 1, v.length] ++ [0] ++ v)]).trace.reverse.take 2
        = [Event.close fd, Event.send fd (int32_bytes 0)] ∧
      (kvdb_client cfg (unqliteBackend cfg commit) env server fd
        [RecvResult.data ([83, 1, v.length] ++ [0] ++ v)]).dirty = true ∧
      unqlite_lookup (kvdb_client cfg (unqliteBackend cfg commit) env server fd
        [RecvResult.data ([83, 1, v.length] ++ [0] ++ v)]).server.kvdb.mem [0] = some v) := by
  refine ⟨rfl, rfl, rfl, ?_, ?_⟩
  · intro hts
    rw [kvdb_client_S_empty_key cfg commit env server fd v hm hv]
    obtain ⟨junk, hj⟩ : ∃ j, j = frame_junk env (3 + 1 + v.length) := ⟨_, rfl⟩
    rw [← hj]
    have hidx : kvdb_get_index cfg (0 :: (v ++ junk)) = -EINVAL := by
      rw [(empty_key_region cfg _).1, hts]; rfl
    have hset := kvdb_set_no_namespace cfg server.kvdb (0 :: (v ++ junk)) (v ++ junk) 1 v.length
      false (by decide) (by decide) rfl (by unfold PROP_VALUE_MAX; omega)
      (by rw [hidx]; decide)
    rw [hidx] at hset
    unfold kvdb_client_S_call
    simp only [unqliteBackend, hset]
    rw [if_neg (by decide)]
    simp [kvdb_client_out]
  · intro hts
    rw [kvdb_client_S_empty_key cfg commit env server fd v hm hv]
    obtain ⟨junk, hj⟩ : ∃ j, j = frame_junk env (3 + 1 + v.length) := ⟨_, rfl⟩
    rw [← hj]
    have hidx : kvdb_get_index cfg (0 :: (v ++ junk)) = KVDB_MEM := by
      rw [(empty_key_region cfg _).1, hts]; rfl
    have hset := kvdb_set_valid cfg server.kvdb (0 :: (v ++ junk)) (v ++ junk) 1 v.length
      false (by decide) (by decide) rfl (by unfold PROP_VALUE_MAX; omega)
      (by rw [hidx]; decide)
    rw [(empty_key_region cfg _).2, hidx, if_neg (by simp)] at hset
    have htk : (v ++ junk).take v.length = v := by simp
    have hk : (0 :: (v ++ junk)).take 1 = [0] := rfl
    rw [htk, hk] at hset
    unfold kvdb_client_S_call
    simp only [unqliteBackend, hset]
    rw [if_pos (by decide)]
    refine ⟨?_, rfl, ?_⟩
    · simp [kvdb_client_out]
    · simp only [kvdb_client_out, kvdb_monitor_notify_kvdb, kvdb_mem_setDb]
      exact unqlite_lookup_cons_self _ _ _

/-- Witness for C18: the empty key is set to the byte `v` and its NUL in a
build with a volatile namespace. -/
theorem C18_null_and_empty_key_witness :
    unqlite_lookup (kvdb_client ⟨true, true, true⟩
      (unqliteBackend ⟨true, true, true⟩ (fun _ => 0)) (env_ok kvdb) ⟨⟨[], []⟩, []⟩ 5
      [RecvResult.data ([83, 1, [118, 0].length] ++ [0] ++ [118, 0])]).server.kvdb.mem [0]
      = some [118, 0] :=
  ((C18_null_and_empty_key ⟨true, true, true⟩ (fun _ => 0) cenv_ok (env_ok kvdb)
    ⟨⟨[], []⟩, []⟩ 5 [] [118, 0] 0 false false (fun _ => false) 0 rfl (by decide)).2.2.2.2
    rfl).2.2

/-- C18 (counterexample to the claim as stated): in a build with a volatile
namespace a set of the empty key (klen = 1, key = NUL) is answered with the
status 0, not `-EINVAL`, and the store then holds the value under the empty
key. -/
theorem C18_counterexample :
    (kvdb_client ⟨true, true, true⟩ (unqliteBackend ⟨true, true, true⟩ (fun _ => 0))
      (env_ok kvdb) ⟨⟨[], []⟩, []⟩ 5
      [RecvResult.data [83, 1, 2, 0, 118, 0]]).trace.drop 1
      = [Event.send 5 (int32_bytes 0), Event.close 5] ∧
    int32_bytes 0 ≠ int32_bytes (-EINVAL) ∧
    (kvdb_client ⟨true, true, true⟩ (unqliteBackend ⟨true, true, true⟩ (fun _ => 0))
      (env_ok kvdb) ⟨⟨[], []⟩, []⟩ 5
      [RecvResult.data [83, 1, 2, 0, 118, 0]]).server.kvdb = ⟨[], [([0], [118, 0])]⟩ := by
  decide

/-! ## The lines of a source file -/

theorem takeWhile_append_stop (p : Nat → Bool) (a : Bytes) (x : Nat) (t : Bytes)
    (ha : ∀ c ∈ a, p c = true) (hx : p x = false) :
    (a ++ x :: t).takeWhile p = a := by
  induction a with
  | nil => simp [List.takeWhile, hx]
  | cons c cs ih =>
    have hc : p c = true := ha c (List.mem_cons_self c cs)
    rw [List.cons_append, List.takeWhile_cons, hc]
    simp [ih (fun d hd => ha d (List.mem_cons_of_mem c hd))]

theorem fgets_from_line (n : Nat) (body rest : Bytes) (hb : ∀ c ∈ body, c ≠ 10) :
    ∀ cur : Bytes, cur.length + body.length + 1 < n →
      fgets_from n cur (body ++ 10 :: rest) = (cur ++ body ++ [10]) :: fgets_from n [] rest := by
  induction body with
  | nil =>
    intro cur _
    simp [fgets_from]
  | cons c cs ih =>
    intro cur hlen
    have hc : c ≠ 10 := hb c (List.mem_cons_self c cs)
    have hlen2 : ¬ (c = 10 ∨ (cur ++ [c]).length + 1 ≥ n) := by
      simp only [List.length_append, List.length_cons, List.length_nil] at hlen ⊢
      omega
    rw [List.cons_append, fgets_from, if_neg hlen2,
      ih (fun d hd => hb d (List.mem_cons_of_mem c hd)) (cur ++ [c])
        (by simp only [List.length_append, List.length_cons, List.length_nil] at hlen ⊢
            omega)]
    simp

/-- The token `strtok_r` finds at the start of a region, when a delimiter
follows it. -/
theorem strtok_r_token (tok tail : Bytes) (d : Nat) (hd : d ≠ 0) (hne : tok ≠ [])
    (ht : ∀ c ∈ tok, c ≠ 0 ∧ c ≠ d) :
    strtok_r (tok ++ d :: tail) [d] = (some tok, tail) := by
  obtain ⟨c, cs, hcs⟩ := List.exists_cons_of_ne_nil hne
  have hc := ht c (by rw [hcs]; exact List.mem_cons_self c cs)
  have hspn : strspn (tok ++ d :: tail) [d] = 0 := by
    rw [hcs]
    simp [strspn, List.takeWhile, hc.2]
  have htw : (tok ++ d :: tail).takeWhile (fun c => c != 0 && !(List.contains [d] c)) = tok := by
    apply takeWhile_append_stop
    · intro x hx
      have := ht x hx
      simp [this.1, this.2]
    · simp
  unfold strtok_r
  simp only [hspn, List.drop_zero, htw]
  rw [if_neg (by rw [hcs]; simpa using hc.1)]
  simp [hd]

/-- The token `strtok_r` finds at the start of a region, when the string ends
after it. -/
theorem strtok_r_last (tok tail : Bytes) (d : Nat) (hne : tok ≠ [])
    (ht : ∀ c ∈ tok, c ≠ 0 ∧ c ≠ d) :
    strtok_r (tok ++ 0 :: tail) [d] = (some tok, 0 :: tail) := by
  obtain ⟨c, cs, hcs⟩ := List.exists_cons_of_ne_nil hne
  have hc := ht c (by rw [hcs]; exact List.mem_cons_self c cs)
  have hspn : strspn (tok ++ 0 :: tail) [d] = 0 := by
    rw [hcs]
    simp [strspn, List.takeWhile, hc.2]
  have htw : (tok ++ 0 :: tail).takeWhile (fun c => c != 0 && !(List.contains [d] c)) = tok := by
    apply takeWhile_append_stop
    · intro x hx
      have := ht x hx
      simp [this.1, this.2]
    · simp
  unfold strtok_r
  simp only [hspn, List.drop_zero, htw]
  rw [if_neg (by rw [hcs]; simpa using hc.1)]
  simp

theorem strtok_r_end (tail : Bytes) (d : Nat) : (strtok_r (0 :: tail) [d]).1 = none := by
  simp [strtok_r, strspn, List.takeWhile]

/-- The loop body on a buffer `key=value` followed by a newline. -/
theorem kvdb_load_line_entry {σ : Type} (B : Backend σ) (force : Bool) (st : σ)
    (key value : Bytes) (hk : key ≠ []) (hkc : ∀ c ∈ key, c ≠ 0 ∧ c ≠ 61)
    (hv : value ≠ []) (hvc : ∀ c ∈ value, c ≠ 0 ∧ c ≠ 10)
    (hcom : kvdb_is_comment (key ++ 61 :: (value ++ 10 :: [0])) = false) :
    kvdb_load_line B force st (key ++ 61 :: (value ++ 10 :: [0])) =
      if force = false then
        if B.kvdb_get_null st (key ++ [0]) (key.length + 1) 0 ≥ 0 then
          (st, [Event.kvdb_get (key ++ [0]) (key.length + 1) 0])
        else
          ((B.kvdb_set st (key ++ [0]) (key.length + 1) (value ++ [0]) (value.length + 1) true).2,
            [Event.kvdb_get (key ++ [0]) (key.length + 1) 0,
              Event.kvdb_set (key ++ [0]) (key.length + 1) (value ++ [0]) (value.length + 1) true])
      else
        ((B.kvdb_set st (key ++ [0]) (key.length + 1) (value ++ [0]) (value.length + 1) true).2,
          [Event.kvdb_set (key ++ [0]) (key.length + 1) (value ++ [0]) (value.length + 1) true])
        := by
  have h1 := strtok_r_token key (value ++ 10 :: [0]) 61 (by decide) hk hkc
  have h2 := strtok_r_token value [0] 10 (by decide) hv hvc
  have hs1 : strlen (key ++ [0]) = key.length :=
    strlen_append_nul key [] (fun c hc => (hkc c hc).1)
  have hs2 : strlen (value ++ [0]) = value.length :=
    strlen_append_nul value [] (fun c hc => (hvc c hc).1)
  unfold kvdb_load_line
  rw [if_neg (by simp [hcom]), h1]
  simp only [h2, hs1, hs2]

/-- The loop body on a buffer without `=`, the newline excepted. -/
theorem kvdb_load_line_no_eq {σ : Type} (B : Backend σ) (force : Bool) (st : σ)
    (line : Bytes) (hl : ∀ c ∈ line, c ≠ 0 ∧ c ≠ 61) :
    kvdb_load_line B force st (line ++ [0]) = (st, []) := by
  unfold kvdb_load_line
  by_cases hcom : kvdb_is_comment (line ++ [0]) = true
  · rw [if_pos hcom]
  · rw [if_neg hcom]
    by_cases hne : line = []
    · subst hne
      simp [strtok_r, strspn, List.takeWhile]
    · have h1 := strtok_r_last line [] 61 hne hl
      rw [h1]
      simp only [strtok_r_end]

theorem kvdb_load_file_line {σ : Type} (B : Backend σ) (force : Bool) (st : σ)
    (body rest : Bytes) (hb : ∀ c ∈ body, c ≠ 10) (hlen : body.length ≤ 383) :
    kvdb_load_file B force st (body ++ 10 :: rest) =
      ((kvdb_load_file B force (kvdb_load_line B force st (body ++ 10 :: [0])).1 rest).1,
        (kvdb_load_line B force st (body ++ 10 :: [0])).2 ++
          (kvdb_load_file B force (kvdb_load_line B force st (body ++ 10 :: [0])).1 rest).2) := by
  unfold kvdb_load_file
  rw [fgets_from_line PROP_MSG_MAX body rest hb []
    (by unfold PROP_MSG_MAX PROP_NAME_MAX PROP_VALUE_MAX; simp only [List.length_nil]; omega)]
  simp [kvdb_load_lines]

theorem fgets_from_newline (n : Nat) (body rest : Bytes) :
    ∀ cur : Bytes, fgets_from n cur (body ++ 10 :: rest) =
      fgets_from n cur (body ++ [10]) ++ fgets_from n [] rest := by
  induction body with
  | nil =>
    intro cur
    simp [fgets_from]
  | cons c cs ih =>
    intro cur
    rw [List.cons_append, List.cons_append, fgets_from, fgets_from]
    by_cases h : c = 10 ∨ (cur ++ [c]).length + 1 ≥ n
    · rw [if_pos h, if_pos h, ih []]
      rfl
    · rw [if_neg h, if_neg h, ih (cur ++ [c])]

/-- Every byte of a buffer filled by `fgets` comes from the file. -/
theorem fgets_from_mem (n : Nat) (f : Bytes) :
    ∀ cur : Bytes, ∀ l ∈ fgets_from n cur f, ∀ c ∈ l, c ∈ cur ∨ c ∈ f := by
  induction f with
  | nil =>
    intro cur l hl c hc
    unfold fgets_from at hl
    by_cases h : cur = []
    · rw [if_pos h] at hl; exact absurd hl (List.not_mem_nil l)
    · rw [if_neg h] at hl
      rw [List.mem_singleton.mp hl] at hc
      exact Or.inl hc
  | cons x xs ih =>
    intro cur l hl c hc
    unfold fgets_from at hl
    by_cases h : x = 10 ∨ (cur ++ [x]).length + 1 ≥ n
    · rw [if_pos h] at hl
      rcases List.mem_cons.mp hl with h1 | h1
      · rw [h1] at hc
        rcases List.mem_append.mp hc with h2 | h2
        · exact Or.inl h2
        · rw [List.mem_singleton.mp h2]; exact Or.inr (List.mem_cons_self x xs)
      · rcases ih [] l h1 c hc with h2 | h2
        · exact absurd h2 (List.not_mem_nil c)
        · exact Or.inr (List.mem_cons_of_mem x h2)
    · rw [if_neg h] at hl
      rcases ih (cur ++ [x]) l hl c hc with h2 | h2
      · rcases List.mem_append.mp h2 with h3 | h3
        · exact Or.inl h3
        · rw [List.mem_singleton.mp h3]; exact Or.inr (List.mem_cons_self x xs)
      · exact Or.inr (List.mem_cons_of_mem x h2)

/-- Buffers without `=` at the head of the list leave the store as it is. -/
theorem kvdb_load_lines_skip {σ : Type} (B : Backend σ) (force : Bool) (st : σ)
    (more : List Bytes) :
    ∀ bufs : List Bytes, (∀ l ∈ bufs, ∀ c ∈ l, c ≠ 0 ∧ c ≠ 61) →
      kvdb_load_lines B force st (bufs.map (fun l => l ++ [0]) ++ more) =
        kvdb_load_lines B force st more := by
  intro bufs
  induction bufs with
  | nil => intro _; rfl
  | cons b bs ih =>
    intro h
    rw [List.map_cons, List.cons_append, kvdb_load_lines,
      kvdb_load_line_no_eq B force st b (h b (List.mem_cons_self b bs))]
    simp only [List.nil_append]
    exact ih (fun l hl => h l (List.mem_cons_of_mem b hl))

/-! ## The entries of a source file -/

/-- C19 (as amended): for a source line of at most 384 bytes, newline
included, that is not a comment and has at least one byte before its first
`=` and at least one byte between that `=` and the trailing newline,
`kvdb_load` (force = true) takes the text before the first `=` as the key and
the text after it, up to but not including the trailing newline, as the
value, calls `kvdb_set` with the key and the value, each with its terminating
NUL, and force = true, and goes on with the rest of the file on the store
that call leaves; in the unqlite backend that call stores the value with its
NUL under the key when both fit and the key has a namespace.  A line that
contains no `=` changes nothing, whatever its length and whatever `force`. -/
theorem C19_kvdb_load_entry {σ : Type} (B : Backend σ) (st : σ) (force : Bool)
    (cfg : Config) (kv : kvdb) (key value line rest : Bytes) :
    (key ≠ [] → (∀ c ∈ key, c ≠ 0 ∧ c ≠ 10 ∧ c ≠ 61) →
      value ≠ [] → (∀ c ∈ value, c ≠ 0 ∧ c ≠ 10) →
      key.length + value.length + 2 ≤ 384 →
      kvdb_is_comment (key ++ [61] ++ value ++ [10] ++ [0]) = false →
      kvdb_load_file B true st (key ++ [61] ++ value ++ [10] ++ rest) =
        ((kvdb_load_file B true
            (B.kvdb_set st (key ++ [0]) (key.length + 1) (value ++ [0]) (value.length + 1)
              true).2 rest).1,
          Event.kvdb_set (key ++ [0]) (key.length + 1) (value ++ [0]) (value.length + 1) true ::
            (kvdb_load_file B true
              (B.kvdb_set st (key ++ [0]) (key.length + 1) (value ++ [0]) (value.length + 1)
                true).2 rest).2)) ∧
    (key.length ≤ 126 → value.length ≤ 253 →
      0 ≤ kvdb_get_index cfg (key ++ [0]) →
      unqlite_lookup
        (((unqliteBackend cfg (fun _ => 0)).kvdb_set kv (key ++ [0]) (key.length + 1)
          (value ++ [0]) (value.length + 1) true).2.db (kvdb_get_index cfg (key ++ [0])))
        (key ++ [0]) = some (value ++ [0])) ∧
    ((∀ c ∈ line, c ≠ 0 ∧ c ≠ 10 ∧ c ≠ 61) →
      kvdb_load_file B force st (line ++ [10] ++ rest) = kvdb_load_file B force st rest) := by
  refine ⟨?_, ?_, ?_⟩
  · intro hk hkc hv hvc hlen hcom
    have hshape : key ++ [61] ++ value ++ [10] ++ rest = (key ++ 61 :: value) ++ 10 :: rest := by
      simp
    have hbuf : (key ++ 61 :: value) ++ 10 :: [0] = key ++ 61 :: (value ++ 10 :: [0]) := by simp
    have hcom2 : kvdb_is_comment (key ++ 61 :: (value ++ 10 :: [0])) = false := by
      rw [← hcom]; congr 1; simp
    rw [hshape, kvdb_load_file_line B true st (key ++ 61 :: value) rest
      (by
        intro c hc
        rcases List.mem_append.mp hc with h | h
        · exact (hkc c h).2.1
        · rcases List.mem_cons.mp h with h | h
          · rw [h]; decide
          · exact (hvc c h).2)
      (by simp only [List.length_append, List.length_cons]; omega), hbuf,
      kvdb_load_line_entry B true st key value hk (fun c hc => ⟨(hkc c hc).1, (hkc c hc).2.2⟩)
        hv hvc hcom2]
    rfl
  · intro hk hv hi
    have hnul : (key ++ [0]).getD (key.length + 1 - 1) 0 = 0 := by
      rw [Nat.add_sub_cancel]; exact getD_append_nul key []
    have hset := kvdb_set_valid cfg kv (key ++ [0]) (value ++ [0]) (key.length + 1)
      (value.length + 1) true (by omega) (by unfold PROP_NAME_MAX; omega) hnul
      (by unfold PROP_VALUE_MAX; omega) hi
    rw [if_neg (by simp)] at hset
    have htk : (key ++ [0]).take (key.length + 1) = key ++ [0] :=
      List.take_of_length_le (by simp)
    have htv : (value ++ [0]).take (value.length + 1) = value ++ [0] :=
      List.take_of_length_le (by simp)
    simp only [unqliteBackend, hset, kvdb_db_setDb, htk, htv]
    exact unqlite_lookup_cons_self _ _ _
  · intro hl
    have hshape : line ++ [10] ++ rest = line ++ 10 :: rest := by simp
    unfold kvdb_load_file
    rw [hshape, fgets_from_newline PROP_MSG_MAX line rest [], List.map_append]
    apply kvdb_load_lines_skip
    intro l hmem c hc
    rcases fgets_from_mem PROP_MSG_MAX _ [] l hmem c hc with h | h
    · exact absurd h (List.not_mem_nil c)
    · rcases List.mem_append.mp h with h2 | h2
      · exact ⟨(hl c h2).1, (hl c h2).2.2⟩
      · rw [List.mem_singleton.mp h2]; decide

/-- Witness for C19: the file holds the one line `a=b`. -/
theorem C19_kvdb_load_entry_witness :
    kvdb_load_file (unqliteBackend ⟨true, true, true⟩ (fun _ => 0)) true ⟨[], []⟩
        ([97] ++ [61] ++ [98] ++ [10] ++ []) =
      ((kvdb_load_file (unqliteBackend ⟨true, true, true⟩ (fun _ => 0)) true
          ((unqliteBackend ⟨true, true, true⟩ (fun _ => 0)).kvdb_set ⟨[], []⟩ ([97] ++ [0])
            ([97].length + 1) ([98] ++ [0]) ([98].length + 1) true).2 []).1,
        Event.kvdb_set ([97] ++ [0]) ([97].length + 1) ([98] ++ [0]) ([98].length + 1) true ::
          (kvdb_load_file (unqliteBackend ⟨true, true, true⟩ (fun _ => 0)) true
            ((unqliteBackend ⟨true, true, true⟩ (fun _ => 0)).kvdb_set ⟨[], []⟩ ([97] ++ [0])
              ([97].length + 1) ([98] ++ [0]) ([98].length + 1) true).2 []).2) :=
  (C19_kvdb_load_entry (unqliteBackend ⟨true, true, true⟩ (fun _ => 0)) ⟨[], []⟩ true
    ⟨true, true, true⟩ ⟨[], []⟩ [97] [98] [] []).1 (by decide) (by decide) (by decide)
    (by decide) (by decide) (by decide)

/-- C19 (counterexample to the claim as stated): the line `a=` is not a
comment and contains `=`, and the loader sets nothing for it; for the line
`=s=t` the loader sets the key `s`, which is not the text before the first
`=`; and for a line of 386 bytes the loader sets the key to the first 382
bytes of the 383 that follow the `=`. -/
theorem C19_counterexample :
    kvdb_is_comment ([97, 61, 10] ++ [0]) = false ∧
    kvdb_load_file (unqliteBackend ⟨true, true, true⟩ (fun _ => 0)) true ⟨[], []⟩ [97, 61, 10]
      = (⟨[], []⟩, []) ∧
    kvdb_is_comment ([61, 115, 61, 116, 10] ++ [0]) = false ∧
    (kvdb_load_file (unqliteBackend ⟨true, true, true⟩ (fun _ => 0)) true ⟨[], []⟩
      [61, 115, 61, 116, 10]).2 = [Event.kvdb_set [115, 0] 2 [116, 0] 2 true] ∧
    (kvdb_load_file (unqliteBackend ⟨true, true, true⟩ (fun _ => 0)) true ⟨[], []⟩
      long_line).2 = [Event.kvdb_set [107, 0] 2 (List.replicate 382 118 ++ [0]) 383 true] := by
  decide

/-! ## The startup load and the keys that exist -/

/-- C20 (evaluation at the failing input): `kvdb_get` of `file.c` returns
`-EINVAL` whenever its `value` argument is NULL, so the test
`kvdb_get(kvdb, key, key_len, NULL, 0) >= 0` of `kvdb_load` never holds with
the file-per-key backend: when `persist.a` holds the byte `1` and its NUL, the
load of the line `persist.a=2` with force = false calls `kvdb_set` and the
store then holds the byte `2` and its NUL.  On the same input the unqlite
backend skips the entry and leaves the store as it was, and with force = true
it overwrites the value. -/
theorem C20_startup_load_file_backend_overwrites :
    (∀ (cfg : Config) (st : fs) (key : Bytes) (kl vl : Nat),
      (fileBackend cfg).kvdb_get_null st key kl vl = -EINVAL) ∧
    kvdb_load_file (fileBackend ⟨true, true, true⟩) false ⟨[(name_persist_a, [49, 0])], []⟩
        line_persist_a
      = (⟨[(name_persist_a, [50, 0])], []⟩,
          [Event.kvdb_get (name_persist_a ++ [0]) 10 0,
            Event.kvdb_set (name_persist_a ++ [0]) 10 [50, 0] 2 true]) ∧
    kvdb_load_file (unqliteBackend ⟨true, true, true⟩ (fun _ => 0)) false
        ⟨[(name_persist_a ++ [0], [49, 0])], []⟩ line_persist_a
      = (⟨[(name_persist_a ++ [0], [49, 0])], []⟩,
          [Event.kvdb_get (name_persist_a ++ [0]) 10 0]) ∧
    kvdb_load_file (unqliteBackend ⟨true, true, true⟩ (fun _ => 0)) true
        ⟨[(name_persist_a ++ [0], [49, 0])], []⟩ line_persist_a
      = (⟨[(name_persist_a ++ [0], [50, 0])], []⟩,
          [Event.kvdb_set (name_persist_a ++ [0]) 10 [50, 0] 2 true]) := by
  refine ⟨fun _ _ _ _ _ => rfl, ?_, ?_, ?_⟩ <;> decide

/-! ## The source list of the loader -/

theorem failed_polls_succ (path : Bytes) (k : Nat) :
    failed_polls path (k + 1) =
      LoadEvent.access path :: LoadEvent.usleep 1000 :: failed_polls path k := by
  simp [failed_polls, List.replicate_succ]

/-- The wait loop when the poll number `k` is the first that succeeds. -/
theorem kvdb_load_wait_success (acc : Nat → Bool) (path : Bytes) :
    ∀ (r i k : Nat), k ≤ r → (∀ j < k, acc (i + j) = false) → acc (i + k) = true →
      kvdb_load_wait acc path r i =
        (((r - k : Nat) : Int), failed_polls path k ++ [LoadEvent.access path]) := by
  intro r
  induction r with
  | zero =>
    intro i k hk _ hs
    have hk0 : k = 0 := by omega
    subst hk0
    simp only [Nat.add_zero] at hs
    simp [kvdb_load_wait, hs, failed_polls]
  | succ r ih =>
    intro i k hk hf hs
    cases k with
    | zero =>
      simp only [Nat.add_zero] at hs
      simp [kvdb_load_wait, hs, failed_polls]
    | succ k =>
      have h0 : acc i = false := by simpa using hf 0 (by omega)
      have hrec := ih (i + 1) k (by omega)
        (fun j hj => by
          have := hf (j + 1) (by omega)
          rwa [show i + (j + 1) = i + 1 + j by omega] at this)
        (by rwa [show i + (k + 1) = i + 1 + k by omega] at hs)
      unfold kvdb_load_wait
      rw [if_neg (by simp [h0]), hrec, failed_polls_succ]
      simp

/-- The wait loop when no poll succeeds. -/
theorem kvdb_load_wait_never (acc : Nat → Bool) (path : Bytes) :
    ∀ (r i : Nat), (∀ j ≤ r, acc (i + j) = false) →
      kvdb_load_wait acc path r i = (-1, failed_polls path r ++ [LoadEvent.access path]) := by
  intro r
  induction r with
  | zero =>
    intro i hf
    have h0 : acc i = false := by simpa using hf 0 (le_refl 0)
    simp [kvdb_load_wait, h0, failed_polls]
  | succ r ih =>
    intro i hf
    have h0 : acc i = false := by simpa using hf 0 (by omega)
    have hrec := ih (i + 1) (fun j hj => by
      have := hf (j + 1) (by omega)
      rwa [show i + (j + 1) = i + 1 + j by omega] at this)
    unfold kvdb_load_wait
    rw [if_neg (by simp [h0]), hrec, failed_polls_succ]
    simp

/-- The wait loop makes at most `r + 1` polls and sleeps at most `r` times. -/
theorem kvdb_load_wait_bound (acc : Nat → Bool) (path : Bytes) :
    ∀ (r i : Nat),
      ((kvdb_load_wait acc path r i).2.filter LoadEvent.isAccess).length ≤ r + 1 ∧
      ((kvdb_load_wait acc path r i).2.filter LoadEvent.isUsleep).length ≤ r := by
  intro r
  induction r with
  | zero =>
    intro i
    unfold kvdb_load_wait
    by_cases h : acc i = true
    · rw [if_pos h]; simp [LoadEvent.isAccess, LoadEvent.isUsleep]
    · rw [if_neg h]; simp [LoadEvent.isAccess, LoadEvent.isUsleep]
  | succ r ih =>
    intro i
    unfold kvdb_load_wait
    by_cases h : acc i = true
    · rw [if_pos h]; simp [LoadEvent.isAccess, LoadEvent.isUsleep]
    · rw [if_neg h]
      have := ih (i + 1)
      simp only [List.filter_cons, LoadEvent.isAccess, LoadEvent.isUsleep, if_true,
        List.length_cons]
      simp only [Bool.false_eq_true, if_false, List.length_cons]
      omega

theorem fopen_paths_append (a b : List LoadEvent) :
    fopen_paths (a ++ b) = fopen_paths a ++ fopen_paths b := by
  induction a with
  | nil => rfl
  | cons e t ih => cases e <;> simp [fopen_paths, ih]

theorem fopen_paths_wait (acc : Nat → Bool) (path : Bytes) :
    ∀ (r i : Nat), fopen_paths (kvdb_load_wait acc path r i).2 = [] := by
  intro r
  induction r with
  | zero =>
    intro i
    unfold kvdb_load_wait
    by_cases h : acc i = true
    · rw [if_pos h]; rfl
    · rw [if_neg h]; rfl
  | succ r ih =>
    intro i
    unfold kvdb_load_wait
    by_cases h : acc i = true
    · rw [if_pos h]; rfl
    · rw [if_neg h]
      simp [fopen_paths, ih (i + 1)]

theorem fopen_paths_access (acc : Nat → Bool) (path : Bytes) (retry : Int) :
    fopen_paths (kvdb_load_access acc path retry).2 = [] := by
  unfold kvdb_load_access
  by_cases h : retry < 0
  · rw [if_pos h]
    by_cases h2 : acc 0 = true
    · rw [if_pos h2]; rfl
    · rw [if_neg h2]; rfl
  · rw [if_neg h]
    exact fopen_paths_wait acc path _ _

theorem fopen_paths_call (l : List Event) : fopen_paths (l.map LoadEvent.call) = [] := by
  induction l with
  | nil => rfl
  | cons e t ih => simp [fopen_paths, ih]

/-- Every path of the list is handed to `fopen`, in order, whatever the polls
and the earlier `fopen` calls returned. -/
theorem fopen_paths_sources {σ : Type} (B : Backend σ) (env : LoadEnv) (force : Bool) :
    ∀ (paths : List Bytes) (st : σ) (retry : Int),
      fopen_paths (kvdb_load_sources B env force st retry paths).2 = paths := by
  intro paths
  induction paths with
  | nil => intro st retry; rfl
  | cons p rest ih =>
    intro st retry
    unfold kvdb_load_sources
    cases hf : env.fopen p with
    | none =>
      simp only [fopen_paths_append, fopen_paths_access, ih, fopen_paths, List.nil_append,
        List.cons_append]
    | some f =>
      simp only [fopen_paths_append, fopen_paths_access, fopen_paths_call, ih, fopen_paths,
        List.nil_append, List.cons_append, List.append_nil]

theorem kvdb_load_paths_segment (pm : Nat) (src : Bytes) :
    ∀ (p cur : Bytes), (∀ c ∈ p, c ≠ 59) →
      kvdb_load_paths pm cur (p ++ src) = kvdb_load_paths pm (cur ++ p) src := by
  intro p
  induction p with
  | nil => intro cur _; simp
  | cons c cs ih =>
    intro cur h
    have hc : c ≠ 59 := h c (List.mem_cons_self c cs)
    rw [List.cons_append, kvdb_load_paths, if_neg hc,
      ih (cur ++ [c]) (fun d hd => h d (List.mem_cons_of_mem c hd))]
    simp

theorem kvdb_load_paths_src_list (pm : Nat) :
    ∀ ps : List Bytes, (∀ p ∈ ps, valid_path pm p) →
      kvdb_load_paths pm [] (src_list ps) = ps := by
  intro ps
  induction ps with
  | nil => intro _; rfl
  | cons p t ih =>
    intro h
    have hp := h p (List.mem_cons_self p t)
    have hseg := fun src =>
      kvdb_load_paths_segment pm src p [] (fun c hc => (hp.2.2 c hc).2)
    cases t with
    | nil =>
      have := hseg []
      simp only [List.append_nil, List.nil_append] at this
      simp only [src_list, this, kvdb_load_paths]
      rw [if_neg hp.1]
    | cons q t2 =>
      have ht := ih (fun x hx => h x (List.mem_cons_of_mem p hx))
      simp only [src_list] at ht ⊢
      rw [hseg, List.nil_append, kvdb_load_paths, if_pos rfl, ht,
        List.take_of_length_le (by have := hp.2.1; omega)]

theorem src_list_no_nul (pm : Nat) :
    ∀ ps : List Bytes, (∀ p ∈ ps, valid_path pm p) → ∀ c ∈ src_list ps, c ≠ 0 := by
  intro ps
  induction ps with
  | nil => intro _ c hc; exact absurd hc (List.not_mem_nil c)
  | cons p t ih =>
    intro h c hc
    have hp := h p (List.mem_cons_self p t)
    cases t with
    | nil => exact (hp.2.2 c hc).1
    | cons q t2 =>
      simp only [src_list] at hc ih
      rcases List.mem_append.mp hc with h1 | h1
      · exact (hp.2.2 c h1).1
      · rcases List.mem_cons.mp h1 with h2 | h2
        · rw [h2]; decide
        · exact ih (fun x hx => h x (List.mem_cons_of_mem p hx)) c h2

/-- C21 (as amended): `kvdb_load` hands the paths of the semicolon-separated
source list to `fopen` in order, every one of them, whatever the polls and
the earlier `fopen` calls returned; a path that cannot be opened leaves the
store as it is and the next one is processed.  For the first path, before it
tries to open it, it polls `access` at most 21 times and sleeps 1 ms at most
20 times: when poll number `k` (from 0, at most 20) is the first that
succeeds it makes `k` failed polls, each followed by a sleep, and that poll;
when none succeeds it makes 20 failed polls, each followed by a sleep, and
one more. -/
theorem C21_source_list {σ : Type} (B : Backend σ) (env : LoadEnv) (force : Bool) (st : σ)
    (ps : List Bytes) (acc : Nat → Bool) (path : Bytes) :
    (env.malloc_buf_ok = true → env.malloc_tmpb_ok = true →
      (∀ p ∈ ps, valid_path env.PATH_MAX p) →
      fopen_paths (kvdb_load B env force st (src_list ps ++ [0])).2.2 = ps) ∧
    (∀ (p : Bytes) (rest : List Bytes), ∃ t,
      (kvdb_load_sources B env force st 20 (p :: rest)).2 =
        (kvdb_load_access (env.access p) p 20).2 ++ LoadEvent.fopen p :: t) ∧
    (∀ (p : Bytes) (rest : List Bytes) (retry : Int), env.fopen p = none →
      (kvdb_load_sources B env force st retry (p :: rest)).1 =
        (kvdb_load_sources B env force st (kvdb_load_access (env.access p) p retry).1 rest).1) ∧
    ((kvdb_load_access acc path 20).2.filter LoadEvent.isAccess).length ≤ 21 ∧
    ((kvdb_load_access acc path 20).2.filter LoadEvent.isUsleep).length ≤ 20 ∧
    (∀ k, k ≤ 20 → (∀ j < k, acc j = false) → acc k = true →
      (kvdb_load_access acc path 20).2 = failed_polls path k ++ [LoadEvent.access path]) ∧
    ((∀ j ≤ 20, acc j = false) →
      (kvdb_load_access acc path 20).2 = failed_polls path 20 ++ [LoadEvent.access path]) := by
  have hacc : kvdb_load_access acc path 20 = kvdb_load_wait acc path 20 0 := by
    unfold kvdb_load_access
    rw [if_neg (by decide)]
    rfl
  refine ⟨?_, ?_, ?_, ?_, ?_, ?_, ?_⟩
  · intro h1 h2 hps
    unfold kvdb_load
    rw [if_neg (by simp [h1]), if_neg (by simp [h2]),
      cstr_append_nul (src_list ps) [] (src_list_no_nul env.PATH_MAX ps hps),
      kvdb_load_paths_src_list env.PATH_MAX ps hps]
    simp only [fopen_paths_append, fopen_paths_sources]
    simp [fopen_paths]
  · intro p rest
    unfold kvdb_load_sources
    cases env.fopen p with
    | none =>
      exact ⟨(kvdb_load_sources B env force st (kvdb_load_access (env.access p) p 20).1 rest).2,
        by simp⟩
    | some f =>
      exact ⟨List.map LoadEvent.call (kvdb_load_file B force st f).2 ++
        (kvdb_load_sources B env force (kvdb_load_file B force st f).1
          (kvdb_load_access (env.access p) p 20).1 rest).2, by simp⟩
  · intro p rest retry hf
    rw [kvdb_load_sources]
    simp only [hf]
  · rw [hacc]; exact (kvdb_load_wait_bound acc path 20 0).1
  · rw [hacc]; exact (kvdb_load_wait_bound acc path 20 0).2
  · intro k hk hf hs
    rw [hacc, kvdb_load_wait_success acc path 20 0 k hk
      (fun j hj => by rw [Nat.zero_add]; exact hf j hj) (by rw [Nat.zero_add]; exact hs)]
  · intro hf
    rw [hacc, kvdb_load_wait_never acc path 20 0
      (fun j hj => by rw [Nat.zero_add]; exact hf j hj)]

/-- Witness for C21: the source list `a;b` on a file system where nothing can
be opened. -/
theorem C21_source_list_witness :
    fopen_paths (kvdb_load (unqliteBackend ⟨true, true, true⟩ (fun _ => 0)) env_unmounted true
      ⟨[], []⟩ (src_list [[97], [98]] ++ [0])).2.2 = [[97], [98]] :=
  (C21_source_list (unqliteBackend ⟨true, true, true⟩ (fun _ => 0)) env_unmounted true ⟨[], []⟩
    [[97], [98]] (fun _ => false) [97]).1 rfl rfl (by decide)

/-- C21 (counterexample to the claim as stated): for the one path `a`, never
accessible, `access` is polled 21 times, not 20.  The path `b`, accessible
from the second poll on, is waited for when it stands alone; after the path
`a` it is polled once and handed to `fopen` at once: the number of polls left
is shared by the paths. -/
theorem C21_counterexample :
    (kvdb_load (unqliteBackend ⟨true, true, true⟩ (fun _ => 0)) env_unmounted true ⟨[], []⟩
      [97, 0]).2.2 =
        failed_polls [97] 20 ++
          [LoadEvent.access [97], LoadEvent.fopen [97], LoadEvent.kvdb_commit] ∧
    ((kvdb_load (unqliteBackend ⟨true, true, true⟩ (fun _ => 0)) env_unmounted true ⟨[], []⟩
      [97, 0]).2.2.filter LoadEvent.isAccess).length = 21 ∧
    (kvdb_load (unqliteBackend ⟨true, true, true⟩ (fun _ => 0)) env_unmounted true ⟨[], []⟩
      [98, 0]).2.2 =
        [LoadEvent.access [98], LoadEvent.usleep 1000, LoadEvent.access [98],
          LoadEvent.fopen [98], LoadEvent.kvdb_commit] ∧
    (kvdb_load (unqliteBackend ⟨true, true, true⟩ (fun _ => 0)) env_unmounted true ⟨[], []⟩
      [97, 59, 98, 0]).2.2 =
        failed_polls [97] 20 ++
          [LoadEvent.access [97], LoadEvent.fopen [97], LoadEvent.access [98],
            LoadEvent.fopen [98], LoadEvent.kvdb_commit] := by
  decide

/-! ## The commit request -/

theorem int32_bytes_length (e : Int) : (int32_bytes e).length = 4 := rfl

/-- The handler on the one-byte frame `C`. -/
theorem kvdb_client_C_frame {σ : Type} (cfg : Config) (B : Backend σ) (env : ServerEnv σ)
    (server : kvdb_server σ) (fd : Nat) (hm : env.malloc_ok = true) :
    kvdb_client cfg B env server fd [RecvResult.data [67]] =
      ⟨false, server, [Event.send fd (int32_bytes (B.kvdb_commit server.kvdb)), Event.close fd]⟩
      := by
  rw [kvdb_client_whole cfg B env server fd [67] hm (by decide) (by decide)]
  unfold kvdb_client_switch
  rw [if_neg (by simp), if_neg (by simp), if_neg (by simp), if_neg (by simp), if_pos (by simp)]
  rfl

/-- C22: `kvdb_commit` of the unqlite backend calls `unqlite_commit` on every
namespace handle, in order, whatever the earlier calls returned; it returns 0
when no call returns a negative value and otherwise the first negative
result.  The C handler of the server replies with that status as four bytes
and changes nothing, so when the commits of the engine succeed a C request,
and a second one on the state the first leaves, are both answered with 0. -/
theorem C22_commit (cfg : Config) (commit : Nat → Int) (env : ServerEnv kvdb)
    (server : kvdb_server kvdb) (fd fd2 : Nat) :
    (UnqliteBackend.kvdb_commit_run cfg commit).2 = List.range (KVDB_COUNT cfg) ∧
    (UnqliteBackend.kvdb_commit_run cfg commit).1 = UnqliteBackend.kvdb_commit cfg commit ∧
    ((∀ i < KVDB_COUNT cfg, 0 ≤ commit i) → UnqliteBackend.kvdb_commit cfg commit = 0) ∧
    (∀ i < KVDB_COUNT cfg, commit i < 0 → (∀ j < i, 0 ≤ commit j) →
      UnqliteBackend.kvdb_commit cfg commit = commit i) ∧
    (env.malloc_ok = true →
      kvdb_client cfg (unqliteBackend cfg commit) env server fd [RecvResult.data [67]] =
        ⟨false, server,
          [Event.send fd (int32_bytes (UnqliteBackend.kvdb_commit cfg commit)), Event.close fd]⟩ ∧
      (int32_bytes (UnqliteBackend.kvdb_commit cfg commit)).length = 4) ∧
    (env.malloc_ok = true → (∀ i < KVDB_COUNT cfg, 0 ≤ commit i) →
      (kvdb_client cfg (unqliteBackend cfg commit) env server fd [RecvResult.data [67]]).trace
        = [Event.send fd (int32_bytes 0), Event.close fd] ∧
      (kvdb_client cfg (unqliteBackend cfg commit) env
        (kvdb_client cfg (unqliteBackend cfg commit) env server fd
          [RecvResult.data [67]]).server fd2 [RecvResult.data [67]]).trace
        = [Event.send fd2 (int32_bytes 0), Event.close fd2]) := by
  have hzero : (∀ i < KVDB_COUNT cfg, 0 ≤ commit i) →
      UnqliteBackend.kvdb_commit cfg commit = 0 := by
    intro h
    unfold UnqliteBackend.kvdb_commit
    by_cases ht : cfg.TEMPORARY_STORAGE = true
    · have h0 := h 0 (by simp [KVDB_COUNT, ht])
      have h1 := h 1 (by simp [KVDB_COUNT, ht])
      simp [KVDB_COUNT, ht, List.range_succ, not_lt.mpr h0, not_lt.mpr h1]
    · have h0 := h 0 (by simp [KVDB_COUNT, ht])
      simp [KVDB_COUNT, ht, List.range_succ, not_lt.mpr h0]
  refine ⟨?_, ?_, hzero, ?_, ?_, ?_⟩
  · unfold UnqliteBackend.kvdb_commit_run
    by_cases ht : cfg.TEMPORARY_STORAGE = true <;> simp [KVDB_COUNT, ht, List.range_succ]
  · unfold UnqliteBackend.kvdb_commit_run UnqliteBackend.kvdb_commit
    by_cases ht : cfg.TEMPORARY_STORAGE = true <;> simp [KVDB_COUNT, ht, List.range_succ]
  · intro i hi hneg hbefore
    unfold UnqliteBackend.kvdb_commit
    by_cases ht : cfg.TEMPORARY_STORAGE = true
    · have hi2 : i = 0 ∨ i = 1 := by
        simp [KVDB_COUNT, ht] at hi; omega
      rcases hi2 with h | h
      · subst h
        have hne : commit 0 ≠ 0 := by omega
        simp [KVDB_COUNT, ht, List.range_succ, hneg, hne]
      · subst h
        have h0 := hbefore 0 (by decide)
        simp [KVDB_COUNT, ht, List.range_succ, hneg, not_lt.mpr h0]
    · have hi2 : i = 0 := by
        simp [KVDB_COUNT, ht] at hi; omega
      subst hi2
      simp [KVDB_COUNT, ht, List.range_succ, hneg]
  · intro hm
    exact ⟨kvdb_client_C_frame cfg _ env server fd hm, rfl⟩
  · intro hm hok
    rw [kvdb_client_C_frame cfg _ env server fd hm, kvdb_client_C_frame cfg _ env server fd2 hm]
    simp only [unqliteBackend, hzero hok]
    exact ⟨trivial, trivial⟩

/-- Witness for C22: two namespaces whose commits return 0. -/
theorem C22_commit_witness :
    (kvdb_client ⟨true, true, true⟩ (unqliteBackend ⟨true, true, true⟩ (fun _ => 0))
      (env_ok kvdb)
      (kvdb_client ⟨true, true, true⟩ (unqliteBackend ⟨true, true, true⟩ (fun _ => 0))
        (env_ok kvdb) server_two 5 [RecvResult.data [67]]).server 6
      [RecvResult.data [67]]).trace
      = [Event.send 6 (int32_bytes 0), Event.close 6] :=
  ((C22_commit ⟨true, true, true⟩ (fun _ => 0) (env_ok kvdb) server_two 5 6).2.2.2.2.2 rfl
    (fun _ _ => le_refl 0)).2

/-! ## Reading a notification -/

/-- A first `recv` of two bytes on a stream whose first result holds at least
two bytes. -/
theorem recv_two (first : Bytes) (more : Sock) (h : 2 ≤ first.length) (hok : sock_ok more) :
    ∃ rest, recv (RecvResult.data first :: more) 2 = (2, first.take 2, rest) ∧
      sock_ok rest ∧ sock_bytes rest = (first ++ sock_bytes more).drop 2 := by
  by_cases h2 : first.length ≤ 2
  · have hl : first.length = 2 := by omega
    refine ⟨more, ?_, hok, ?_⟩
    · simp [recv, h2, hl, List.take_of_length_le h2]
    · rw [List.drop_append_of_le_length (by omega), List.drop_of_length_le (by omega)]
      rfl
  · refine ⟨RecvResult.data (first.drop 2) :: more, ?_, ?_, ?_⟩
    · simp [recv, h2]
    · intro r hr
      rcases List.mem_cons.mp hr with h3 | h3
      · rw [h3]
        simp only [RecvResult.hasData]
        simp
        omega
      · exact hok r h3
    · rw [List.drop_append_of_le_length (by omega)]
      rfl

/-- The reader on a stream that starts with the frame
`klen vlen key NUL value`, when the first `recv` result holds at least the two
length bytes. -/
theorem property_monitor_read_frame (env : ClientEnv) (name val first extra : Bytes)
    (more : Sock) (cap : Nat) (hasKey hasValue : Bool)
    (hm : env.malloc_ok = true) (hname : ∀ c ∈ name, c ≠ 0) (hnl : name.length ≤ 126)
    (hvl : val.length ≤ 255) (hfirst : 2 ≤ first.length) (hok : sock_ok more)
    (hbytes : first ++ sock_bytes more =
      (name.length + 1) :: val.length :: (name ++ 0 :: (val ++ extra))) :
    property_monitor_read env (RecvResult.data first :: more) hasKey hasValue cap =
      ((if hasValue then ((min cap val.length : Nat) : Int) else (val.length : Int)),
        (if hasKey then name ++ [0] else []),
        (if hasValue then val.take (min cap val.length) else [])) := by
  obtain ⟨rest, hrecv, hokr, hbr⟩ := recv_two first more hfirst hok
  have hhdr : first.take 2 = [name.length + 1, val.length] := by
    have h1 : (first ++ sock_bytes more).take 2 = first.take 2 :=
      List.take_append_of_le_length hfirst
    rw [hbytes] at h1
    rw [← h1]
    rfl
  have hrestb : sock_bytes rest = name ++ 0 :: (val ++ extra) := by
    rw [hbr, hbytes]
    rfl
  have hmsg : buf_write env.heap 0 [name.length + 1, val.length]
      = (name.length + 1) :: val.length :: env.heap.drop 2 := by
    rw [buf_write_zero]
    rfl
  have hbody : (sock_bytes rest).take (name.length + 1 + val.length + 2 - 2)
      = name ++ 0 :: val := by
    rw [hrestb, show name ++ 0 :: (val ++ extra) = (name ++ 0 :: val) ++ extra by simp,
      List.take_append_of_le_length (by simp; omega), List.take_of_length_le (by simp; omega)]
  obtain ⟨rest2, hsafe, _, _⟩ := recv_safe_chunks env.errno rest
    ((name.length + 1) :: val.length :: env.heap.drop 2) 2 (name.length + 1 + val.length + 2)
    hokr (by omega) (by simp) (by rw [hrestb]; simp; omega)
  rw [hbody, buf_write_two] at hsafe
  obtain ⟨junk, hj⟩ : ∃ j, j = (env.heap.drop 2).drop (name ++ 0 :: val).length := ⟨_, rfl⟩
  rw [← hj] at hsafe
  have hkl : (name.length + 1) % 256 = name.length + 1 := Nat.mod_eq_of_lt (by omega)
  have hvl2 : val.length % 256 = val.length := Nat.mod_eq_of_lt (by omega)
  have hkey : strlcpy (name ++ 0 :: val ++ junk) PROP_NAME_MAX = name ++ [0] := by
    unfold strlcpy
    rw [if_neg (by decide), show name ++ 0 :: val ++ junk = name ++ 0 :: (val ++ junk) by simp,
      cstr_append_nul name _ hname, List.take_of_length_le (by unfold PROP_NAME_MAX; omega)]
  have hval : ∀ n, n ≤ val.length →
      (List.drop (2 + (name.length + 1))
        ((name.length + 1) :: val.length :: (name ++ 0 :: val ++ junk))).take n = val.take n := by
    intro n hn
    have : List.drop (2 + (name.length + 1))
        ((name.length + 1) :: val.length :: (name ++ 0 :: val ++ junk)) = val ++ junk := by
      rw [show 2 + (name.length + 1) = (name.length + 1) + 2 by omega]
      simp only [List.drop_succ_cons]
      rw [show name ++ 0 :: val ++ junk = (name ++ [0]) ++ (val ++ junk) by simp,
        List.drop_append_of_le_length (by simp), List.drop_of_length_le (by simp)]
      rfl
    rw [this, List.take_append_of_le_length hn]
  unfold property_monitor_read
  rw [if_neg (by simp [hm]), hrecv]
  simp only [hhdr, hmsg, List.getD_cons_zero, List.getD_cons_succ, hkl, hvl2]
  rw [if_neg (by decide), if_neg (by unfold PROP_NAME_MAX; omega),
    if_neg (by unfold PROP_VALUE_MAX; omega)]
  simp only [show ((2 : Int)).toNat = 2 from rfl, hsafe]
  rw [if_neg (by omega)]
  simp only [List.drop_succ_cons, List.drop_zero, hkey]
  cases hasValue with
  | false => simp
  | true =>
    simp only [if_true]
    by_cases hc : cap > val.length
    · rw [if_pos hc, hval val.length (le_refl _), show min cap val.length = val.length by omega]
    · rw [if_neg hc, hval cap (by omega), show min cap val.length = cap by omega]

/-- The frame of a change of a key that is a C string of at most 126 bytes. -/
theorem notify_frame_shape (name rest : Bytes) (value : Option Bytes) (vlen : Nat)
    (hname : ∀ c ∈ name, c ≠ 0) (hnl : name.length ≤ 126) (hvl : vlen ≤ 254) :
    notify_frame (name ++ 0 :: rest) value vlen =
      (name.length + 1) :: vlen ::
        (name ++ 0 :: (match value with
          | some v => v.take vlen
          | none => [])) := by
  unfold notify_frame
  simp only [strlen_append_nul name rest hname, take_key_with_nul,
    Nat.mod_eq_of_lt (show name.length + 1 < 256 by omega),
    Nat.mod_eq_of_lt (show vlen < 256 by omega)]
  simp

/-- C23: for a key that is a C string of at most 126 bytes and a value length
of at most 254 bytes not above the value region, on a stream that starts with
the frame `kvdb_monitor_notify` writes, the first `recv` result holding at
least the two length bytes and the rest arriving in any pieces:
`property_monitor_read` with non-null `newkey` and `newvalue` and a capacity
`val_len` stores the key with its NUL in `newkey`, stores the first
`min(val_len, vlen)` bytes of the value in `newvalue` and returns that count;
for the frame of a deletion it stores the key and returns 0.  Both frames are
at most PROP_MSG_MAX bytes long. -/
theorem C23_monitor_read (env : ClientEnv) (name rest v first extra : Bytes) (more : Sock)
    (vlen cap : Nat) (hm : env.malloc_ok = true) (hname : ∀ c ∈ name, c ≠ 0)
    (hnl : name.length ≤ 126) (hvl : vlen ≤ 254) (hv : vlen ≤ v.length)
    (hfirst : 2 ≤ first.length) (hok : sock_ok more) :
    (first ++ sock_bytes more = notify_frame (name ++ 0 :: rest) (some v) vlen ++ extra →
      property_monitor_read env (RecvResult.data first :: more) true true cap =
        (((min cap vlen : Nat) : Int), name ++ [0], v.take (min cap vlen))) ∧
    (first ++ sock_bytes more = notify_frame (name ++ 0 :: rest) none 0 ++ extra →
      property_monitor_read env (RecvResult.data first :: more) true true cap =
        (0, name ++ [0], [])) ∧
    (notify_frame (name ++ 0 :: rest) (some v) vlen).length ≤ PROP_MSG_MAX ∧
    (notify_frame (name ++ 0 :: rest) none 0).length ≤ PROP_MSG_MAX := by
  have hlen : (v.take vlen).length = vlen := by simp [List.length_take, hv]
  have hs1 := notify_frame_shape name rest (some v) vlen hname hnl hvl
  have hs2 := notify_frame_shape name rest none 0 hname hnl (by omega)
  simp only at hs1 hs2
  refine ⟨?_, ?_, ?_, ?_⟩
  · intro hb
    have h := property_monitor_read_frame env name (v.take vlen) first extra more cap true true
      hm hname hnl (by rw [hlen]; omega) hfirst hok
      (by rw [hb, hs1, hlen]; simp)
    rw [h, hlen]
    simp only [if_true]
    rw [List.take_take, show min (min cap vlen) vlen = min cap vlen by omega]
  · intro hb
    have h := property_monitor_read_frame env name [] first extra more cap true true
      hm hname hnl (by simp) hfirst hok
      (by rw [hb, hs2]; simp)
    rw [h]
    simp
  · rw [hs1]
    simp only [List.length_cons, List.length_append, hlen]
    unfold PROP_MSG_MAX PROP_NAME_MAX PROP_VALUE_MAX
    omega
  · rw [hs2]
    simp only [List.length_cons, List.length_append, List.length_nil]
    unfold PROP_MSG_MAX PROP_NAME_MAX PROP_VALUE_MAX
    omega

/-- Witness for C23: the frame of the change of `persist.net.ip` to `1.2.3.4`,
delivered in two pieces, read with a capacity of 255 bytes. -/
theorem C23_monitor_read_witness :
    property_monitor_read cenv_ok
        (RecvResult.data [15, 8, 112] ::
          [RecvResult.data ((name_persist_net_ip ++ 0 :: value_1234).drop 1)]) true true 255 =
      (((min 255 8 : Nat) : Int), name_persist_net_ip ++ [0], value_1234.take (min 255 8)) :=
  (C23_monitor_read cenv_ok name_persist_net_ip [] value_1234 [15, 8, 112] []
    [RecvResult.data ((name_persist_net_ip ++ 0 :: value_1234).drop 1)] 8 255 rfl
    (by decide) (by decide) (by decide) (by decide) (by decide) (by decide)).1 (by decide)

/-! ## The existence check of `property_get` -/

/-- With a NULL `value`, a key that is not in the environment and a positive
result of `property_get_binary`, `property_get` stores through the NULL
pointer, whatever `default_value`. -/
theorem property_get_null_store (env : ClientEnv) (getenv : Bytes → Option Bytes) (k : Bytes)
    (default_value : Option Bytes) (henv : getenv (cstr k) = none)
    (hpos : 0 < (property_get_binary env (some k) false PROP_VALUE_MAX).1) :
    property_get env getenv (some k) false default_value =
      GetOutcome.null_store (property_get_binary env (some k) false PROP_VALUE_MAX).1 := by
  unfold property_get
  simp only [Option.bind, henv]
  rw [if_neg (by omega)]
  rfl

/-- C24 (evaluation at the failing input): the store holds the key `a` with the
value `v` and its NUL, so the server answers the G request of the client with
these two bytes; `property_get_binary` with a NULL `value` reads one of them
and returns 1; `property_get` with a NULL `value` then executes
`*(value + ret) = 0`, a store through the NULL pointer at offset 1, whether
`default_value` is NULL or not, and `__system_property_find` makes that
call.  For a key that does not exist the same calls return `-EINVAL`, or the
length of `default_value`. -/
theorem C24_property_get_null_value :
    (kvdb_client ⟨true, true, true⟩ (unqliteBackend ⟨true, true, true⟩ (fun _ => 0))
      (env_ok kvdb) ⟨⟨[], [([97, 0], [118, 0])]⟩, []⟩ 5
      [RecvResult.data [71, 2, 255, 97, 0]]).trace.drop 1
      = [Event.send 5 [118, 0], Event.close 5] ∧
    (property_get_binary cenv_value (some [97, 0]) false PROP_VALUE_MAX).1 = 1 ∧
    property_get cenv_value (fun _ => none) (some [97, 0]) false none
      = GetOutcome.null_store 1 ∧
    property_get cenv_value (fun _ => none) (some [97, 0]) false (some [100, 0])
      = GetOutcome.null_store 1 ∧
    __system_property_find cenv_value (fun _ => none) (some [97, 0]) = none ∧
    property_get cenv_absent (fun _ => none) (some [97, 0]) false none
      = GetOutcome.returned (-EINVAL) [] ∧
    property_get cenv_absent (fun _ => none) (some [97, 0]) false (some [100, 0])
      = GetOutcome.returned 1 [] := by
  decide

/-! ## Byte buffers as hexadecimal text -/

theorem nibble2ascii_digit : ∀ n < 16, nibble2ascii n = hex_digits.getD n 0 := by
  decide

theorem ascii2nibble_nibble2ascii : ∀ n < 16, ascii2nibble (nibble2ascii n) = (n : Int) := by
  decide

theorem nibble2ascii_ne_zero : ∀ n < 16, nibble2ascii n ≠ 0 := by
  decide

theorem byte_of_nibbles : ∀ x < 256, (x / 16 * 16 % 256) ||| (x % 16) = x := by
  decide

theorem property_set_buffer_loop_hex :
    ∀ b : Bytes, (∀ x ∈ b, x < 256) → property_set_buffer_loop b.length b = hex_encoding b := by
  intro b
  induction b with
  | nil => intro _; rfl
  | cons x t ih =>
    intro h
    have hx : x < 256 := h x (List.mem_cons_self x t)
    simp only [List.length_cons, property_set_buffer_loop, hex_encoding, List.headD_cons,
      List.tail_cons, Nat.mod_eq_of_lt hx]
    rw [nibble2ascii_digit (x / 16) (by omega), nibble2ascii_digit (x % 16) (by omega),
      ih (fun y hy => h y (List.mem_cons_of_mem x hy))]

theorem hex_encoding_length (b : Bytes) : (hex_encoding b).length = 2 * b.length := by
  induction b with
  | nil => rfl
  | cons x t ih => simp only [hex_encoding, List.length_cons, ih]; omega

/-- The decoding loop on the encoding of `b`, when the buffer has room. -/
theorem property_get_buffer_loop_hex (size : Nat) (rest : Bytes) :
    ∀ (b : Bytes) (j : Nat) (out : Bytes), (∀ x ∈ b, x < 256) → j + b.length ≤ size →
      property_get_buffer_loop (2 * size) (hex_encoding b ++ 0 :: rest) (2 * j) out =
        (((j + b.length : Nat) : Int), out ++ b) := by
  intro b
  induction b with
  | nil =>
    intro j out _ _
    have hj : 2 * j / 2 = j := by omega
    cases rest with
    | nil => simp [hex_encoding, property_get_buffer_loop, hj]
    | cons r rs => simp [hex_encoding, property_get_buffer_loop, hj]
  | cons x t ih =>
    intro j out h hlen
    have hx : x < 256 := h x (List.mem_cons_self x t)
    have h1 := nibble2ascii_digit (x / 16) (by omega)
    have h2 := nibble2ascii_digit (x % 16) (by omega)
    have a1 := ascii2nibble_nibble2ascii (x / 16) (by omega)
    have a2 := ascii2nibble_nibble2ascii (x % 16) (by omega)
    have n1 := nibble2ascii_ne_zero (x / 16) (by omega)
    rw [h1] at a1 n1
    rw [h2] at a2
    simp only [List.length_cons] at hlen
    simp only [hex_encoding, List.cons_append, property_get_buffer_loop]
    rw [if_neg n1, if_neg (by omega), a1, a2, if_neg (by omega), if_neg (by omega)]
    simp only [Int.toNat_ofNat, byte_of_nibbles x hx]
    have := ih (j + 1) (out ++ [x]) (fun y hy => h y (List.mem_cons_of_mem x hy)) (by omega)
    rw [show 2 * (j + 1) = 2 * j + 2 by omega] at this
    change property_get_buffer_loop (2 * size) (hex_encoding t ++ 0 :: rest) (2 * j + 2)
      (out ++ [x]) = _
    rw [this]
    simp only [List.length_cons, List.append_assoc, List.singleton_append]
    congr 2
    omega

/-- The decoding loop on the encoding of `b`, when the buffer is too small. -/
theorem property_get_buffer_loop_small (size : Nat) (rest : Bytes) :
    ∀ (b : Bytes) (j : Nat) (out : Bytes), (∀ x ∈ b, x < 256) → j ≤ size →
      size < j + b.length →
      (property_get_buffer_loop (2 * size) (hex_encoding b ++ 0 :: rest) (2 * j) out).1
        = -E2BIG := by
  intro b
  induction b with
  | nil =>
    intro j out _ h1 h2
    simp only [List.length_nil] at h2
    omega
  | cons x t ih =>
    intro j out h hj hlen
    have hx : x < 256 := h x (List.mem_cons_self x t)
    have h1 := nibble2ascii_digit (x / 16) (by omega)
    have h2 := nibble2ascii_digit (x % 16) (by omega)
    have a1 := ascii2nibble_nibble2ascii (x / 16) (by omega)
    have a2 := ascii2nibble_nibble2ascii (x % 16) (by omega)
    have n1 := nibble2ascii_ne_zero (x / 16) (by omega)
    rw [h1] at a1 n1
    rw [h2] at a2
    simp only [List.length_cons] at hlen
    simp only [hex_encoding, List.cons_append, property_get_buffer_loop]
    rw [if_neg n1]
    by_cases hfull : 2 * j ≥ 2 * size
    · rw [if_pos hfull]
    · rw [if_neg hfull, a1, a2, if_neg (by omega), if_neg (by omega)]
      have := ih (j + 1) (out ++ [(((x / 16 : Nat) : Int).toNat * 16 % 256) |||
        ((x % 16 : Nat) : Int).toNat]) (fun y hy => h y (List.mem_cons_of_mem x hy))
        (by omega) (by omega)
      rw [show 2 * (j + 1) = 2 * j + 2 by omega] at this
      exact this

theorem ascii2nibble_not_xdigit (c : Nat) (h : isxdigit c = false) : ascii2nibble c < 0 := by
  have hd : isdigit c = false := by
    simp only [isxdigit, isdigit, decide_eq_false_iff_not] at h ⊢
    omega
  unfold ascii2nibble
  rw [hd, h]
  simp [ERANGE]

/-- The decoding loop on a text with a character that is not a hexadecimal
digit, or with an odd number of characters. -/
theorem property_get_buffer_loop_bad (bs : Nat) (rest : Bytes) :
    ∀ (n : Nat) (t : Bytes) (i : Nat) (out : Bytes), t.length ≤ n → (∀ c ∈ t, c ≠ 0) →
      ((∃ c ∈ t, isxdigit c = false) ∨ t.length % 2 = 1) →
      (property_get_buffer_loop bs (t ++ 0 :: rest) i out).1 < 0 := by
  intro n
  induction n using Nat.strong_induction_on with
  | _ n ih =>
    intro t i out hlen hnz hbad
    match t, hlen, hnz, hbad with
    | [], _, _, hbad =>
      rcases hbad with ⟨c, hc, _⟩ | h
      · exact absurd hc (List.not_mem_nil c)
      · simp at h
    | [c], _, hnz, _ =>
      have hc : c ≠ 0 := hnz c (List.mem_singleton.mpr rfl)
      simp only [List.singleton_append, property_get_buffer_loop]
      rw [if_neg hc]
      by_cases h1 : i ≥ bs
      · rw [if_pos h1]; exact (by decide : -E2BIG < 0)
      · rw [if_neg h1]
        by_cases h2 : ascii2nibble c < 0
        · rw [if_pos h2]; exact h2
        · rw [if_neg h2]
          exact (by decide : ascii2nibble 0 < 0)
    | c :: d :: t2, hlen, hnz, hbad =>
      have hc : c ≠ 0 := hnz c (List.mem_cons_self c _)
      simp only [List.cons_append, property_get_buffer_loop]
      rw [if_neg hc]
      by_cases h1 : i ≥ bs
      · rw [if_pos h1]; exact (by decide : -E2BIG < 0)
      · rw [if_neg h1]
        by_cases h2 : ascii2nibble c < 0
        · rw [if_pos h2]; exact h2
        · rw [if_neg h2]
          by_cases h3 : ascii2nibble d < 0
          · rw [if_pos h3]; exact h3
          · rw [if_neg h3]
            simp only [List.length_cons] at hlen
            apply ih (n - 2) (by omega) t2 (i + 2) _ (by omega)
              (fun x hx => hnz x (List.mem_cons_of_mem c (List.mem_cons_of_mem d hx)))
            rcases hbad with ⟨x, hx, hxd⟩ | hodd
            · rcases List.mem_cons.mp hx with hxc | hx2
              · rw [hxc] at hxd
                exact absurd (ascii2nibble_not_xdigit c hxd) h2
              · rcases List.mem_cons.mp hx2 with hxd2 | hx3
                · rw [hxd2] at hxd
                  exact absurd (ascii2nibble_not_xdigit d hxd) h3
                · exact Or.inl ⟨x, hx3, hxd⟩
            · right
              simp only [List.length_cons] at hodd
              omega

/-- C25: for every buffer `b` of `n` bytes with `2n + 1 < PROP_VALUE_MAX`,
the text `property_set_buffer_` hands to `property_set_` is the lowercase
hexadecimal encoding of `b`, `2n` characters with the high nibble first,
followed by its NUL.  The loop of `property_get_buffer` on that text, and
`property_get_buffer` itself when `property_get` reads that text, with a
buffer of `size ≥ n` bytes returns `n` and stores `b` byte for byte; with
`size < n` it returns `-E2BIG`; and on a text with a character that is not a
hexadecimal digit or with an odd number of characters it returns a negative
value. -/
theorem C25_hex_buffer (env : ClientEnv) (getenv : Bytes → Option Bytes) (setenv : Int)
    (key : Option Bytes) (oneway : Bool) (b rest text : Bytes) (size : Nat)
    (hb : ∀ x ∈ b, x < 256) (hn : 2 * b.length + 1 < PROP_VALUE_MAX) :
    property_set_buffer_ env getenv setenv key b b.length oneway =
      property_set_ env getenv setenv key (some (hex_encoding b ++ [0])) oneway ∧
    (hex_encoding b).length = 2 * b.length ∧
    (b.length ≤ size →
      property_get_buffer_loop (2 * size) (hex_encoding b ++ 0 :: rest) 0 [] =
        ((b.length : Int), b)) ∧
    (b.length ≤ size →
      property_get env getenv key true none =
        GetOutcome.returned (2 * b.length : Nat) (hex_encoding b ++ 0 :: rest) →
      property_get_buffer env getenv key size = ((b.length : Int), b)) ∧
    (size < b.length →
      (property_get_buffer_loop (2 * size) (hex_encoding b ++ 0 :: rest) 0 []).1 = -E2BIG) ∧
    ((∀ c ∈ text, c ≠ 0) → ((∃ c ∈ text, isxdigit c = false) ∨ text.length % 2 = 1) →
      (property_get_buffer_loop (2 * size) (text ++ 0 :: rest) 0 []).1 < 0) := by
  have hloop : b.length ≤ size →
      property_get_buffer_loop (2 * size) (hex_encoding b ++ 0 :: rest) 0 [] =
        ((b.length : Int), b) := by
    intro hs
    have := property_get_buffer_loop_hex size rest b 0 [] hb (by omega)
    simpa using this
  refine ⟨?_, hex_encoding_length b, hloop, ?_, ?_, ?_⟩
  · unfold property_set_buffer_
    rw [if_neg (by omega), property_set_buffer_loop_hex b hb]
  · intro hs hget
    unfold property_get_buffer
    rw [hget]
    simp only
    rw [if_neg (by omega)]
    exact hloop hs
  · intro hs
    have := property_get_buffer_loop_small size rest b 0 [] hb (by omega) (by omega)
    simpa using this
  · intro hnz hbad
    exact property_get_buffer_loop_bad (2 * size) rest text.length text 0 [] (le_refl _) hnz hbad

/-- Witness for C25: the two bytes `01 ff`, read back into a buffer of two
bytes from the text `01ff` the server returns. -/
theorem C25_hex_buffer_witness :
    property_get_buffer cenv_hex (fun _ => none) (some [97, 0]) 2 =
      ((([1, 255] : Bytes).length : Int), [1, 255]) :=
  (C25_hex_buffer cenv_hex (fun _ => none) 0 (some [97, 0]) false [1, 255] [0] [] 2
    (by decide) (by decide)).2.2.2.1 (by decide) (by decide)

/-! ## Short writes of the file backend -/

/-- When `open` succeeds and no `write` call is short, `kvdb_file_set` stores
the value. -/
theorem kvdb_file_set_writes_complete (errno : Int) (d : Dir) (key value : Bytes)
    (val_len : Nat) (hv : val_len < PROP_VALUE_MAX) :
    kvdb_file_set_writes errno [] d key value val_len =
      (0, (cstr key, value.take val_len) :: d.filter (fun f => f.1 != cstr key)) :=
  kvdb_file_set_ok errno d key value val_len hv

/-- C26 (evaluation at the failing input): the value `abc` is set with
`val_len = 3` and the first `write` call returns 2.  The loop calls
`write(fd, value, val_len)` again from the start of the value, so
`kvdb_file_set` returns 0 and the file holds the five bytes `ababc`; a
following `kvdb_file_get` with a buffer of 255 bytes returns 5 and these
bytes.  When no `write` call is short the file holds `abc` and the get
returns 3 and `abc`. -/
theorem C26_short_write :
    kvdb_file_set_writes 5 [2] [] [107, 0] [97, 98, 99] 3
      = (0, [([107], [97, 98, 97, 98, 99])]) ∧
    kvdb_file_get (kvdb_file_set_writes 5 [2] [] [107, 0] [97, 98, 99] 3).2 [107, 0] 255
      = (5, [97, 98, 97, 98, 99]) ∧
    kvdb_file_set_writes 5 [] [] [107, 0] [97, 98, 99] 3 = (0, [([107], [97, 98, 99])]) ∧
    kvdb_file_get (kvdb_file_set_writes 5 [] [] [107, 0] [97, 98, 99] 3).2 [107, 0] 255
      = (3, [97, 98, 99]) ∧
    kvdb_file_get (kvdb_file_set_writes 5 [] [] [107, 0] [97, 98, 99] 3).2 [107, 0] 2
      = (2, [97, 98]) := by
  decide

/-! ## The watcher list during a fan-out -/

theorem walk_list {σ : Type} (env : ServerEnv σ) (key frame : Bytes) (l : List kvdb_monitor) :
    (kvdb_monitor_walk env key frame l).1 = l.filter (fun m => !watcher_dropped env key m) := by
  induction l with
  | nil => rfl
  | cons m ms ih =>
    simp only [kvdb_monitor_walk]
    by_cases h1 : env.fnmatch m.key (cstr key) = 0
    · by_cases h2 : env.sendmsg_fails m.fd = true
      · simp [h1, h2, watcher_dropped, ih]
      · simp [h1, h2, watcher_dropped, ih]
    · simp [h1, watcher_dropped, ih]

theorem walk_close {σ : Type} (env : ServerEnv σ) (key frame : Bytes) (l : List kvdb_monitor) :
    (kvdb_monitor_walk env key frame l).2.filter Event.isClose =
      (l.filter (fun m => watcher_dropped env key m)).map (fun m => Event.close m.fd) := by
  induction l with
  | nil => rfl
  | cons m ms ih =>
    simp only [kvdb_monitor_walk]
    by_cases h1 : env.fnmatch m.key (cstr key) = 0
    · by_cases h2 : env.sendmsg_fails m.fd = true
      · simp [h1, h2, watcher_dropped, Event.isClose, ih]
      · simp [h1, h2, watcher_dropped, Event.isClose, ih]
    · simp [h1, watcher_dropped, ih]

/-- C27: during one fan-out `kvdb_monitor_notify` removes from the watcher list
exactly the watchers whose pattern matches and whose write failed, and keeps
the others in their order; it closes the socket of each removed watcher, once
for each, in list order; it writes the frame to every matching watcher of the
list as it was before the fan-out, so also to those that come after a
removed one.  A watcher that `kvdb_monitor_open` registers is placed at the
head of the list. -/
theorem C27_watcher_list {σ : Type} (env : ServerEnv σ) (server : kvdb_server σ)
    (key : Bytes) (value : Option Bytes) (val_len fd key_len : Nat) (pattern : Bytes) :
    (kvdb_monitor_notify env server key value val_len).1.head =
      server.head.filter (fun m => !watcher_dropped env key m) ∧
    (kvdb_monitor_notify env server key value val_len).2.filter Event.isClose =
      (server.head.filter (fun m => watcher_dropped env key m)).map
        (fun m => Event.close m.fd) ∧
    (kvdb_monitor_notify env server key value val_len).2.filter Event.isSendmsg =
      (server.head.filter (fun m => decide (env.fnmatch m.key (cstr key) = 0))).map
        (fun m => Event.sendmsg m.fd (notify_frame key value val_len)) ∧
    (env.zalloc_ok = true → 0 ≤ env.epoll_ctl_add →
      kvdb_monitor_open env server fd pattern key_len =
        (0, ⟨server.kvdb, ⟨fd, cstr pattern⟩ :: server.head⟩)) := by
  refine ⟨walk_list env key _ server.head, walk_close env key _ server.head,
    walk_sendmsg env key _ server.head, ?_⟩
  intro h1 h2
  unfold kvdb_monitor_open
  rw [if_neg (by simp [h1]), if_neg (by omega)]

/-- Witness for C27: a watcher of the pattern `a` is registered on a server
that has a watcher already. -/
theorem C27_watcher_list_witness :
    kvdb_monitor_open (env_ok kvdb) ⟨⟨[], []⟩, [⟨7, [98]⟩]⟩ 9 [97, 0] 2 =
      (0, ⟨⟨[], []⟩, ⟨9, cstr [97, 0]⟩ :: [⟨7, [98]⟩]⟩) :=
  (C27_watcher_list (env_ok kvdb) ⟨⟨[], []⟩, [⟨7, [98]⟩]⟩ [] none 0 9 2 [97, 0]).2.2.2 rfl
    (by decide)

/-! ## The receive loops -/

theorem kvdb_recv_error (rest : Sock) (buf : Bytes) (offset len : Nat) (h : offset < len) :
    kvdb_recv (RecvResult.error :: rest) buf offset len = (-1, buf, rest) := by
  simp [kvdb_recv, recv, h]

theorem kvdb_recv_closed (rest : Sock) (buf : Bytes) (offset len : Nat) (h : offset < len) :
    kvdb_recv (RecvResult.data [] :: rest) buf offset len = (-ENODATA, buf, rest) := by
  simp [kvdb_recv, recv, h]

theorem kvdb_recv_short (bs : Bytes) (rest : Sock) (buf : Bytes) (offset len : Nat)
    (hne : bs ≠ []) (h : offset + bs.length < len) :
    kvdb_recv (RecvResult.data bs :: rest) buf offset len =
      kvdb_recv rest (buf_write buf offset bs) (offset + bs.length) len := by
  have hpos : 0 < bs.length := List.length_pos.mpr hne
  have hle : bs.length ≤ len - offset := by omega
  have hrecv := recv_data_le bs rest (len - offset) hle
  rw [kvdb_recv]
  simp only [hrecv, Int.toNat_ofNat]
  rw [if_pos (by omega), if_neg (by omega), if_neg (by omega), if_pos h]

theorem kvdb_recv_full (bs : Bytes) (rest : Sock) (buf : Bytes) (offset len : Nat)
    (h1 : offset < len) (h2 : len ≤ offset + bs.length) :
    kvdb_recv (RecvResult.data bs :: rest) buf offset len =
      ((len : Int), buf_write buf offset (bs.take (len - offset)),
        if bs.length ≤ len - offset then rest
        else RecvResult.data (bs.drop (len - offset)) :: rest) := by
  unfold kvdb_recv
  rw [if_pos h1]
  by_cases hle : bs.length ≤ len - offset
  · have hrecv := recv_data_le bs rest (len - offset) hle
    rw [hrecv]
    simp only [Int.toNat_ofNat]
    rw [if_neg (by omega), if_neg (by omega), if_neg (by omega), if_pos hle,
      List.take_of_length_le hle]
  · have hrecv : recv (RecvResult.data bs :: rest) (len - offset) =
        (((len - offset : Nat) : Int), bs.take (len - offset),
          RecvResult.data (bs.drop (len - offset)) :: rest) := by
      simp [recv, hle]
    rw [hrecv]
    simp only [Int.toNat_ofNat]
    rw [if_neg (by omega), if_neg (by omega), if_neg (by omega), if_neg hle]

theorem buf_write_drop (buf data : Bytes) (off len : Nat) (h1 : off ≤ buf.length)
    (h2 : off + data.length ≤ len) :
    (buf_write buf off data).drop len = buf.drop len := by
  unfold buf_write
  have hl : (buf.take off ++ data).length = off + data.length := by
    simp [List.length_take, Nat.min_eq_left h1]
  rw [List.drop_append_eq_append_drop, List.drop_of_length_le (by omega), hl, List.nil_append,
    List.drop_drop]
  congr 1
  omega

theorem buf_write_take (buf data : Bytes) (off : Nat) (h1 : off ≤ buf.length) :
    (buf_write buf off data).take off = buf.take off := by
  unfold buf_write
  rw [List.append_assoc, List.take_append_of_le_length (by simp [List.length_take, h1])]
  simp [List.take_take]

theorem buf_write_same_length (buf data : Bytes) (off : Nat)
    (h : off + data.length ≤ buf.length) :
    (buf_write buf off data).length = buf.length := by
  unfold buf_write
  simp only [List.length_append, List.length_take, List.length_drop]
  omega

theorem recv_loop_spec_done (err : Int) (sock : Sock) (buf : Bytes) (offset len : Nat)
    (h : len ≤ offset) : recv_loop_spec err sock buf offset len ((len : Int), buf, sock) := by
  refine ⟨fun _ => rfl, fun h2 => by omega, fun h2 => by omega,
    fun _ => ⟨rfl, rfl, rfl⟩, by simp, ?_⟩
  intro h1 _ _
  have : len - offset = 0 := by omega
  simp [this, buf_write_nil]

theorem kvdb_recv_spec (len : Nat) :
    ∀ (sock : Sock) (buf : Bytes) (offset : Nat),
      recv_loop_spec (-1) sock buf offset len (kvdb_recv sock buf offset len) := by
  intro sock
  induction sock with
  | nil =>
    intro buf offset
    by_cases hlt : offset < len
    · rw [kvdb_recv, if_pos hlt]
      refine ⟨fun h => ?_, fun _ _ => rfl, fun _ h => ?_, fun _ => ⟨rfl, rfl, rfl⟩, by simp,
        fun _ _ h => ?_⟩
      · simp [sock_avail] at h; omega
      · simp [sock_fails] at h
      · simp [sock_avail] at h; omega
    · rw [kvdb_recv_done [] buf offset len (by omega)]
      exact recv_loop_spec_done (-1) [] buf offset len (by omega)
  | cons ev rest ih =>
    intro buf offset
    by_cases hlt : offset < len
    · cases ev with
      | error =>
        rw [kvdb_recv_error rest buf offset len hlt]
        refine ⟨fun h => ?_, fun _ h => ?_, fun _ _ => rfl, fun _ => ⟨rfl, rfl, rfl⟩,
          by simp [sock_bytes], fun _ _ h => ?_⟩
        · simp [sock_avail] at h; omega
        · simp [sock_fails] at h
        · simp [sock_avail] at h; omega
      | data bs =>
        by_cases hne : bs = []
        · subst hne
          rw [kvdb_recv_closed rest buf offset len hlt]
          refine ⟨fun h => ?_, fun _ _ => rfl, fun _ h => ?_, fun _ => ⟨rfl, rfl, rfl⟩,
            by simp [sock_bytes], fun _ _ h => ?_⟩
          · simp [sock_avail] at h; omega
          · simp [sock_fails] at h
          · simp [sock_avail] at h; omega
        · have hav : sock_avail (RecvResult.data bs :: rest) = bs ++ sock_avail rest := by
            simp [sock_avail, hne]
          have hfl : sock_fails (RecvResult.data bs :: rest) = sock_fails rest := by
            simp [sock_fails, hne]
          have hsb : sock_bytes (RecvResult.data bs :: rest) = bs ++ sock_bytes rest := rfl
          have hla : (bs ++ sock_avail rest).length = bs.length + (sock_avail rest).length :=
            List.length_append _ _
          have hlb : (bs ++ sock_bytes rest).length = bs.length + (sock_bytes rest).length :=
            List.length_append _ _
          by_cases hshort : offset + bs.length < len
          · rw [kvdb_recv_short bs rest buf offset len hne hshort]
            obtain ⟨i1, i2, i3, i4, i5, i6⟩ := ih (buf_write buf offset bs) (offset + bs.length)
            unfold recv_loop_spec
            rw [hav, hfl, hsb]
            refine ⟨fun h => i1 (by omega), fun h hf => i2 (by omega) hf,
              fun h hf => i3 (by omega) hf, fun hb => ?_, by omega, fun h1 hb h2 => ?_⟩
            · have hl := buf_write_same_length buf bs offset (by omega)
              obtain ⟨j1, j2, j3⟩ := i4 (by omega)
              refine ⟨by omega, ?_, ?_⟩
              · rw [j2, buf_write_drop buf bs offset len (by omega) (by omega)]
              · have := congrArg (List.take offset) j3
                rw [List.take_take, List.take_take,
                  show min offset (offset + bs.length) = offset by omega] at this
                rw [this, buf_write_take buf bs offset (by omega)]
            · have hl := buf_write_same_length buf bs offset (by omega)
              have ht1 : bs.take (len - offset) = bs := List.take_of_length_le (by omega)
              rw [i6 (by omega) (by omega) (by omega),
                buf_write_append buf bs _ offset (by omega),
                List.take_append_eq_append_take, ht1,
                show len - offset - bs.length = len - (offset + bs.length) by omega]
          · rw [kvdb_recv_full bs rest buf offset len hlt (by omega)]
            unfold recv_loop_spec
            rw [hav, hfl, hsb]
            have htl : (bs.take (len - offset)).length = len - offset := by
              rw [List.length_take]; omega
            refine ⟨fun _ => rfl, fun h => by omega, fun h => by omega, fun hb => ?_, ?_,
              fun h1 hb h2 => ?_⟩
            · exact ⟨buf_write_same_length buf _ offset (by omega),
                buf_write_drop buf _ offset len (by omega) (by omega),
                buf_write_take buf _ offset (by omega)⟩
            · by_cases hle : bs.length ≤ len - offset
              · rw [if_pos hle]; dsimp only; omega
              · rw [if_neg hle]
                have : (sock_bytes (RecvResult.data (bs.drop (len - offset)) :: rest)).length
                    = bs.length - (len - offset) + (sock_bytes rest).length := by
                  simp [sock_bytes]
                dsimp only
                omega
            · have ht2 : (bs ++ sock_avail rest).take (len - offset) = bs.take (len - offset) :=
                List.take_append_of_le_length (by omega)
              rw [ht2]
    · rw [kvdb_recv_done (ev :: rest) buf offset len (by omega)]
      exact recv_loop_spec_done (-1) (ev :: rest) buf offset len (by omega)

theorem recv_safe_done (errno : Int) (sock : Sock) (buf : Bytes) (offset len : Nat)
    (h : len ≤ offset) : recv_safe errno sock buf offset len = ((len : Int), buf, sock) := by
  cases sock with
  | nil => simp [recv_safe, Nat.not_lt.mpr h]
  | cons ev rest => simp [recv_safe, Nat.not_lt.mpr h]

theorem recv_safe_error (errno : Int) (rest : Sock) (buf : Bytes) (offset len : Nat)
    (h : offset < len) :
    recv_safe errno (RecvResult.error :: rest) buf offset len = (-errno, buf, rest) := by
  simp [recv_safe, recv, h]

theorem recv_safe_closed (errno : Int) (rest : Sock) (buf : Bytes) (offset len : Nat)
    (h : offset < len) :
    recv_safe errno (RecvResult.data [] :: rest) buf offset len = (-ENODATA, buf, rest) := by
  simp [recv_safe, recv, h]

theorem recv_safe_short (errno : Int) (bs : Bytes) (rest : Sock) (buf : Bytes)
    (offset len : Nat) (hne : bs ≠ []) (h : offset + bs.length < len) :
    recv_safe errno (RecvResult.data bs :: rest) buf offset len =
      recv_safe errno rest (buf_write buf offset bs) (offset + bs.length) len := by
  have hpos : 0 < bs.length := List.length_pos.mpr hne
  have hle : bs.length ≤ len - offset := by omega
  have hrecv := recv_data_le bs rest (len - offset) hle
  rw [recv_safe]
  simp only [hrecv, Int.toNat_ofNat]
  rw [if_pos (by omega), if_neg (by omega), if_neg (by omega), if_pos h]

theorem recv_safe_full (errno : Int) (bs : Bytes) (rest : Sock) (buf : Bytes)
    (offset len : Nat) (h1 : offset < len) (h2 : len ≤ offset + bs.length) :
    recv_safe errno (RecvResult.data bs :: rest) buf offset len =
      ((len : Int), buf_write buf offset (bs.take (len - offset)),
        if bs.length ≤ len - offset then rest
        else RecvResult.data (bs.drop (len - offset)) :: rest) := by
  unfold recv_safe
  rw [if_pos h1]
  by_cases hle : bs.length ≤ len - offset
  · have hrecv := recv_data_le bs rest (len - offset) hle
    rw [hrecv]
    simp only [Int.toNat_ofNat]
    rw [if_neg (by omega), if_neg (by omega), if_neg (by omega), if_pos hle,
      List.take_of_length_le hle]
  · have hrecv : recv (RecvResult.data bs :: rest) (len - offset) =
        (((len - offset : Nat) : Int), bs.take (len - offset),
          RecvResult.data (bs.drop (len - offset)) :: rest) := by
      simp [recv, hle]
    rw [hrecv]
    simp only [Int.toNat_ofNat]
    rw [if_neg (by omega), if_neg (by omega), if_neg (by omega), if_neg hle]

theorem recv_result_same (errno a : Int) (b : Bytes) (c : Sock) (h : a ≠ -1) :
    (a, b, c) =
      ((if (a, b, c).1 = -1 then -errno else (a, b, c).1), (a, b, c).2.1, (a, b, c).2.2) := by
  dsimp only
  rw [if_neg h]

/-- The loop of the client is the loop of the server, except that it returns
`-errno` where the other returns the result -1 of the failing `recv`. -/
theorem recv_safe_kvdb_recv (errno : Int) (len : Nat) :
    ∀ (sock : Sock) (buf : Bytes) (offset : Nat),
      recv_safe errno sock buf offset len =
        ((if (kvdb_recv sock buf offset len).1 = -1 then -errno
          else (kvdb_recv sock buf offset len).1),
          (kvdb_recv sock buf offset len).2.1, (kvdb_recv sock buf offset len).2.2) := by
  intro sock
  induction sock with
  | nil =>
    intro buf offset
    by_cases hlt : offset < len
    · rw [recv_safe, kvdb_recv, if_pos hlt]
      exact recv_result_same errno (-ENODATA) buf [] (by decide)
    · rw [recv_safe_done errno [] buf offset len (by omega),
        kvdb_recv_done [] buf offset len (by omega)]
      exact recv_result_same errno (len : Int) buf [] (by omega)
  | cons ev rest ih =>
    intro buf offset
    by_cases hlt : offset < len
    · cases ev with
      | error =>
        rw [recv_safe_error errno rest buf offset len hlt,
          kvdb_recv_error rest buf offset len hlt]
        dsimp only
        rw [if_pos rfl]
      | data bs =>
        by_cases hne : bs = []
        · subst hne
          rw [recv_safe_closed errno rest buf offset len hlt,
            kvdb_recv_closed rest buf offset len hlt]
          exact recv_result_same errno (-ENODATA) buf rest (by decide)
        · by_cases hshort : offset + bs.length < len
          · rw [recv_safe_short errno bs rest buf offset len hne hshort,
              kvdb_recv_short bs rest buf offset len hne hshort]
            exact ih _ _
          · rw [recv_safe_full errno bs rest buf offset len hlt (by omega),
              kvdb_recv_full bs rest buf offset len hlt (by omega)]
            exact recv_result_same errno (len : Int) _ _ (by omega)
    · rw [recv_safe_done errno (ev :: rest) buf offset len (by omega),
        kvdb_recv_done (ev :: rest) buf offset len (by omega)]
      exact recv_result_same errno (len : Int) buf (ev :: rest) (by omega)

theorem recv_safe_spec (errno : Int) (len : Nat) (sock : Sock) (buf : Bytes) (offset : Nat) :
    recv_loop_spec (-errno) sock buf offset len (recv_safe errno sock buf offset len) := by
  obtain ⟨i1, i2, i3, i4, i5, i6⟩ := kvdb_recv_spec len sock buf offset
  rw [recv_safe_kvdb_recv errno len sock buf offset]
  refine ⟨fun h => ?_, fun h hf => ?_, fun h hf => ?_, i4, i5, i6⟩
  · have := i1 h
    simp only [this]
    rw [if_neg (by omega)]
  · have := i2 h hf
    simp only [this]
    rw [if_neg (by decide)]
  · have := i3 h hf
    simp only [this]
    rw [if_pos trivial]

/-- C28: `kvdb_recv` of the server and `recv_safe` of the client, called with
`offset` bytes in the buffer, are total functions of the stream of `recv`
results (each round of the loop uses up one result).  Each returns `len`
when the bytes the stream delivers before the peer closes or a `recv` fails
bring the count to `len` or more, and then the buffer holds them from index
`offset` on; when they do not, it returns `-ENODATA` if the peer closes and
a negative value if `recv` fails (the -1 of `recv` for `kvdb_recv`, `-errno`
for `recv_safe`).  Each takes at most `len - offset` bytes from the stream
and leaves the buffer as it is at index `len` and beyond. -/
theorem C28_receive_loops (errno : Int) (sock : Sock) (buf : Bytes) (offset len : Nat) :
    recv_loop_spec (-1) sock buf offset len (kvdb_recv sock buf offset len) ∧
    recv_loop_spec (-errno) sock buf offset len (recv_safe errno sock buf offset len) ∧
    -ENODATA < 0 ∧ (0 < errno → -errno < 0) :=
  ⟨kvdb_recv_spec len sock buf offset, recv_safe_spec errno len sock buf offset, by decide,
    fun h => by omega⟩

/-- Witness for C28: four bytes are asked for, two are in the buffer, and the
stream delivers one byte, then three. -/
theorem C28_receive_loops_witness :
    (kvdb_recv [RecvResult.data [3], RecvResult.data [4, 5, 6]] [1, 2, 0, 0, 9] 2 4).1
      = ((4 : Nat) : Int) :=
  (C28_receive_loops 5 [RecvResult.data [3], RecvResult.data [4, 5, 6]] [1, 2, 0, 0, 9] 2 4).1.1
    (by decide)

/-! ## The one-way setters -/

/-- C29 (evaluation at the failing input): `property_set_oneway`,
`property_set_bool_oneway`, `property_set_int32_oneway` and
`property_set_int64_oneway` are their shared helper called with
oneway = true, but `property_set_buffer_oneway` is `property_set_buffer_`
called with oneway = false, as `property_set_buffer` is.  On a connection
where the server sends no status, the one-way set of the buffer `01` under the
key `a` waits for the reply and returns `-EINVAL`, where the helper with
oneway = true returns the result of `sendmsg`. -/
theorem C29_buffer_oneway_waits :
    (∀ env getenv setenv key value,
      property_set_oneway env getenv setenv key value =
        property_set_ env getenv setenv key value true) ∧
    (∀ env getenv setenv key value,
      property_set_bool_oneway env getenv setenv key value =
        property_set_bool_ env getenv setenv key value true) ∧
    (∀ env getenv setenv key value,
      property_set_int32_oneway env getenv setenv key value =
        property_set_int32_ env getenv setenv key value true) ∧
    (∀ env getenv setenv key value,
      property_set_int64_oneway env getenv setenv key value =
        property_set_int64_ env getenv setenv key value true) ∧
    (∀ env getenv setenv key value size,
      property_set_buffer_oneway env getenv setenv key value size =
        property_set_buffer_ env getenv setenv key value size false) ∧
    property_set_buffer_oneway cenv_absent (fun _ => none) 0 (some [97, 0]) [1] 1
      = (-EINVAL, [Event.sendmsg 3 [83, 2, 3, 97, 0, 48, 49, 0], Event.close 3]) ∧
    property_set_buffer_ cenv_absent (fun _ => none) 0 (some [97, 0]) [1] 1 true
      = (8, [Event.sendmsg 3 [83, 2, 3, 97, 0, 48, 49, 0], Event.close 3]) := by
  refine ⟨fun _ _ _ _ _ => rfl, fun _ _ _ _ _ => rfl, fun _ _ _ _ _ => rfl,
    fun _ _ _ _ _ => rfl, fun _ _ _ _ _ _ => rfl, ?_, ?_⟩ <;> decide

/-! ## The priority table of the logger -/

/-- C30 (evaluation at the failing input): the table has 9 entries.  With
ANDROID_LOG_MIN_PRIORITY not set and the default logger,
`__android_log_buf_vprint` called with the priority 9 reads `g_logprimap` at
index 9, outside the table: it checks the priority from below only.  With
ANDROID_LOG_MIN_PRIORITY set to -5 and the priority -3 it reads index -3.
`__android_log_logd_logger` maps a priority above ANDROID_LOG_SILENT to
ANDROID_LOG_FATAL, but for a message of priority -1 it reads index -1. -/
theorem C30_priority_index :
    g_logprimap.length = 9 ∧ ANDROID_LOG_SILENT = 8 ∧
    __android_log_buf_vprint none true 9 = (1, some 9) ∧ ¬ in_logprimap 9 ∧
    __android_log_buf_vprint (some (-5)) true (-3) = (1, some (-3)) ∧ ¬ in_logprimap (-3) ∧
    __android_log_logd_logger 9 = ANDROID_LOG_FATAL ∧
    __android_log_logd_logger (-1) = -1 ∧ ¬ in_logprimap (-1) := by
  decide

end Kvdb
